import Mathlib

/-
  Verification development for the edid-parser-ts repository.

  The TypeScript decoder (src/parser/parser-core.ts, parser-utils.ts) is
  shallowly embedded below.  JavaScript numbers are modelled as follows:
  integer-valued byte/bit arithmetic is carried out on Nat (all values stay
  far below 2^31, so JS bitwise ToInt32 semantics coincide with plain
  arithmetic at every call site); values that can be fractional (pixel clock
  in MHz, refresh rates in Hz, gamma, chromaticity coordinates) are modelled
  as Rat; `Math.round` is modelled as `jsRound` (floor of x + 1/2, which is
  the JS semantics on all finite arguments); the `Number.POSITIVE_INFINITY`
  sentinel used by the feature aggregator is modelled as `Option Int` with
  `none` standing for the infinity, and `undefined` is modelled as `Option`.
  A `Uint8ClampedArray` built from caller data is modelled by clamping each
  integer into [0, 255].

  Scope notes (fields whose values no claim mentions and that perform no
  byte reads are elided, so that the read/warning behaviour of the decoder
  is preserved exactly):
  - the vendor-name lookup (`getVendorInfo`) is an external collaborator per
    the specification and is not modelled;
  - the pure string clean-up `sanitizeMonitorDescriptorText` and the derived
    text fields (model name, serial string, unspecified strings) are elided;
    the monitor-descriptor walk itself, including SPWG pair sniffing and
    every byte read it performs, is modelled faithfully;
  - the derived diagonal sizes (`computeDiagonalInches`/`computeDiagonalMm`,
    which use an irrational square root) are elided; they feed no control
    flow and no claim;
  - in the HDMI-Forum parsers the TS code stores `NaN` for a failed read
    inside its local `data` array; every use of that array in scope passes
    the value through bitwise operations for which JS coerces both `NaN`
    and `0` to `0`, so failed reads are stored as `0` here.  The numeric
    TMDS/luminance convenience fields that would expose the difference are
    not referenced by any claim.
-/

set_option maxRecDepth 100000

namespace EdidParser

/-- Clamp of one caller-supplied integer by a `Uint8ClampedArray`. -/
def clampU8 (x : Int) : Nat := (min 255 (max 0 x)).toNat

/-- Conversion of caller data to the byte buffer (new Uint8ClampedArray(data)). -/
def toBytes (data : List Int) : List Nat := data.map clampU8

/-- JS `Math.round` on a finite rational: floor of x + 1/2. -/
def jsRound (x : ℚ) : ℤ := ⌊x + 1/2⌋

/-- Reinterpretation of a Nat as a signed 32-bit integer (JS bitwise result). -/
def toInt32 (n : Nat) : Int :=
  if n % 2 ^ 32 < 2 ^ 31 then ((n % 2 ^ 32 : Nat) : Int)
  else ((n % 2 ^ 32 : Nat) : Int) - 2 ^ 32

/-- Warning codes of ParsedEdidWarningCode (parser-types.ts). -/
inductive WarningCode where
  | too_short
  | length_not_multiple_of_128
  | invalid_header
  | checksum_failed
  | extension_count_mismatch
  | unknown_edid_minor_version
  | unknown_extension_tag
  | unknown_data_block
  | parse_error
  | out_of_range_read
  deriving DecidableEq, Repr

/-- One entry of the warnings list (`ParsedEdidWarning`); the opaque `detail`
payload is not modelled. -/
structure Warning where
  code : WarningCode
  message : String
  blockIndex : Option Nat := none
  offset : Option Nat := none
  deriving DecidableEq, Repr

/-- Constructor used by `warn` in parser-core.ts. -/
def mkWarning (code : WarningCode) (message : String)
    (blockIndex : Option Nat := none) (offset : Option Nat := none) : Warning :=
  { code := code, message := message, blockIndex := blockIndex, offset := offset }

/-- The read context: the clamped byte buffer.  The TS `ReadContext` also
carries the mutable warnings array; here every reading function returns the
list of warnings it appended, in order, and callers concatenate them. -/
structure ReadCtx where
  bytes : List Nat
  deriving DecidableEq, Repr

/-- Pure view of one byte of the buffer (the in-range case of `readU8`). -/
def ReadCtx.peek (ctx : ReadCtx) (absoluteOffset : Nat) : Option Nat :=
  ctx.bytes.get? absoluteOffset

/-- Embedding of `readU8`: out-of-range access appends an
`out_of_range_read` warning and yields `undefined` (here `none`).  Every
call site in the source passes a non-negative absolute offset (offsets are
sums of non-negative block offsets and field offsets, and the two
subtractions that occur are guarded to stay at least 0), so the TS
`absoluteOffset < 0` branch is never taken and offsets are Nat here. -/
def readU8 (ctx : ReadCtx) (absoluteOffset : Nat)
    (blockIndex : Option Nat := none) (relativeOffset : Option Nat := none) :
    Option Nat × List Warning :=
  match ctx.peek absoluteOffset with
  | some v => (some v, [])
  | none =>
      (none,
        [mkWarning .out_of_range_read
          ("Attempted to read beyond available EDID bytes.")
          blockIndex (relativeOffset <|> some absoluteOffset)])

/-- A block reader (`createBlockReader`): a reader bound to one 128-byte
block's base offset and block index. -/
structure BlockReader where
  ctx : ReadCtx
  blockIndex : Nat
  blockOffset : Nat
  deriving DecidableEq, Repr

/-- Relative single-byte read (`reader.u8`). -/
def BlockReader.u8 (r : BlockReader) (offset : Nat) : Option Nat × List Warning :=
  readU8 r.ctx (r.blockOffset + offset) (some r.blockIndex) (some offset)

/-- Relative single-byte read defaulting to zero (`reader.u8OrZero`). -/
def BlockReader.u8OrZero (r : BlockReader) (offset : Nat) : Nat × List Warning :=
  match r.u8 offset with
  | (some v, w) => (v, w)
  | (none, w) => (0, w)

/-- Pure view of `reader.u8` without the warning side channel; used to state
properties of scans. -/
def BlockReader.peek (r : BlockReader) (offset : Nat) : Option Nat :=
  r.ctx.peek (r.blockOffset + offset)

/-- The EDID block length constant (parser-utils.ts). -/
def EDID_BLOCK_LENGTH : Nat := 128

/-- Embedding of `getChecksum` (byte 127 of the block). -/
def getChecksum (r : BlockReader) : Nat × List Warning :=
  r.u8OrZero 127

/-- Embedding of `calcChecksum`: sums bytes 0..126 of the given block and
returns `256 - (sum % 256)`.  Note the source does not reduce the result
modulo 256 again, so a block whose bytes 0..126 sum to a multiple of 256
yields 256, a value no stored byte can equal. -/
def calcChecksum (bytes : List Nat) (block : Nat) : Option Nat :=
  let startAddress := block * EDID_BLOCK_LENGTH
  let endAddress := startAddress + EDID_BLOCK_LENGTH - 1
  if bytes.length < endAddress + 1 then
    none
  else
    let checksum := ((List.range (endAddress - startAddress)).map
      (fun i => bytes.getD (startAddress + i) 0)).sum
    some (256 - checksum % 256)

/-- Embedding of `validChecksum`. -/
def validChecksum (ctx : ReadCtx) (block : Nat) (blockIndexForWarning : Nat) :
    Option Bool × List Warning :=
  let checksumOffset := (block + 1) * EDID_BLOCK_LENGTH - 1
  match readU8 ctx checksumOffset (some blockIndexForWarning) (some 127) with
  | (none, w) => (none, w)
  | (some checksum, w) =>
      match calcChecksum ctx.bytes block with
      | none => (none, w)
      | some calculated => (some (checksum = calculated), w)

/-- Embedding of `validateHeader`: bytes 0-7 must match the EDID signature;
any missing byte means invalid. -/
def validateHeader (r : BlockReader) : Bool × List Warning :=
  let (h0, w0) := r.u8 0
  let (h1, w1) := r.u8 1
  let (h2, w2) := r.u8 2
  let (h3, w3) := r.u8 3
  let (h4, w4) := r.u8 4
  let (h5, w5) := r.u8 5
  let (h6, w6) := r.u8 6
  let (h7, w7) := r.u8 7
  let w := w0 ++ w1 ++ w2 ++ w3 ++ w4 ++ w5 ++ w6 ++ w7
  let header := [h0, h1, h2, h3, h4, h5, h6, h7]
  if header.any (fun v => v = none) then
    (false, w)
  else
    (decide (h0 = some 0x00 ∧ h1 = some 0xff ∧ h2 = some 0xff ∧ h3 = some 0xff ∧
      h4 = some 0xff ∧ h5 = some 0xff ∧ h6 = some 0xff ∧ h7 = some 0x00), w)

/-- Embedding of `intToAscii` (5-bit letter code to a character of
the alphabet table, empty for unmapped codes). -/
def intToAscii (intCode : Nat) : String :=
  let abc : List Char :=
    ['0', 'A', 'B', 'C', 'D', 'E', 'F', 'G', 'H', 'I', 'J', 'K', 'L', 'M',
     'N', 'O', 'P', 'Q', 'R', 'S', 'T', 'U', 'V', 'W', 'X', 'Y', 'Z']
  match abc.get? intCode with
  | some c => String.mk [c]
  | none => ""

/-- Embedding of `getVendorId` (bytes 8-9, three packed 5-bit letters). -/
def getVendorId (r : BlockReader) : String × List Warning :=
  let (byte1, w1) := r.u8OrZero 8
  let (byte2, w2) := r.u8OrZero 9
  let firstLetter := (byte1 >>> 2) &&& 0x1f
  let secondLetterTop := byte1 &&& 0x03
  let secondLetterBottom := (byte2 >>> 5) &&& 0x07
  let secondLetter := (secondLetterTop <<< 3) ||| secondLetterBottom
  let thirdLetter := byte2 &&& 0x1f
  (intToAscii firstLetter ++ intToAscii secondLetter ++ intToAscii thirdLetter,
    w1 ++ w2)

/-- Embedding of `getProductCode` (little-endian 16-bit at bytes 10-11). -/
def getProductCode (r : BlockReader) : Nat × List Warning :=
  let (lo, w1) := r.u8OrZero 10
  let (hi, w2) := r.u8OrZero 11
  ((hi <<< 8) ||| lo, w1 ++ w2)

/-- Embedding of `getSerialNumberInt` (little-endian 32-bit at bytes 12-15;
the JS bitwise OR produces a signed 32-bit result). -/
def getSerialNumberInt (r : BlockReader) : Int × List Warning :=
  let (b1, w1) := r.u8OrZero 12
  let (b2, w2) := r.u8OrZero 13
  let (b3, w3) := r.u8OrZero 14
  let (b4, w4) := r.u8OrZero 15
  (toInt32 ((b4 <<< 24) ||| (b3 <<< 16) ||| (b2 <<< 8) ||| b1),
    w1 ++ w2 ++ w3 ++ w4)

/-- Embedding of `getManufactureWeek` (byte 16, raw). -/
def getManufactureWeek (r : BlockReader) : Nat × List Warning :=
  r.u8OrZero 16

/-- Embedding of `getManufactureYear` (byte 17 plus 1990). -/
def getManufactureYear (r : BlockReader) : Nat × List Warning :=
  let (b, w) := r.u8OrZero 17
  (b + 1990, w)

/-- Embedding of `getEdidVersion` (byte 18). -/
def getEdidVersion (r : BlockReader) : Nat × List Warning :=
  r.u8OrZero 18

/-- Embedding of `getEdidRevision` (byte 19). -/
def getEdidRevision (r : BlockReader) : Nat × List Warning :=
  r.u8OrZero 19

/-- Product info record (the derived text fields, which come from the elided
string sanitizer, are not modelled). -/
structure ProductInfo where
  productCode : Nat
  serialNumberInt : Int
  manufactureWeek : Nat
  manufactureYear : Nat
  deriving DecidableEq, Repr

/-- Basic display parameters (byte 20-24 bitmaps); the derived diagonal size
is elided.  Fields set only on one branch of the digital/analog split are
options, mirroring the optional TS fields. -/
structure BasicDisplayParams where
  isDigital : Bool
  isVesaDfpCompatible : Option Bool := none
  whiteSyncLevels : Option Nat := none
  isBlankToBlack : Option Bool := none
  isSeparateSyncSupported : Option Bool := none
  isCompositeSyncSupported : Option Bool := none
  isSyncOnGreen : Option Bool := none
  isVsyncSerrated : Option Bool := none
  physicalWidthInMm : Nat
  physicalHeightInMm : Nat
  displayGamma : ℚ
  supportsDpmsStandby : Bool
  supportsDpmsSuspend : Bool
  supportsDpmsActiveOff : Bool
  displayTypeCode : Nat
  isStandardSRgb : Bool
  isPreferredTiming : Bool
  isGtfSupported : Bool
  deriving DecidableEq, Repr

/-- Embedding of `getBasicDisplayParams`. -/
def getBasicDisplayParams (r : BlockReader) : BasicDisplayParams × List Warning :=
  let (videoInParams, wA) := r.u8OrZero 20
  let digital := videoInParams &&& 0x80 ≠ 0
  let (maxHor, wB) := r.u8OrZero 21
  let (maxVert, wC) := r.u8OrZero 22
  let (gammaRaw, wD) := r.u8OrZero 23
  let (supportedFeatures, wE) := r.u8OrZero 24
  let bdp : BasicDisplayParams :=
    { isDigital := digital
      isVesaDfpCompatible :=
        if digital then some (videoInParams &&& 0x01 ≠ 0) else none
      whiteSyncLevels :=
        if digital then none else some ((videoInParams >>> 5) &&& 0x03)
      isBlankToBlack :=
        if digital then none else some ((videoInParams >>> 4) &&& 0x01 ≠ 0)
      isSeparateSyncSupported :=
        if digital then none else some ((videoInParams >>> 3) &&& 0x01 ≠ 0)
      isCompositeSyncSupported :=
        if digital then none else some ((videoInParams >>> 2) &&& 0x01 ≠ 0)
      isSyncOnGreen :=
        if digital then none else some ((videoInParams >>> 1) &&& 0x01 ≠ 0)
      isVsyncSerrated :=
        if digital then none else some (videoInParams &&& 0x01 ≠ 0)
      physicalWidthInMm := maxHor * 10
      physicalHeightInMm := maxVert * 10
      displayGamma := (gammaRaw : ℚ) * (254 / 25500) + 1
      supportsDpmsStandby := supportedFeatures &&& 0x80 ≠ 0
      supportsDpmsSuspend := supportedFeatures &&& 0x40 ≠ 0
      supportsDpmsActiveOff := supportedFeatures &&& 0x20 ≠ 0
      displayTypeCode := (supportedFeatures >>> 3) &&& 0x03
      isStandardSRgb := supportedFeatures &&& 0x04 ≠ 0
      isPreferredTiming := supportedFeatures &&& 0x02 ≠ 0
      isGtfSupported := supportedFeatures &&& 0x01 ≠ 0 }
  (bdp, wA ++ wB ++ wC ++ wD ++ wE)

/-- Chromaticity coordinates (bytes 25-34): raw 10-bit values and the
normalized coordinates obtained by dividing by 1024. -/
structure ChromaticityCoordinates where
  redX : Nat
  redXCoords : ℚ
  redY : Nat
  redYCoords : ℚ
  greenX : Nat
  greenXCoords : ℚ
  greenY : Nat
  greenYCoords : ℚ
  blueX : Nat
  blueXCoords : ℚ
  blueY : Nat
  blueYCoords : ℚ
  whiteX : Nat
  whiteXCoords : ℚ
  whiteY : Nat
  whiteYCoords : ℚ
  deriving DecidableEq, Repr

/-- Embedding of `getChromaticityCoordinates`. -/
def getChromaticityCoordinates (r : BlockReader) :
    ChromaticityCoordinates × List Warning :=
  let (redGreenLsb, w0) := r.u8OrZero 25
  let (redXMsb, w1) := r.u8OrZero 27
  let (redYMsb, w2) := r.u8OrZero 28
  let (greenXMsb, w3) := r.u8OrZero 29
  let (greenYMsb, w4) := r.u8OrZero 30
  let (blueWhiteLsb, w5) := r.u8OrZero 26
  let (blueXMsb, w6) := r.u8OrZero 31
  let (blueYMsb, w7) := r.u8OrZero 32
  let (whiteXMsb, w8) := r.u8OrZero 33
  let (whiteYMsb, w9) := r.u8OrZero 34
  let redX := (redXMsb <<< 2) ||| ((redGreenLsb >>> 6) &&& 0x03)
  let redY := (redYMsb <<< 2) ||| ((redGreenLsb >>> 4) &&& 0x03)
  let greenX := (greenXMsb <<< 2) ||| ((redGreenLsb >>> 2) &&& 0x03)
  let greenY := (greenYMsb <<< 2) ||| (redGreenLsb &&& 0x03)
  let blueX := (blueXMsb <<< 2) ||| ((blueWhiteLsb >>> 6) &&& 0x03)
  let blueY := (blueYMsb <<< 2) ||| ((blueWhiteLsb >>> 4) &&& 0x03)
  let whiteX := (whiteXMsb <<< 2) ||| ((blueWhiteLsb >>> 2) &&& 0x03)
  let whiteY := (whiteYMsb <<< 2) ||| (blueWhiteLsb &&& 0x03)
  ({ redX := redX, redXCoords := (redX : ℚ) / 1024
     redY := redY, redYCoords := (redY : ℚ) / 1024
     greenX := greenX, greenXCoords := (greenX : ℚ) / 1024
     greenY := greenY, greenYCoords := (greenY : ℚ) / 1024
     blueX := blueX, blueXCoords := (blueX : ℚ) / 1024
     blueY := blueY, blueYCoords := (blueY : ℚ) / 1024
     whiteX := whiteX, whiteXCoords := (whiteX : ℚ) / 1024
     whiteY := whiteY, whiteYCoords := (whiteY : ℚ) / 1024 },
    w0 ++ w1 ++ w2 ++ w3 ++ w4 ++ w5 ++ w6 ++ w7 ++ w8 ++ w9)

/-- Embedding of `getTimingBitmap` (bytes 35-37, MSB first). -/
def getTimingBitmap (r : BlockReader) : Nat × List Warning :=
  let (b1, w1) := r.u8OrZero 35
  let (b2, w2) := r.u8OrZero 36
  let (b3, w3) := r.u8OrZero 37
  ((b1 <<< 16) ||| (b2 <<< 8) ||| b3, w1 ++ w2 ++ w3)

/-- One decoded standard display mode slot. -/
structure StandardDisplayMode where
  xResolutionPx : Nat
  xyPixelRatio : Nat
  vertFreqHz : Nat
  deriving DecidableEq, Repr

/-- Loop body of `getStandardDisplayModes`: walks two-byte slots from
`index` below 53, stopping early when a byte is missing; a slot is decoded
only when byte1 is not 0x01 and byte2 is not 0x01.  The structural `fuel`
argument dominates the iteration count (the loop starts at 38, steps by 2
and stops at 53, so 53 iterations always suffice) and exists only to make
the recursion structural; it never runs out. -/
def getStandardDisplayModesGo (r : BlockReader) : Nat → Nat →
    List StandardDisplayMode → List Warning →
    List StandardDisplayMode × List Warning
  | 0, _, acc, w => (acc, w)
  | fuel + 1, index, acc, w =>
    if index < 53 then
      let (b1, w1) := r.u8 index
      let (b2, w2) := r.u8 (index + 1)
      let w := w ++ w1 ++ w2
      match b1, b2 with
      | some byte1, some byte2 =>
          let acc :=
            if byte1 ≠ 0x01 ∧ byte2 ≠ 0x01 then
              acc ++ [{ xResolutionPx := (byte1 + 31) * 8
                        xyPixelRatio := (byte2 >>> 6) &&& 0x03
                        vertFreqHz := (byte2 &&& 0x3f) + 60 }]
            else acc
          getStandardDisplayModesGo r fuel (index + 2) acc w
      | _, _ => (acc, w)
    else (acc, w)

/-- Embedding of `getStandardDisplayModes` (8 two-byte slots at bytes
38-53). -/
def getStandardDisplayModes (r : BlockReader) :
    List StandardDisplayMode × List Warning :=
  getStandardDisplayModesGo r 53 38 [] []

/-- Embedding of `getNumberExtensions` (byte 126). -/
def getNumberExtensions (r : BlockReader) : Nat × List Warning :=
  r.u8OrZero 126

/-- Loop body of `parseMonitorDescriptorText`: reads up to 13 text bytes,
stopping at a line feed or NUL.  The structural `fuel` argument (13 at the
top call) dominates the iteration count and never runs out. -/
def parseMonitorDescriptorTextGo (r : BlockReader) (base : Nat) : Nat → Nat →
    List Nat → List Warning → List Nat × List Warning
  | 0, _, chars, w => (chars, w)
  | fuel + 1, index, chars, w =>
    if index < 13 then
      let (byte, w1) := r.u8OrZero (base + index)
      let w := w ++ w1
      if byte = 0x0a ∨ byte = 0x00 then (chars, w)
      else parseMonitorDescriptorTextGo r base fuel (index + 1) (chars ++ [byte]) w
    else (chars, w)

/-- Trailing-space trim used by `parseMonitorDescriptorText`. -/
def dropTrailingSpaces (chars : List Nat) : List Nat :=
  (chars.reverse.dropWhile (fun c => c = 0x20)).reverse

/-- Embedding of `parseMonitorDescriptorText` (13 text bytes at offset 5 of
the descriptor slot, cut at LF/NUL and trimmed of trailing spaces). -/
def parseMonitorDescriptorText (r : BlockReader) (descriptorOffset : Nat) :
    List Nat × List Warning :=
  let (chars, w) := parseMonitorDescriptorTextGo r (descriptorOffset + 5) 13 0 [] []
  (dropTrailingSpaces chars, w)

/-- Byte loop of `parseMonitorDescriptorPayload`; structural recursion on
the number of bytes left to read. -/
def parseMonitorDescriptorPayloadGo (r : BlockReader) (base : Nat) : Nat → Nat →
    List Nat → List Warning → List Nat × List Warning
  | 0, _, payload, w => (payload, w)
  | fuel + 1, index, payload, w =>
    if index < 13 then
      let (byte, w1) := r.u8OrZero (base + index)
      parseMonitorDescriptorPayloadGo r base fuel (index + 1) (payload ++ [byte]) (w ++ w1)
    else (payload, w)

/-- Embedding of `parseMonitorDescriptorPayload` (all 13 payload bytes, zero
for missing ones). -/
def parseMonitorDescriptorPayload (r : BlockReader) (descriptorOffset : Nat) :
    List Nat × List Warning :=
  parseMonitorDescriptorPayloadGo r (descriptorOffset + 5) 13 0 [] []

/-- End trim of `decodeSpwgPartNumber`: steps the exclusive end index back
over trailing space, NUL and LF bytes. -/
def spwgTrimEnd (bytes : List Nat) (startInclusive : Nat) : Nat → Nat
  | 0 => 0
  | e + 1 =>
      if e + 1 > startInclusive then
        let byte := bytes.getD e 0
        if byte = 0x20 ∨ byte = 0x00 ∨ byte = 0x0a then
          spwgTrimEnd bytes startInclusive e
        else e + 1
      else e + 1

/-- Character collection loop of `decodeSpwgPartNumber`: walks from the
start to the trimmed end, stops at LF/NUL, and keeps printable ASCII;
structural recursion on the number of bytes left. -/
def spwgCollect (bytes : List Nat) (stop : Nat) : Nat → Nat → List Char →
    List Char
  | 0, _, acc => acc
  | fuel + 1, index, acc =>
    if index < stop then
      let byte := bytes.getD index 0
      if byte = 0x0a ∨ byte = 0x00 then acc
      else
        let acc := if 0x20 ≤ byte ∧ byte ≤ 0x7e then acc ++ [Char.ofNat byte] else acc
        spwgCollect bytes stop fuel (index + 1) acc
    else acc

/-- Embedding of `decodeSpwgPartNumber`. -/
def decodeSpwgPartNumber (bytes : List Nat) (startInclusive endExclusive : Nat) :
    String :=
  let stop := spwgTrimEnd bytes startInclusive endExclusive
  String.mk (spwgCollect bytes stop stop startInclusive [])

/-- Embedding of `isSpwgDescriptor4Payload` (the SPWG descriptor-4 sniffing
heuristic). -/
def isSpwgDescriptor4Payload (payload : List Nat) : Bool :=
  let lvdsChannels := payload.getD 8 0
  if lvdsChannels ≠ 1 ∧ lvdsChannels ≠ 2 then false
  else if (payload.getD 9 0) &&& 0xfe ≠ 0 then false
  else if payload.getD 10 0 ≠ 0x0a then false
  else
    ((List.range 8).map (fun i => payload.getD i 0)).any
      (fun byte => byte < 0x20 ∨ byte > 0x7e)

/-- The SPWG descriptor-3 sub-record. -/
structure SpwgDescriptor3 where
  pcMakerPartNumber : String
  lcdSupplierEedidRevision : Nat
  manufacturerPartNumber : String
  deriving DecidableEq, Repr

/-- The SPWG descriptor-4 sub-record. -/
structure SpwgDescriptor4 where
  smbusValues : List Nat
  lvdsChannels : Nat
  isPanelSelfTestPresent : Bool
  deriving DecidableEq, Repr

/-- The SPWG module data decoded from a pair of adjacent 0xFE descriptors. -/
structure SpwgData where
  moduleRevision : Nat
  descriptor3 : SpwgDescriptor3
  descriptor4 : SpwgDescriptor4
  deriving DecidableEq, Repr

/-- The 18-byte length of one DTD / monitor-descriptor slot. -/
def DTD_LENGTH : Nat := 18

/-- Embedding of `tryParseSpwgDescriptorPair`. -/
def tryParseSpwgDescriptorPair (r : BlockReader) (descriptorOffset endOffset : Nat) :
    Option SpwgData × List Warning :=
  let nextDescriptorOffset := descriptorOffset + DTD_LENGTH
  if nextDescriptorOffset ≥ endOffset then (none, [])
  else
    let (nextByte0, w0) := r.u8 nextDescriptorOffset
    let (nextByte1, w1) := r.u8 (nextDescriptorOffset + 1)
    let (nextByte2, w2) := r.u8 (nextDescriptorOffset + 2)
    let (nextDescriptorTag, w3) := r.u8 (nextDescriptorOffset + 3)
    let (nextByte4, w4) := r.u8 (nextDescriptorOffset + 4)
    let w := w0 ++ w1 ++ w2 ++ w3 ++ w4
    if nextByte0 ≠ some 0x00 ∨ nextByte1 ≠ some 0x00 ∨ nextByte2 ≠ some 0x00 ∨
        nextDescriptorTag ≠ some 0xfe ∨ nextByte4 ≠ some 0x00 then
      (none, w)
    else
      let (descriptor3Payload, wP3) := parseMonitorDescriptorPayload r descriptorOffset
      let (descriptor4Payload, wP4) := parseMonitorDescriptorPayload r nextDescriptorOffset
      let w := w ++ wP3 ++ wP4
      if ¬ isSpwgDescriptor4Payload descriptor4Payload then (none, w)
      else
        let pcMakerPartNumber := decodeSpwgPartNumber descriptor3Payload 0 5
        let manufacturerPartNumber := decodeSpwgPartNumber descriptor3Payload 6 13
        if pcMakerPartNumber.length = 0 ∨ manufacturerPartNumber.length = 0 then
          (none, w)
        else
          match r.u8 (descriptorOffset - 1) with
          | (none, wR) => (none, w ++ wR)
          | (some moduleRevision, wR) =>
              (some
                { moduleRevision := moduleRevision
                  descriptor3 :=
                    { pcMakerPartNumber := pcMakerPartNumber
                      lcdSupplierEedidRevision := descriptor3Payload.getD 5 0
                      manufacturerPartNumber := manufacturerPartNumber }
                  descriptor4 :=
                    { smbusValues := (List.range 8).map
                        (fun i => descriptor4Payload.getD i 0)
                      lvdsChannels := descriptor4Payload.getD 8 0
                      isPanelSelfTestPresent :=
                        (descriptor4Payload.getD 9 0) &&& 0x01 = 0x01 } },
                w ++ wR)

/-- Result of the monitor-descriptor walk; only the SPWG sub-record is kept
(the text accumulation fields rely on the elided string sanitizer and feed
no claim), but every byte read of the walk is performed. -/
structure ParsedMonitorDescriptors where
  spwg : Option SpwgData
  deriving DecidableEq, Repr

/-- Loop body of `getMonitorDescriptors`: scans 18-byte slots in the range,
detecting the first SPWG pair (which consumes two slots) and reading the
free text of serial-number/unspecified-text/model-name descriptors;
structural recursion on a fuel that dominates the slot count. -/
def getMonitorDescriptorsGo (r : BlockReader) (endOffset : Nat) : Nat → Nat →
    Option SpwgData → List Warning → ParsedMonitorDescriptors × List Warning
  | 0, _, spwg, w => ({ spwg := spwg }, w)
  | fuel + 1, descriptorOffset, spwg, w =>
    if descriptorOffset < endOffset then
      let (byte0, w0) := r.u8 descriptorOffset
      let (byte1, w1) := r.u8 (descriptorOffset + 1)
      let (byte2, w2) := r.u8 (descriptorOffset + 2)
      let (descriptorTag, w3) := r.u8 (descriptorOffset + 3)
      let (byte4, w4) := r.u8 (descriptorOffset + 4)
      let w := w ++ w0 ++ w1 ++ w2 ++ w3 ++ w4
      match byte0, byte1, byte2, descriptorTag, byte4 with
      | some b0, some b1, some b2, some tag, some b4 =>
          let isMonitorDescriptor := b0 = 0 ∧ b1 = 0 ∧ b2 = 0 ∧ b4 = 0
          if isMonitorDescriptor ∧ (tag = 0xff ∨ tag = 0xfe ∨ tag = 0xfc) then
            if tag = 0xfe ∧ spwg = none then
              match tryParseSpwgDescriptorPair r descriptorOffset endOffset with
              | (some spwgData, wS) =>
                  getMonitorDescriptorsGo r endOffset fuel
                    (descriptorOffset + DTD_LENGTH * 2) (some spwgData) (w ++ wS)
              | (none, wS) =>
                  let (_text, wT) := parseMonitorDescriptorText r descriptorOffset
                  getMonitorDescriptorsGo r endOffset fuel
                    (descriptorOffset + DTD_LENGTH) spwg (w ++ wS ++ wT)
            else
              let (_text, wT) := parseMonitorDescriptorText r descriptorOffset
              getMonitorDescriptorsGo r endOffset fuel
                (descriptorOffset + DTD_LENGTH) spwg (w ++ wT)
          else
            getMonitorDescriptorsGo r endOffset fuel
              (descriptorOffset + DTD_LENGTH) spwg w
      | _, _, _, _, _ => ({ spwg := spwg }, w)
    else ({ spwg := spwg }, w)

/-- Embedding of `getMonitorDescriptors`. -/
def getMonitorDescriptors (r : BlockReader) (startOffset endOffset : Nat) :
    ParsedMonitorDescriptors × List Warning :=
  getMonitorDescriptorsGo r endOffset endOffset startOffset none []

/-- One Detailed Timing Descriptor (18-byte record).  The diagonal size
field is elided (see the scope notes).  Fields whose meaning depends on the
2-bit sync-type code are options populated on exactly one branch. -/
structure Dtd where
  pixelClockMhz : ℚ
  horizontalActivePixels : Nat
  horizontalBlankLineCount : Nat
  verticalActivePixels : Nat
  verticalBlankLineCount : Nat
  horizontalSyncOffsetPixels : Nat
  horizontalSyncPulsePixels : Nat
  verticalSyncOffset : Nat
  verticalSyncPulseLineCount : Nat
  horizontalDisplaySizeInMm : Nat
  verticalDisplaySizeInMm : Nat
  horizontalBorderPixels : Nat
  verticalBorderLines : Nat
  isInterlaced : Bool
  stereoModeCode : Nat
  syncTypeCode : Nat
  vSyncPolarity : Option Bool := none
  vSyncSerrated : Option Bool := none
  syncAllRGBLines : Option Bool := none
  hSyncPolarity : Option Bool := none
  twoWayStereo : Bool
  deriving DecidableEq, Repr

/-- Embedding of `parseDtd`; yields `none` when the two pixel-clock bytes
are missing, mirroring the early return. -/
def parseDtd (r : BlockReader) (dtdOffset : Nat) : Option Dtd × List Warning :=
  let (pixelClockLo, wLo) := r.u8 dtdOffset
  let (pixelClockHi, wHi) := r.u8 (dtdOffset + 1)
  let w := wLo ++ wHi
  match pixelClockLo, pixelClockHi with
  | some lo, some hi =>
      let (b4a, w1) := r.u8OrZero (dtdOffset + 4)
      let (b2, w2) := r.u8OrZero (dtdOffset + 2)
      let (b4b, w3) := r.u8OrZero (dtdOffset + 4)
      let (b3, w4) := r.u8OrZero (dtdOffset + 3)
      let (b7a, w5) := r.u8OrZero (dtdOffset + 7)
      let (b5, w6) := r.u8OrZero (dtdOffset + 5)
      let (b7b, w7) := r.u8OrZero (dtdOffset + 7)
      let (b6, w8) := r.u8OrZero (dtdOffset + 6)
      let (b11a, w9) := r.u8OrZero (dtdOffset + 11)
      let (b8, w10) := r.u8OrZero (dtdOffset + 8)
      let (b11b, w11) := r.u8OrZero (dtdOffset + 11)
      let (b9, w12) := r.u8OrZero (dtdOffset + 9)
      let (b11c, w13) := r.u8OrZero (dtdOffset + 11)
      let (b10a, w14) := r.u8OrZero (dtdOffset + 10)
      let (b11d, w15) := r.u8OrZero (dtdOffset + 11)
      let (b10b, w16) := r.u8OrZero (dtdOffset + 10)
      let (b14a, w17) := r.u8OrZero (dtdOffset + 14)
      let (b12, w18) := r.u8OrZero (dtdOffset + 12)
      let (b14b, w19) := r.u8OrZero (dtdOffset + 14)
      let (b13, w20) := r.u8OrZero (dtdOffset + 13)
      let (b15, w21) := r.u8OrZero (dtdOffset + 15)
      let (b16, w22) := r.u8OrZero (dtdOffset + 16)
      let (b17a, w23) := r.u8OrZero (dtdOffset + 17)
      let (b17b, w24) := r.u8OrZero (dtdOffset + 17)
      let (b17c, w25) := r.u8OrZero (dtdOffset + 17)
      let syncTypeCode := (b17c >>> 3) &&& 0x03
      let (b17d, w26) := r.u8OrZero (dtdOffset + 17)
      let (b17e, w27) := r.u8OrZero (dtdOffset + 17)
      let (b17f, w28) := r.u8OrZero (dtdOffset + 17)
      let dtd : Dtd :=
        { pixelClockMhz := (((hi <<< 8) ||| lo : Nat) : ℚ) / 100
          horizontalActivePixels := (((b4a >>> 4) &&& 0x0f) <<< 8) ||| b2
          horizontalBlankLineCount := ((b4b &&& 0x0f) <<< 8) ||| b3
          verticalActivePixels := (((b7a >>> 4) &&& 0x0f) <<< 8) ||| b5
          verticalBlankLineCount := ((b7b &&& 0x0f) <<< 8) ||| b6
          horizontalSyncOffsetPixels := (((b11a >>> 6) &&& 0x03) <<< 8) ||| b8
          horizontalSyncPulsePixels := (((b11b >>> 4) &&& 0x03) <<< 8) ||| b9
          verticalSyncOffset :=
            (((b11c >>> 2) &&& 0x03) <<< 4) ||| ((b10a >>> 4) &&& 0x0f)
          verticalSyncPulseLineCount :=
            ((b11d &&& 0x03) <<< 4) ||| (b10b &&& 0x0f)
          horizontalDisplaySizeInMm := (((b14a >>> 4) &&& 0x0f) <<< 8) ||| b12
          verticalDisplaySizeInMm := ((b14b &&& 0x0f) <<< 8) ||| b13
          horizontalBorderPixels := b15
          verticalBorderLines := b16
          isInterlaced := b17a &&& 0x80 ≠ 0
          stereoModeCode := (b17b >>> 5) &&& 0x03
          syncTypeCode := syncTypeCode
          vSyncPolarity :=
            if syncTypeCode = 0x03 then some (b17d &&& 0x04 ≠ 0) else none
          vSyncSerrated :=
            if syncTypeCode = 0x03 then none else some (b17d &&& 0x04 ≠ 0)
          syncAllRGBLines :=
            if syncTypeCode = 0x00 ∨ syncTypeCode = 0x01 then
              some (b17e &&& 0x02 ≠ 0)
            else none
          hSyncPolarity :=
            if syncTypeCode = 0x00 ∨ syncTypeCode = 0x01 then none
            else some (b17e &&& 0x02 ≠ 0)
          twoWayStereo := b17f &&& 0x01 ≠ 0 }
      (some dtd,
        w ++ w1 ++ w2 ++ w3 ++ w4 ++ w5 ++ w6 ++ w7 ++ w8 ++ w9 ++ w10 ++
          w11 ++ w12 ++ w13 ++ w14 ++ w15 ++ w16 ++ w17 ++ w18 ++ w19 ++
          w20 ++ w21 ++ w22 ++ w23 ++ w24 ++ w25 ++ w26 ++ w27 ++ w28)
  | _, _ => (none, w)

/-- Loop body of `getDtds`: walks 18-byte slots, stopping on missing bytes
or on a slot whose first two bytes are both zero; structural recursion on a
fuel that dominates the slot count. -/
def getDtdsGo (r : BlockReader) (endOffset : Nat) : Nat → Nat → List Dtd →
    List Warning → List Dtd × List Warning
  | 0, _, acc, w => (acc, w)
  | fuel + 1, dtdIndex, acc, w =>
    if dtdIndex < endOffset then
      let (lo, wLo) := r.u8 dtdIndex
      let (hi, wHi) := r.u8 (dtdIndex + 1)
      let w := w ++ wLo ++ wHi
      match lo, hi with
      | some lo', some hi' =>
          if lo' = 0 ∧ hi' = 0 then (acc, w)
          else
            match parseDtd r dtdIndex with
            | (some dtd, wD) =>
                getDtdsGo r endOffset fuel (dtdIndex + DTD_LENGTH) (acc ++ [dtd]) (w ++ wD)
            | (none, wD) =>
                getDtdsGo r endOffset fuel (dtdIndex + DTD_LENGTH) acc (w ++ wD)
      | _, _ => (acc, w)
    else (acc, w)

/-- Embedding of `getDtds`. -/
def getDtds (r : BlockReader) (startOffset endOffset : Nat) :
    List Dtd × List Warning :=
  getDtdsGo r endOffset endOffset startOffset [] []

/-- The derived native resolution (diagonal size elided). -/
structure NativeResolution where
  activeHorizontalPixels : Nat
  activeVerticalLines : Nat
  physicalWidthInMm : Nat
  physicalHeightInMm : Nat
  isInterlaced : Bool
  refreshRateHz : ℤ
  deriving DecidableEq, Repr

/-- Embedding of `getNativeResolution`: requires the preferred-timing flag
and a first DTD with non-zero required fields. -/
def getNativeResolution (dtds : List Dtd)
    (basicDisplayParams : Option BasicDisplayParams) : Option NativeResolution :=
  let preferredDtd :=
    if (basicDisplayParams.map (·.isPreferredTiming)).getD false then
      dtds.get? 0
    else none
  match preferredDtd with
  | none => none
  | some dtd =>
      if dtd.horizontalActivePixels = 0 ∨ dtd.verticalActivePixels = 0 ∨
          dtd.horizontalDisplaySizeInMm = 0 ∨ dtd.verticalDisplaySizeInMm = 0 ∨
          dtd.pixelClockMhz = 0 then
        none
      else
        let horizontalTotal := dtd.horizontalActivePixels + dtd.horizontalBlankLineCount
        let verticalTotal := dtd.verticalActivePixels + dtd.verticalBlankLineCount
        if horizontalTotal = 0 ∨ verticalTotal = 0 then none
        else
          some
            { activeHorizontalPixels := dtd.horizontalActivePixels
              activeVerticalLines := dtd.verticalActivePixels
              physicalWidthInMm := dtd.horizontalDisplaySizeInMm
              physicalHeightInMm := dtd.verticalDisplaySizeInMm
              isInterlaced := dtd.isInterlaced
              refreshRateHz :=
                jsRound (dtd.pixelClockMhz * 1000000 /
                  ((horizontalTotal : ℚ) * (verticalTotal : ℚ))) }

/-- IEEE OUI constants (parser-utils.ts); HDMI20 and HDMI_FORUM share the
same numeric value in the source. -/
def OUI_HDMI14 : Nat := 0x000c03

/-- The shared HDMI20 / HDMI Forum OUI constant. -/
def OUI_HDMI_FORUM : Nat := 0xc45dd8

/-- The HDR10+ vendor OUI constant. -/
def OUI_HDR10_PLUS : Nat := 0x90848b

/-- The Dolby Vision vendor OUI constant. -/
def OUI_DOLBY_VISION : Nat := 0x00d046

/-- One short audio descriptor. -/
structure ShortAudioDescriptor where
  standardCodecId : Nat
  maxChannelCount : Nat
  sampleRatesBitmask : Nat
  bitDepthBitmask : Option Nat := none
  bitRateKbps : Option Nat := none
  audioFormatCode : Option Nat := none
  codecProfileOrLevel : Option Nat := none
  extendedCodecId : Option Nat := none
  deriving DecidableEq, Repr

/-- The audio data block. -/
structure AudioDataBlock where
  dataLength : Nat
  shortAudioDescriptors : List ShortAudioDescriptor
  deriving DecidableEq, Repr

/-- Loop body of `parseAudioDataBlock`; the loop guard compares the integer
descriptor index against the JS float quotient blockLength / 3, which for
integers is the same as comparing against the ceiling of that quotient. -/
def parseAudioGo (r : BlockReader) (count : Nat) : Nat → Nat → Nat →
    List ShortAudioDescriptor → List Warning →
    List ShortAudioDescriptor × List Warning
  | 0, _, _, acc, w => (acc, w)
  | fuel + 1, descIndex, index, acc, w =>
    if descIndex < count then
      let (byte0, w0) := r.u8OrZero index
      let (byte1, w1) := r.u8OrZero (index + 1)
      let (byte2, w2) := r.u8OrZero (index + 2)
      let format := (byte0 >>> 3) &&& 0x0f
      let sad : ShortAudioDescriptor :=
        { standardCodecId := format
          maxChannelCount := (byte0 &&& 0x07) + 1
          sampleRatesBitmask := byte1 &&& 0x7f
          bitDepthBitmask := if format ≤ 1 then some (byte2 &&& 0x07) else none
          bitRateKbps :=
            if format ≤ 1 then none
            else if format ≤ 8 then some ((byte2 &&& 0xff) * 8) else none
          audioFormatCode :=
            if format ≤ 8 then none
            else if format ≤ 13 then some (byte2 &&& 0xff) else none
          codecProfileOrLevel :=
            if format ≤ 13 then none
            else if format ≤ 14 then some (byte2 &&& 0x07) else none
          extendedCodecId :=
            if format ≤ 14 then none
            else if format ≤ 15 then some ((byte2 >>> 3) &&& 0x1f) else none }
      parseAudioGo r count fuel (descIndex + 1) (index + 3) (acc ++ [sad])
        (w ++ w0 ++ w1 ++ w2)
    else (acc, w)

/-- Embedding of `parseAudioDataBlock`. -/
def parseAudioDataBlock (r : BlockReader) (startAddress blockLength : Nat) :
    AudioDataBlock × List Warning :=
  let count := (blockLength + 2) / 3
  let (sads, w) := parseAudioGo r count count 0 startAddress [] []
  ({ dataLength := blockLength, shortAudioDescriptors := sads }, w)

/-- One short video descriptor. -/
structure ShortVideoDescriptor where
  vic : Nat
  isNativeResolution : Bool
  deriving DecidableEq, Repr

/-- Decoder of one short video descriptor byte (shared VIC rule: bit 6 set
means an extended 8-bit VIC with no native flag). -/
def decodeSvdByte (dataByte : Nat) : ShortVideoDescriptor :=
  if dataByte &&& 0x40 > 0 then
    { vic := dataByte &&& 0xff, isNativeResolution := false }
  else
    { vic := dataByte &&& 0x3f, isNativeResolution := dataByte &&& 0x80 ≠ 0 }

/-- The video data block. -/
structure VideoDataBlock where
  dataLength : Nat
  shortVideoDescriptors : List ShortVideoDescriptor
  deriving DecidableEq, Repr

/-- The cross-block parse context threaded through one extension's data
block collection (`ExtensionParseContext`). -/
structure ExtensionParseContext where
  lastVideoBlock : Option VideoDataBlock := none
  deriving DecidableEq, Repr

/-- Short-video-descriptor read loop of `parseVideoDataBlock`; structural
recursion on the number of bytes left. -/
def parseVideoGo (r : BlockReader) (startAddress blockLength : Nat) : Nat → Nat →
    List ShortVideoDescriptor → List Warning →
    List ShortVideoDescriptor × List Warning
  | 0, _, acc, w => (acc, w)
  | fuel + 1, index, acc, w =>
    if index < blockLength then
      match r.u8 (startAddress + index) with
      | (some dataByte, w1) =>
          parseVideoGo r startAddress blockLength fuel (index + 1)
            (acc ++ [decodeSvdByte dataByte]) (w ++ w1)
      | (none, w1) => (acc, w ++ w1)
    else (acc, w)

/-- Embedding of `parseVideoDataBlock`; also updates the shared
`lastVideoBlock` context. -/
def parseVideoDataBlock (r : BlockReader) (startAddress blockLength : Nat)
    (context : ExtensionParseContext) :
    VideoDataBlock × ExtensionParseContext × List Warning :=
  let (svds, w) := parseVideoGo r startAddress blockLength blockLength 0 [] []
  let videoBlock : VideoDataBlock :=
    { dataLength := blockLength, shortVideoDescriptors := svds }
  (videoBlock, { context with lastVideoBlock := some videoBlock }, w)

/-- The speaker allocation data block. -/
structure SpeakerDataBlock where
  dataLength : Nat
  layoutBitmask : Nat
  deriving DecidableEq, Repr

/-- Embedding of `parseSpeakerDataBlock`. -/
def parseSpeakerDataBlock (r : BlockReader) (startAddress blockLength : Nat) :
    SpeakerDataBlock × List Warning :=
  let (b2, w2) := r.u8OrZero (startAddress + 2)
  let (b1, w1) := r.u8OrZero (startAddress + 1)
  let (b0, w0) := r.u8OrZero startAddress
  ({ dataLength := blockLength
     layoutBitmask := (b2 <<< 16) ||| (b1 <<< 8) ||| b0 }, w2 ++ w1 ++ w0)

/-- The fixed-rate-link label table of the HDMI-Forum parsers. -/
inductive FrlRate where
  | notSupported
  | threeLanes3G
  | threeLanes6G
  | fourLanes6G
  | fourLanes8G
  | fourLanes10G
  | fourLanes12G
  | unknownRate
  deriving DecidableEq, Repr

/-- Index-to-label decoding of the 7-entry FRL table (out-of-range values
map to the Unknown label). -/
def frlRateOfNibble (n : Nat) : FrlRate :=
  match n with
  | 0 => .notSupported
  | 1 => .threeLanes3G
  | 2 => .threeLanes6G
  | 3 => .fourLanes6G
  | 4 => .fourLanes8G
  | 5 => .fourLanes10G
  | 6 => .fourLanes12G
  | _ => .unknownRate

/-- The HDMI-Forum feature flag set; the TS source starts from an empty
object and assigns `true` to individual flags, so every field is an option
that is either absent or `some true`. -/
structure HdmiForumFeatures where
  isScdcPresent : Option Bool := none
  isScdcReadRequestCapable : Option Bool := none
  supportsCableStatus : Option Bool := none
  supportsColorContentBitsPerComponent : Option Bool := none
  supportsScrambling340Mcsc : Option Bool := none
  supports3DIndependentView : Option Bool := none
  supports3DDualView : Option Bool := none
  supports3DOSDDisparity : Option Bool := none
  supportsFAPAEndExtended : Option Bool := none
  supportsQMS : Option Bool := none
  supportsMDelta : Option Bool := none
  supportsCinemaVRR : Option Bool := none
  supportsNegativeMVRR : Option Bool := none
  supportsFastVActive : Option Bool := none
  supportsALLM : Option Bool := none
  supportsFAPAInBlanking : Option Bool := none
  supportsVESADSC12a : Option Bool := none
  supportsCompressedVideo420 : Option Bool := none
  supportsQMSTFRmax : Option Bool := none
  supportsQMSTFRmin : Option Bool := none
  supportsCompressedVideoAnyBpp : Option Bool := none
  supports16bpcCompressedVideo : Option Bool := none
  supports12bpcCompressedVideo : Option Bool := none
  supports10bpcCompressedVideo : Option Bool := none
  deriving DecidableEq, Repr

/-- Conditional flag assignment: `if (bit) obj.flag = true` with no else. -/
def setIf (b : Bool) : Option Bool := if b then some true else none

/-- The vendor-specific data block (kitchen-sink record dispatched on the
IEEE OUI, mirroring `VendorDataBlock`). -/
structure VendorDataBlock where
  dataLength : Nat
  ieeeOui : Nat
  errorMsg : Option String := none
  supportsDolbyVision : Option Bool := none
  physicalAddress : Option Nat := none
  supportsAI : Option Bool := none
  supportsDeepColor48 : Option Bool := none
  supportsDeepColor36 : Option Bool := none
  supportsDeepColor30 : Option Bool := none
  supportsDeepColorY444 : Option Bool := none
  supportsDualLinkDvi : Option Bool := none
  hdmi14MaxTmdsRateMhz : Option Nat := none
  areProgressiveLatencyFieldsPresent : Option Bool := none
  areInterlacedLatencyFieldsPresent : Option Bool := none
  supportsGameContentType : Option Bool := none
  progressiveVideoLatencyMs : Option Int := none
  progressiveAudioLatencyMs : Option Int := none
  interlacedVideoLatencyMs : Option Int := none
  interlacedAudioLatencyMs : Option Int := none
  hdmi20PayloadVersion : Option Nat := none
  hdmi20MaxTmdsRateMhz : Option Nat := none
  supportsSCDC : Option Bool := none
  supportsSCDCRR : Option Bool := none
  supportsLTE340scramble : Option Bool := none
  supports3DIV : Option Bool := none
  supports3DDV : Option Bool := none
  supports3DOSD : Option Bool := none
  supportsDeepColorY420_48 : Option Bool := none
  supportsDeepColorY420_36 : Option Bool := none
  supportsDeepColorY420_30 : Option Bool := none
  hfPayloadVersion : Option Nat := none
  maxTMDSCharacterRateMhz : Option Nat := none
  hdmiForumFeatures : Option HdmiForumFeatures := none
  maxFixedRateLink : Option FrlRate := none
  vrrMinHz : Option Nat := none
  vrrMaxHz : Option Nat := none
  deriving DecidableEq, Repr

/-- Embedding of `parseVendorDataBlockHDMI14`. -/
def parseVendorDataBlockHDMI14 (r : BlockReader) (startAddress blockLength : Nat)
    (vendorBlock : VendorDataBlock) : VendorDataBlock × List Warning :=
  let vsdbAddress := startAddress - 1
  let (pa1, wA) := r.u8OrZero (vsdbAddress + 4)
  let (pa2, wB) := r.u8OrZero (vsdbAddress + 5)
  let vendorBlock := { vendorBlock with physicalAddress := some ((pa1 <<< 8) ||| pa2) }
  let (vendorBlock, wC) :=
    if blockLength ≥ 6 then
      let (f1, u1) := r.u8OrZero (vsdbAddress + 6)
      let (f2, u2) := r.u8OrZero (vsdbAddress + 6)
      let (f3, u3) := r.u8OrZero (vsdbAddress + 6)
      let (f4, u4) := r.u8OrZero (vsdbAddress + 6)
      let (f5, u5) := r.u8OrZero (vsdbAddress + 6)
      let (f6, u6) := r.u8OrZero (vsdbAddress + 6)
      ({ vendorBlock with
          supportsAI := some (f1 &&& 0x80 ≠ 0)
          supportsDeepColor48 := some (f2 &&& 0x40 ≠ 0)
          supportsDeepColor36 := some (f3 &&& 0x20 ≠ 0)
          supportsDeepColor30 := some (f4 &&& 0x10 ≠ 0)
          supportsDeepColorY444 := some (f5 &&& 0x08 ≠ 0)
          supportsDualLinkDvi := some (f6 &&& 0x01 ≠ 0) },
        u1 ++ u2 ++ u3 ++ u4 ++ u5 ++ u6)
    else (vendorBlock, [])
  let (vendorBlock, wD) :=
    if blockLength ≥ 7 then
      let (tmds, u) := r.u8OrZero (vsdbAddress + 7)
      ({ vendorBlock with hdmi14MaxTmdsRateMhz := some (tmds * 5) }, u)
    else (vendorBlock, [])
  let (vendorBlock, wE) :=
    if blockLength ≥ 8 then
      let (latencyFlags, u) := r.u8OrZero (vsdbAddress + 8)
      let progressive := latencyFlags &&& 0x80 ≠ 0
      ({ vendorBlock with
          areProgressiveLatencyFieldsPresent := some progressive
          areInterlacedLatencyFieldsPresent :=
            some (progressive ∧ latencyFlags &&& 0x40 ≠ 0)
          supportsGameContentType :=
            if latencyFlags &&& 0x20 ≠ 0 ∧ latencyFlags &&& 0x08 ≠ 0 then
              some true
            else vendorBlock.supportsGameContentType }, u)
    else (vendorBlock, [])
  let (vendorBlock, wF) :=
    if vendorBlock.areProgressiveLatencyFieldsPresent = some true ∧
        blockLength ≥ 10 then
      let (vl, u1) := r.u8OrZero (vsdbAddress + 9)
      let (al, u2) := r.u8OrZero (vsdbAddress + 10)
      ({ vendorBlock with
          progressiveVideoLatencyMs := some (((vl : Int) - 1) * 2)
          progressiveAudioLatencyMs := some (((al : Int) - 1) * 2) }, u1 ++ u2)
    else (vendorBlock, [])
  let (vendorBlock, wG) :=
    if vendorBlock.areInterlacedLatencyFieldsPresent = some true ∧
        blockLength ≥ 12 then
      let (vl, u1) := r.u8OrZero (vsdbAddress + 11)
      let (al, u2) := r.u8OrZero (vsdbAddress + 12)
      ({ vendorBlock with
          interlacedVideoLatencyMs := some (((vl : Int) - 1) * 2)
          interlacedAudioLatencyMs := some (((al : Int) - 1) * 2) }, u1 ++ u2)
    else (vendorBlock, [])
  (vendorBlock, wA ++ wB ++ wC ++ wD ++ wE ++ wF ++ wG)

/-- Embedding of `parseVendorDataBlockHDMI20`. -/
def parseVendorDataBlockHDMI20 (r : BlockReader) (startAddress blockLength : Nat)
    (vendorBlock : VendorDataBlock) : VendorDataBlock × List Warning :=
  let vsdbAddress := startAddress - 1
  let (v4, w1) := r.u8OrZero (vsdbAddress + 4)
  let (v5, w2) := r.u8OrZero (vsdbAddress + 5)
  let (v6a, w3) := r.u8OrZero (vsdbAddress + 6)
  let (v6b, w4) := r.u8OrZero (vsdbAddress + 6)
  let (v6c, w5) := r.u8OrZero (vsdbAddress + 6)
  let (v6d, w6) := r.u8OrZero (vsdbAddress + 6)
  let (v6e, w7) := r.u8OrZero (vsdbAddress + 6)
  let (v6f, w8) := r.u8OrZero (vsdbAddress + 6)
  let (v7a, w9) := r.u8OrZero (vsdbAddress + 7)
  let (v7b, w10) := r.u8OrZero (vsdbAddress + 7)
  let (v7c, w11) := r.u8OrZero (vsdbAddress + 7)
  ({ vendorBlock with
      hdmi20PayloadVersion := some v4
      hdmi20MaxTmdsRateMhz := some (v5 * 5)
      supportsSCDC := some (v6a &&& 0x80 ≠ 0)
      supportsSCDCRR := some (v6b &&& 0x40 ≠ 0)
      supportsLTE340scramble := some (v6c &&& 0x08 ≠ 0)
      supports3DIV := some (v6d &&& 0x04 ≠ 0)
      supports3DDV := some (v6e &&& 0x02 ≠ 0)
      supports3DOSD := some (v6f &&& 0x01 ≠ 0)
      supportsDeepColorY420_48 := some (v7a &&& 0x04 ≠ 0)
      supportsDeepColorY420_36 := some (v7b &&& 0x02 ≠ 0)
      supportsDeepColorY420_30 := some (v7c &&& 0x01 ≠ 0) },
    w1 ++ w2 ++ w3 ++ w4 ++ w5 ++ w6 ++ w7 ++ w8 ++ w9 ++ w10 ++ w11)

/-- Byte prefetch loop shared by the HDMI-Forum VSDB and SCDB parsers: the
source collects `blockLength` bytes into a local array, storing NaN for a
failed read; every in-scope consumer coerces NaN and 0 identically (see the
scope notes), so failed reads are stored as 0. -/
def prefetchDataGo (r : BlockReader) (startAddress blockLength : Nat) : Nat → Nat →
    List Nat → List Warning → List Nat × List Warning
  | 0, _, acc, w => (acc, w)
  | fuel + 1, i, acc, w =>
    if i < blockLength then
      match r.u8 (startAddress + i) with
      | (some v, w1) => prefetchDataGo r startAddress blockLength fuel (i + 1) (acc ++ [v]) (w ++ w1)
      | (none, w1) => prefetchDataGo r startAddress blockLength fuel (i + 1) (acc ++ [0]) (w ++ w1)
    else (acc, w)

/-- Byte prefetch entry point. -/
def prefetchData (r : BlockReader) (startAddress blockLength : Nat) :
    List Nat × List Warning :=
  prefetchDataGo r startAddress blockLength blockLength 0 [] []

/-- Embedding of `parseVendorDataBlockHDMIForum`. -/
def parseVendorDataBlockHDMIForum (r : BlockReader) (startAddress blockLength : Nat)
    (vendorBlock : VendorDataBlock) : VendorDataBlock × List Warning :=
  let vendorBlock := { vendorBlock with hdmiForumFeatures := some {} }
  if blockLength < 8 then
    ({ vendorBlock with errorMsg := some ("HDMI Forum VSDB too short") }, [])
  else
    let (data, w) := prefetchData r startAddress blockLength
    let dataByte := fun (i : Nat) => data.getD i 0
    let features : HdmiForumFeatures :=
      { isScdcPresent := setIf (dataByte 5 &&& 0x80 ≠ 0)
        isScdcReadRequestCapable := setIf (dataByte 5 &&& 0x40 ≠ 0)
        supportsCableStatus := setIf (dataByte 5 &&& 0x20 ≠ 0)
        supportsColorContentBitsPerComponent := setIf (dataByte 5 &&& 0x10 ≠ 0)
        supportsScrambling340Mcsc := setIf (dataByte 5 &&& 0x08 ≠ 0)
        supports3DIndependentView := setIf (dataByte 5 &&& 0x04 ≠ 0)
        supports3DDualView := setIf (dataByte 5 &&& 0x02 ≠ 0)
        supports3DOSDDisparity := setIf (dataByte 5 &&& 0x01 ≠ 0)
        supportsFAPAEndExtended := setIf (dataByte 7 &&& 0x80 ≠ 0)
        supportsQMS := setIf (dataByte 7 &&& 0x40 ≠ 0)
        supportsMDelta := setIf (dataByte 7 &&& 0x20 ≠ 0)
        supportsCinemaVRR := setIf (dataByte 7 &&& 0x10 ≠ 0)
        supportsNegativeMVRR := setIf (dataByte 7 &&& 0x08 ≠ 0)
        supportsFastVActive := setIf (dataByte 7 &&& 0x04 ≠ 0)
        supportsALLM := setIf (dataByte 7 &&& 0x02 ≠ 0)
        supportsFAPAInBlanking := setIf (dataByte 7 &&& 0x01 ≠ 0)
        supportsVESADSC12a :=
          if blockLength > 10 then setIf (dataByte 10 &&& 0x80 ≠ 0) else none
        supportsCompressedVideo420 :=
          if blockLength > 10 then setIf (dataByte 10 &&& 0x40 ≠ 0) else none
        supportsQMSTFRmax :=
          if blockLength > 10 then setIf (dataByte 10 &&& 0x20 ≠ 0) else none
        supportsQMSTFRmin :=
          if blockLength > 10 then setIf (dataByte 10 &&& 0x10 ≠ 0) else none
        supportsCompressedVideoAnyBpp :=
          if blockLength > 10 then setIf (dataByte 10 &&& 0x08 ≠ 0) else none
        supports16bpcCompressedVideo :=
          if blockLength > 10 then setIf (dataByte 10 &&& 0x04 ≠ 0) else none
        supports12bpcCompressedVideo :=
          if blockLength > 10 then setIf (dataByte 10 &&& 0x02 ≠ 0) else none
        supports10bpcCompressedVideo :=
          if blockLength > 10 then setIf (dataByte 10 &&& 0x01 ≠ 0) else none }
    let vrrMin := dataByte 8 &&& 0x3f
    let vrrMax := ((dataByte 8 &&& 0xc0) <<< 2) ||| dataByte 9
    ({ vendorBlock with
        hfPayloadVersion := some (dataByte 3)
        maxTMDSCharacterRateMhz := some (dataByte 4 * 5)
        supportsSCDC := some (features.isScdcPresent = some true)
        supportsSCDCRR := some (features.isScdcReadRequestCapable = some true)
        maxFixedRateLink := some (frlRateOfNibble ((dataByte 6 &&& 0xf0) >>> 4))
        hdmiForumFeatures := some features
        vrrMinHz :=
          if blockLength > 8 ∧ vrrMin > 0 then some vrrMin else none
        vrrMaxHz :=
          if blockLength > 8 ∧ vrrMax > 0 then some vrrMax else none }, w)

/-- Embedding of `parseVendorDataBlock` (OUI-based dispatch). -/
def parseVendorDataBlock (r : BlockReader) (startAddress blockLength : Nat) :
    VendorDataBlock × List Warning :=
  let vsdbAddress := startAddress - 1
  let (b3, w3) := r.u8OrZero (vsdbAddress + 3)
  let (b2, w2) := r.u8OrZero (vsdbAddress + 2)
  let (b1, w1) := r.u8OrZero (vsdbAddress + 1)
  let oui := (b3 <<< 16) ||| (b2 <<< 8) ||| b1
  let w := w3 ++ w2 ++ w1
  let vendorBlock : VendorDataBlock := { dataLength := blockLength, ieeeOui := oui }
  if oui = OUI_DOLBY_VISION then
    ({ vendorBlock with supportsDolbyVision := some true }, w)
  else if oui = OUI_HDMI14 then
    let (vb, w4) := parseVendorDataBlockHDMI14 r startAddress blockLength vendorBlock
    (vb, w ++ w4)
  else if oui = OUI_HDMI_FORUM then
    if blockLength ≥ 8 then
      let (vb, w4) := parseVendorDataBlockHDMIForum r startAddress blockLength vendorBlock
      (vb, w ++ w4)
    else
      let (vb, w4) := parseVendorDataBlockHDMI20 r startAddress blockLength vendorBlock
      (vb, w ++ w4)
  else (vendorBlock, w)

/-- The four-entry overscan behavior table. -/
inductive OverscanBehavior where
  | noData
  | alwaysOverscanned
  | alwaysUnderscanned
  | supportsBoth
  deriving DecidableEq, Repr

/-- Index decoding of the overscan table (the index is a 2-bit field, so it
is always in range). -/
def overscanOfCode (n : Nat) : OverscanBehavior :=
  match n with
  | 0 => .noData
  | 1 => .alwaysOverscanned
  | 2 => .alwaysUnderscanned
  | _ => .supportsBoth

/-- The EOTF label table (`EOTF_LABELS`). -/
inductive EotfLabel where
  | traditionalGammaSdr
  | traditionalGammaHdr
  | smpteSt2084Pq
  | hybridLogGamma
  deriving DecidableEq, Repr

/-- The EOTF table in source order; bit i of the EOTF bitmap selects entry i. -/
def EOTF_LABELS : List EotfLabel :=
  [.traditionalGammaSdr, .traditionalGammaHdr, .smpteSt2084Pq, .hybridLogGamma]

/-- The static metadata descriptor table (`STATIC_METADATA_DESCRIPTORS`). -/
inductive StaticMetaDescLabel where
  | staticMetadataType1
  deriving DecidableEq, Repr

/-- The one-entry static metadata descriptor table. -/
def STATIC_METADATA_DESCRIPTORS : List StaticMetaDescLabel :=
  [.staticMetadataType1]

/-- Dynamic HDR metadata type labels. -/
inductive DynMetaLabel where
  | smpteSt2094d10
  | smpteSt2094d20
  | smpteSt2094d30
  | smpteSt2094d40
  deriving DecidableEq, Repr

/-- Room type labels of the room configuration block. -/
inductive RoomType where
  | notIndicated
  | frontHeight
  | rearHeight
  | reservedType
  deriving DecidableEq, Repr

/-- One entry of the video format preference block. -/
structure VideoFormatPreference where
  svrCode : Nat
  frrCode : Nat
  deriving DecidableEq, Repr

/-- The extended tag of a decoded extended-tag block: either one of the
named `EXTENDED_DATA_BLOCK_TYPE` constants (holding its numeric value) or a
raw unrecognized code. -/
inductive ExtTagId where
  | namedTag (value : Nat)
  | rawTag (value : Nat)
  deriving DecidableEq, Repr

/-- Numeric value of an extended tag id. -/
def ExtTagId.value : ExtTagId → Nat
  | .namedTag v => v
  | .rawTag v => v

/-- The extended-tag data block: a kitchen-sink record whose populated
fields depend on the extended tag, mirroring `ExtendedTagDataBlock`. -/
structure ExtendedTagDataBlock where
  dataLength : Nat
  extendedTag : Option ExtTagId := none
  errorMsg : Option String := none
  supportsQuantizationRangeYCC : Option Bool := none
  supportsQuantizationRangeRGB : Option Bool := none
  overscanPT : Option OverscanBehavior := none
  overscanIT : Option OverscanBehavior := none
  overscanCE : Option OverscanBehavior := none
  supportsQMS : Option Bool := none
  supportsVRR : Option Bool := none
  supportsCinemaVRR : Option Bool := none
  supportsNegativeMRR : Option Bool := none
  supportsFVA : Option Bool := none
  supportsALLM : Option Bool := none
  vendorSpecificVideoOui : Option Nat := none
  supportsHDR10Plus : Option Bool := none
  supportsDolbyVision : Option Bool := none
  supportsBT2020RGB : Option Bool := none
  supportsBT2020YCC : Option Bool := none
  supportsBT2020cYCC : Option Bool := none
  supportsAdobeRGB : Option Bool := none
  supportsAdobeYCC601 : Option Bool := none
  supportssYCC601 : Option Bool := none
  supportsxvYCC709 : Option Bool := none
  supportsxvYCC601 : Option Bool := none
  gamutMD3 : Option Nat := none
  gamutMD2 : Option Nat := none
  gamutMD1 : Option Nat := none
  gamutMD0 : Option Nat := none
  supportsICtCp : Option Bool := none
  supportsST2094d40 : Option Bool := none
  supportsST2094d10 : Option Bool := none
  supportsBT2100ICtCp : Option Bool := none
  YCbCr420OnlyShortVideoDescriptors : Option (List ShortVideoDescriptor) := none
  YCbCr420CapableShortVideoDescriptors :
    Option (List (Option ShortVideoDescriptor)) := none
  supportedEOTFs : Option (List EotfLabel) := none
  supportedStaticMetadataDescriptors : Option (List StaticMetaDescLabel) := none
  desiredContentMaxLuminanceCode : Option Nat := none
  desiredContentMaxFrameAverageLuminanceCode : Option Nat := none
  desiredContentMinLuminanceCode : Option Nat := none
  supportsHDR10 : Option Bool := none
  supportedDynamicMetadataTypes : Option (List DynMetaLabel) := none
  dynamicHdrMetadataTypeId : Option Nat := none
  dynamicHdrMetadataVersionNumber : Option Nat := none
  videoFormatPreferences : Option (List VideoFormatPreference) := none
  speakerCount : Option Nat := none
  roomTypeCode : Option Nat := none
  roomTypeString : Option RoomType := none
  hfSCDBVersion : Option Nat := none
  maxTMDSCharacterRateMhz : Option Nat := none
  hdmiForumFeatures : Option HdmiForumFeatures := none
  maxFixedRateLink : Option FrlRate := none
  vrrMinHz : Option Nat := none
  vrrMaxHz : Option Nat := none
  deriving DecidableEq, Repr

/-- Embedding of `parseVideoCapabilityDataBlock` (extended tag 0). -/
def parseVideoCapabilityDataBlock (r : BlockReader) (startAddress blockLength : Nat)
    (etb : ExtendedTagDataBlock) : ExtendedTagDataBlock × List Warning :=
  let etb := { etb with extendedTag := some (.namedTag 0) }
  let (a1, w1) := r.u8OrZero (startAddress + 1)
  let (a2, w2) := r.u8OrZero (startAddress + 1)
  let (a3, w3) := r.u8OrZero (startAddress + 1)
  let (a4, w4) := r.u8OrZero (startAddress + 1)
  let (a5, w5) := r.u8OrZero (startAddress + 1)
  let etb :=
    { etb with
        supportsQuantizationRangeYCC := some (a1 &&& 0x80 ≠ 0)
        supportsQuantizationRangeRGB := some (a2 &&& 0x40 ≠ 0)
        overscanPT := some (overscanOfCode ((a3 &&& 0x30) >>> 4))
        overscanIT := some (overscanOfCode ((a4 &&& 0x0c) >>> 2))
        overscanCE := some (overscanOfCode (a5 &&& 0x03)) }
  if blockLength > 2 then
    let (b1, v1) := r.u8OrZero (startAddress + 2)
    let (b2, v2) := r.u8OrZero (startAddress + 2)
    let (b3, v3) := r.u8OrZero (startAddress + 2)
    let (b4, v4) := r.u8OrZero (startAddress + 2)
    let (b5, v5) := r.u8OrZero (startAddress + 2)
    let (b6, v6) := r.u8OrZero (startAddress + 2)
    ({ etb with
        supportsQMS := some (b1 &&& 0x80 ≠ 0)
        supportsVRR := some (b2 &&& 0x40 ≠ 0)
        supportsCinemaVRR := some (b3 &&& 0x20 ≠ 0)
        supportsNegativeMRR := some (b4 &&& 0x10 ≠ 0)
        supportsFVA := some (b5 &&& 0x08 ≠ 0)
        supportsALLM := some (b6 &&& 0x04 ≠ 0) },
      w1 ++ w2 ++ w3 ++ w4 ++ w5 ++ v1 ++ v2 ++ v3 ++ v4 ++ v5 ++ v6)
  else (etb, w1 ++ w2 ++ w3 ++ w4 ++ w5)

/-- Embedding of `parseVendorSpecificVideoDataBlock` (extended tag 1). -/
def parseVendorSpecificVideoDataBlock (r : BlockReader)
    (startAddress blockLength : Nat) (etb : ExtendedTagDataBlock) :
    ExtendedTagDataBlock × List Warning :=
  let etb := { etb with extendedTag := some (.namedTag 1) }
  if blockLength < 4 then
    ({ etb with errorMsg := some ("Vendor-Specific Video Data Block too short") }, [])
  else
    let (b3, w3) := r.u8OrZero (startAddress + 3)
    let (b2, w2) := r.u8OrZero (startAddress + 2)
    let (b1, w1) := r.u8OrZero (startAddress + 1)
    let oui := (b3 <<< 16) ||| (b2 <<< 8) ||| b1
    let etb := { etb with vendorSpecificVideoOui := some oui }
    let etb :=
      if oui = OUI_HDR10_PLUS then { etb with supportsHDR10Plus := some true }
      else if oui = OUI_DOLBY_VISION then { etb with supportsDolbyVision := some true }
      else etb
    (etb, w3 ++ w2 ++ w1)

/-- Embedding of `parseColorimetryDataBlock` (extended tag 5). -/
def parseColorimetryDataBlock (r : BlockReader) (startAddress blockLength : Nat)
    (etb : ExtendedTagDataBlock) : ExtendedTagDataBlock × List Warning :=
  let etb := { etb with extendedTag := some (.namedTag 5) }
  let (a1, w1) := r.u8OrZero (startAddress + 1)
  let (a2, w2) := r.u8OrZero (startAddress + 1)
  let (a3, w3) := r.u8OrZero (startAddress + 1)
  let (a4, w4) := r.u8OrZero (startAddress + 1)
  let (a5, w5) := r.u8OrZero (startAddress + 1)
  let (a6, w6) := r.u8OrZero (startAddress + 1)
  let (a7, w7) := r.u8OrZero (startAddress + 1)
  let (a8, w8) := r.u8OrZero (startAddress + 1)
  let (c1, x1) := r.u8OrZero (startAddress + 2)
  let (c2, x2) := r.u8OrZero (startAddress + 2)
  let (c3, x3) := r.u8OrZero (startAddress + 2)
  let (c4, x4) := r.u8OrZero (startAddress + 2)
  let etb :=
    { etb with
        supportsBT2020RGB := some (a1 &&& 0x80 ≠ 0)
        supportsBT2020YCC := some (a2 &&& 0x40 ≠ 0)
        supportsBT2020cYCC := some (a3 &&& 0x20 ≠ 0)
        supportsAdobeRGB := some (a4 &&& 0x10 ≠ 0)
        supportsAdobeYCC601 := some (a5 &&& 0x08 ≠ 0)
        supportssYCC601 := some (a6 &&& 0x04 ≠ 0)
        supportsxvYCC709 := some (a7 &&& 0x02 ≠ 0)
        supportsxvYCC601 := some (a8 &&& 0x01 ≠ 0)
        gamutMD3 := some (if c1 &&& 0x08 ≠ 0 then 1 else 0)
        gamutMD2 := some (if c2 &&& 0x04 ≠ 0 then 1 else 0)
        gamutMD1 := some (if c3 &&& 0x02 ≠ 0 then 1 else 0)
        gamutMD0 := some (if c4 &&& 0x01 ≠ 0 then 1 else 0) }
  let wAll := w1 ++ w2 ++ w3 ++ w4 ++ w5 ++ w6 ++ w7 ++ w8 ++ x1 ++ x2 ++ x3 ++ x4
  if blockLength > 3 then
    let (d1, y1) := r.u8OrZero (startAddress + 3)
    let (d2, y2) := r.u8OrZero (startAddress + 3)
    let (d3, y3) := r.u8OrZero (startAddress + 3)
    let (d4, y4) := r.u8OrZero (startAddress + 3)
    ({ etb with
        supportsICtCp := some (d1 &&& 0x80 ≠ 0)
        supportsST2094d40 := some (d2 &&& 0x40 ≠ 0)
        supportsST2094d10 := some (d3 &&& 0x20 ≠ 0)
        supportsBT2100ICtCp := some (d4 &&& 0x10 ≠ 0) },
      wAll ++ y1 ++ y2 ++ y3 ++ y4)
  else (etb, wAll)

/-- Short-video-descriptor loop of `parseYCbCr420VideoDataBlock`; reads
bytes 1..blockLength-1 after the extended tag byte. -/
def parseY420VideoGo (r : BlockReader) (startAddress blockLength : Nat) : Nat → Nat →
    List ShortVideoDescriptor → List Warning →
    List ShortVideoDescriptor × List Warning
  | 0, _, acc, w => (acc, w)
  | fuel + 1, svdIndex, acc, w =>
    if svdIndex < blockLength - 1 then
      match r.u8 (startAddress + 1 + svdIndex) with
      | (some dataByte, w1) =>
          parseY420VideoGo r startAddress blockLength fuel (svdIndex + 1)
            (acc ++ [decodeSvdByte dataByte]) (w ++ w1)
      | (none, w1) => (acc, w ++ w1)
    else (acc, w)

/-- Embedding of `parseYCbCr420VideoDataBlock` (extended tag 14). -/
def parseYCbCr420VideoDataBlock (r : BlockReader) (startAddress blockLength : Nat)
    (etb : ExtendedTagDataBlock) : ExtendedTagDataBlock × List Warning :=
  let etb := { etb with extendedTag := some (.namedTag 14) }
  let (svds, w) := parseY420VideoGo r startAddress blockLength blockLength 0 [] []
  ({ etb with YCbCr420OnlyShortVideoDescriptors := some svds }, w)

/-- Byte loop of `parseYCbCr420CapabilityMapDataBlock`: bit j of capability
byte k selects short video descriptor index 8k + j of the previously seen
video block (entries may be absent when the index is out of range). -/
def parseY420MapGo (r : BlockReader) (startAddress blockLength : Nat)
    (svds : List ShortVideoDescriptor) : Nat → Nat → Nat →
    List (Option ShortVideoDescriptor) → List Warning →
    List (Option ShortVideoDescriptor) × List Warning
  | 0, _, _, acc, w => (acc, w)
  | fuel + 1, fieldAddress, svdIndex, acc, w =>
    if fieldAddress < blockLength then
      match r.u8 (startAddress + fieldAddress) with
      | (some dataByte, w1) =>
          let selected :=
            (List.range 8).filterMap (fun bit =>
              if dataByte &&& (1 <<< bit) ≠ 0 then some (svds.get? (svdIndex + bit))
              else none)
          parseY420MapGo r startAddress blockLength svds fuel (fieldAddress + 1)
            (svdIndex + 8) (acc ++ selected) (w ++ w1)
      | (none, w1) => (acc, w ++ w1)
    else (acc, w)

/-- Embedding of `parseYCbCr420CapabilityMapDataBlock` (extended tag 15);
resolves indices against the shared `lastVideoBlock` context. -/
def parseYCbCr420CapabilityMapDataBlock (r : BlockReader)
    (startAddress blockLength : Nat) (etb : ExtendedTagDataBlock)
    (context : ExtensionParseContext) : ExtendedTagDataBlock × List Warning :=
  let etb := { etb with extendedTag := some (.namedTag 15) }
  match context.lastVideoBlock with
  | none => (etb, [])
  | some videoBlock =>
      let (entries, w) :=
        parseY420MapGo r startAddress blockLength
          videoBlock.shortVideoDescriptors blockLength 1 0 [] []
      ({ etb with YCbCr420CapableShortVideoDescriptors := some entries }, w)

/-- Embedding of `parseHDRStaticMetadataDataBlock` (extended tag 6).  The
derived `supportsHDR10` flag is set exactly when both the PQ EOTF and the
Static Metadata Type 1 descriptor were decoded. -/
def parseHDRStaticMetadataDataBlock (r : BlockReader)
    (startAddress blockLength : Nat) (etb : ExtendedTagDataBlock) :
    ExtendedTagDataBlock × List Warning :=
  let etb := { etb with extendedTag := some (.namedTag 6) }
  if blockLength < 2 then
    ({ etb with errorMsg := some ("Empty Data Block") }, [])
  else
    let (eotfByte, w1) := r.u8OrZero (startAddress + 1)
    let supportedEOTFs :=
      (List.range EOTF_LABELS.length).filterMap (fun i =>
        if eotfByte &&& (1 <<< i) ≠ 0 then EOTF_LABELS.get? i else none)
    let etb := { etb with supportedEOTFs := some supportedEOTFs }
    let (descriptors, w2) :=
      if blockLength > 2 then
        let (staticMetadataByte, u) := r.u8OrZero (startAddress + 2)
        (((List.range STATIC_METADATA_DESCRIPTORS.length).filterMap (fun i =>
            if staticMetadataByte &&& (1 <<< i) ≠ 0 then
              STATIC_METADATA_DESCRIPTORS.get? i
            else none)), u)
      else ([], [])
    let etb := { etb with supportedStaticMetadataDescriptors := some descriptors }
    let etb :=
      if blockLength ≥ 4 then
        { etb with
            desiredContentMaxLuminanceCode := (r.u8 (startAddress + 3)).1
            desiredContentMaxFrameAverageLuminanceCode :=
              (r.u8 (startAddress + 4)).1 }
      else etb
    let w3 :=
      if blockLength ≥ 4 then
        (r.u8 (startAddress + 3)).2 ++ (r.u8 (startAddress + 4)).2
      else []
    let etb :=
      if blockLength ≥ 5 then
        { etb with desiredContentMinLuminanceCode := (r.u8 (startAddress + 5)).1 }
      else etb
    let w4 := if blockLength ≥ 5 then (r.u8 (startAddress + 5)).2 else []
    let hasPqEotf := supportedEOTFs.contains .smpteSt2084Pq
    let hasStaticType1 := descriptors.contains .staticMetadataType1
    let etb :=
      if hasPqEotf ∧ hasStaticType1 then { etb with supportsHDR10 := some true }
      else etb
    (etb, w1 ++ w2 ++ w3 ++ w4)

/-- Embedding of `parseHDRDynamicMetadataDataBlock` (extended tag 7). -/
def parseHDRDynamicMetadataDataBlock (r : BlockReader)
    (startAddress blockLength : Nat) (etb : ExtendedTagDataBlock) :
    ExtendedTagDataBlock × List Warning :=
  let etb := { etb with extendedTag := some (.namedTag 7) }
  if blockLength < 3 then
    ({ etb with errorMsg := some ("Data Block too short") }, [])
  else
    let (metadataType, w1) := r.u8OrZero (startAddress + 1)
    let types : List DynMetaLabel :=
      if metadataType = 1 then [.smpteSt2094d10]
      else if metadataType = 2 then [.smpteSt2094d20]
      else if metadataType = 3 then [.smpteSt2094d30]
      else if metadataType = 4 then [.smpteSt2094d40]
      else []
    let (version, w2) := r.u8OrZero (startAddress + 2)
    ({ etb with
        supportedDynamicMetadataTypes := some types
        dynamicHdrMetadataTypeId := some metadataType
        dynamicHdrMetadataVersionNumber := some version }, w1 ++ w2)

/-- Byte-pair loop of `parseVideoFormatPreferenceDataBlock`. -/
def parseVfpGo (r : BlockReader) (startAddress blockLength : Nat) : Nat → Nat →
    List VideoFormatPreference → List Warning →
    List VideoFormatPreference × List Warning
  | 0, _, acc, w => (acc, w)
  | fuel + 1, i, acc, w =>
    if i < blockLength then
      let (dataByte, w1) := r.u8OrZero (startAddress + i)
      parseVfpGo r startAddress blockLength fuel (i + 1)
        (acc ++ [{ svrCode := dataByte &&& 0x3f, frrCode := (dataByte &&& 0xc0) >>> 6 }])
        (w ++ w1)
    else (acc, w)

/-- Embedding of `parseVideoFormatPreferenceDataBlock` (extended tag 13). -/
def parseVideoFormatPreferenceDataBlock (r : BlockReader)
    (startAddress blockLength : Nat) (etb : ExtendedTagDataBlock) :
    ExtendedTagDataBlock × List Warning :=
  let etb := { etb with extendedTag := some (.namedTag 13) }
  if blockLength < 1 then
    ({ etb with errorMsg := some ("Empty Data Block") }, [])
  else
    let (preferences, w) := parseVfpGo r startAddress blockLength blockLength 1 [] []
    ({ etb with videoFormatPreferences := some preferences }, w)

/-- Embedding of `parseRoomConfigurationDataBlock` (extended tag 19). -/
def parseRoomConfigurationDataBlock (r : BlockReader)
    (startAddress blockLength : Nat) (etb : ExtendedTagDataBlock) :
    ExtendedTagDataBlock × List Warning :=
  let etb := { etb with extendedTag := some (.namedTag 19) }
  if blockLength < 1 then
    ({ etb with errorMsg := some ("Empty Data Block") }, [])
  else
    let (configByte, w) := r.u8OrZero (startAddress + 1)
    let roomTypeCode := (configByte &&& 0x60) >>> 5
    ({ etb with
        speakerCount := some ((configByte &&& 0x1f) + 1)
        roomTypeCode := some roomTypeCode
        roomTypeString := some
          (match roomTypeCode with
            | 0 => .notIndicated
            | 1 => .frontHeight
            | 2 => .rearHeight
            | _ => .reservedType) }, w)

/-- Embedding of `parseHDMIForumSCDB` (extended tag 0x79). -/
def parseHDMIForumSCDB (r : BlockReader) (startAddress blockLength : Nat)
    (etb : ExtendedTagDataBlock) : ExtendedTagDataBlock × List Warning :=
  let etb := { etb with extendedTag := some (.namedTag 0x79) }
  if blockLength < 3 then
    ({ etb with errorMsg := some ("HDMI Forum SCDB too short") }, [])
  else
    let (data, w) := prefetchData r startAddress blockLength
    let dataByte := fun (i : Nat) => data.getD i 0
    let features : HdmiForumFeatures := {}
    let features : HdmiForumFeatures :=
      if blockLength > 3 then
        { features with
            isScdcPresent := setIf (dataByte 3 &&& 0x80 ≠ 0)
            isScdcReadRequestCapable := setIf (dataByte 3 &&& 0x40 ≠ 0)
            supportsCableStatus := setIf (dataByte 3 &&& 0x20 ≠ 0)
            supportsColorContentBitsPerComponent := setIf (dataByte 3 &&& 0x10 ≠ 0)
            supportsScrambling340Mcsc := setIf (dataByte 3 &&& 0x08 ≠ 0)
            supports3DIndependentView := setIf (dataByte 3 &&& 0x04 ≠ 0)
            supports3DDualView := setIf (dataByte 3 &&& 0x02 ≠ 0)
            supports3DOSDDisparity := setIf (dataByte 3 &&& 0x01 ≠ 0) }
      else features
    let features : HdmiForumFeatures :=
      if blockLength > 4 then
        { features with
            supportsFAPAEndExtended := setIf (dataByte 5 &&& 0x80 ≠ 0)
            supportsQMS := setIf (dataByte 5 &&& 0x40 ≠ 0)
            supportsMDelta := setIf (dataByte 5 &&& 0x20 ≠ 0)
            supportsCinemaVRR := setIf (dataByte 5 &&& 0x10 ≠ 0)
            supportsNegativeMVRR := setIf (dataByte 5 &&& 0x08 ≠ 0)
            supportsFastVActive := setIf (dataByte 5 &&& 0x04 ≠ 0)
            supportsALLM := setIf (dataByte 5 &&& 0x02 ≠ 0)
            supportsFAPAInBlanking := setIf (dataByte 5 &&& 0x01 ≠ 0) }
      else features
    let features : HdmiForumFeatures :=
      if blockLength > 8 then
        { features with
            supportsVESADSC12a := setIf (dataByte 8 &&& 0x80 ≠ 0)
            supportsCompressedVideo420 := setIf (dataByte 8 &&& 0x40 ≠ 0)
            supportsQMSTFRmax := setIf (dataByte 8 &&& 0x20 ≠ 0)
            supportsQMSTFRmin := setIf (dataByte 8 &&& 0x10 ≠ 0)
            supportsCompressedVideoAnyBpp := setIf (dataByte 8 &&& 0x08 ≠ 0)
            supports16bpcCompressedVideo := setIf (dataByte 8 &&& 0x04 ≠ 0)
            supports12bpcCompressedVideo := setIf (dataByte 8 &&& 0x02 ≠ 0)
            supports10bpcCompressedVideo := setIf (dataByte 8 &&& 0x01 ≠ 0) }
      else features
    let vrrMin := dataByte 6 &&& 0x3f
    let vrrMax := ((dataByte 6 &&& 0xc0) <<< 2) ||| dataByte 7
    ({ etb with
        hfSCDBVersion := some (dataByte 1)
        maxTMDSCharacterRateMhz := some (dataByte 2 * 5)
        hdmiForumFeatures := some features
        maxFixedRateLink :=
          if blockLength > 4 then
            some (frlRateOfNibble ((dataByte 4 &&& 0xf0) >>> 4))
          else none
        vrrMinHz :=
          if blockLength > 6 ∧ vrrMin > 0 then some vrrMin else none
        vrrMaxHz :=
          if blockLength > 6 ∧ vrrMax > 0 then some vrrMax else none }, w)

/-- A decoded CTA data block: the tagged union over the 3-bit tag codes
(RESERVED = 0, AUDIO = 1, VIDEO = 2, VENDOR_SPECIFIC = 3,
SPEAKER_ALLOCATION = 4, EXTENDED_TAG = 7). -/
inductive AnyDataBlock where
  | audio (b : AudioDataBlock)
  | video (b : VideoDataBlock)
  | vendor (b : VendorDataBlock)
  | speaker (b : SpeakerDataBlock)
  | extended (b : ExtendedTagDataBlock)
  deriving DecidableEq, Repr

/-- Embedding of `isVideoBlock`. -/
def isVideoBlock : Option AnyDataBlock → Bool
  | some (.video _) => true
  | _ => false

/-- Embedding of `isVendorBlock`. -/
def isVendorBlock : Option AnyDataBlock → Bool
  | some (.vendor _) => true
  | _ => false

/-- Embedding of `isExtendedTagBlock`. -/
def isExtendedTagBlock : Option AnyDataBlock → Bool
  | some (.extended _) => true
  | _ => false

/-- Embedding of `parseExtendedTagDataBlock`: reads the 1-byte extended tag
code and dispatches to the matching sub-decoder; unrecognized codes keep the
raw numeric tag. -/
def parseExtendedTagDataBlock (r : BlockReader) (startAddress blockLength : Nat)
    (context : ExtensionParseContext) : ExtendedTagDataBlock × List Warning :=
  let etb : ExtendedTagDataBlock := { dataLength := blockLength }
  let (code, w0) := r.u8OrZero (startAddress + 0)
  let (etb, w1) :=
    if code = 0 then parseVideoCapabilityDataBlock r startAddress blockLength etb
    else if code = 1 then
      parseVendorSpecificVideoDataBlock r startAddress blockLength etb
    else if code = 5 then parseColorimetryDataBlock r startAddress blockLength etb
    else if code = 14 then parseYCbCr420VideoDataBlock r startAddress blockLength etb
    else if code = 15 then
      parseYCbCr420CapabilityMapDataBlock r startAddress blockLength etb context
    else if code = 6 then
      parseHDRStaticMetadataDataBlock r startAddress blockLength etb
    else if code = 7 then
      parseHDRDynamicMetadataDataBlock r startAddress blockLength etb
    else if code = 13 then
      parseVideoFormatPreferenceDataBlock r startAddress blockLength etb
    else if code = 19 then
      parseRoomConfigurationDataBlock r startAddress blockLength etb
    else if code = 0x79 then parseHDMIForumSCDB r startAddress blockLength etb
    else ({ etb with extendedTag := some (.rawTag code) }, [])
  (etb, w0 ++ w1)

/-- Loop body of the primary data block collection scan: reads the header
byte (3-bit tag, 5-bit length) at `index`, dispatches, stores one entry per
step (possibly an absent one) and advances by length + 1.  A second and any
later VIDEO block is merged into the first: its short video descriptors are
appended to the primary video block (updated in place in the collection)
and the step stores an absent entry. -/
def dbcGo (r : BlockReader) (endAddress : Nat) : Nat → Nat →
    ExtensionParseContext → List (Option AnyDataBlock) →
    Option (Nat × VideoDataBlock) → List Warning →
    List (Option AnyDataBlock) × ExtensionParseContext × List Warning
  | 0, _, context, acc, _, w => (acc, context, w)
  | fuel + 1, index, context, acc, primary, w =>
    if index < endAddress then
      match r.u8 index with
      | (none, w1) => (acc, context, w ++ w1)
      | (some headerByte, w1) =>
          let blockTagCode := (headerByte >>> 5) &&& 0x07
          let blockLength := headerByte &&& 0x1f
          if blockTagCode = 1 then
            let (b, w2) := parseAudioDataBlock r (index + 1) blockLength
            dbcGo r endAddress fuel (index + blockLength + 1) context
              (acc ++ [some (.audio b)]) primary (w ++ w1 ++ w2)
          else if blockTagCode = 2 then
            let (vb, context2, w2) := parseVideoDataBlock r (index + 1) blockLength context
            match primary with
            | none =>
                dbcGo r endAddress fuel (index + blockLength + 1) context2
                  (acc ++ [some (.video vb)]) (some (acc.length, vb)) (w ++ w1 ++ w2)
            | some (pi, pvb) =>
                let merged : VideoDataBlock :=
                  { pvb with
                      shortVideoDescriptors :=
                        pvb.shortVideoDescriptors ++ vb.shortVideoDescriptors
                      dataLength := pvb.dataLength + vb.dataLength }
                dbcGo r endAddress fuel (index + blockLength + 1)
                  { context2 with lastVideoBlock := some merged }
                  ((acc.set pi (some (.video merged))) ++ [none])
                  (some (pi, merged)) (w ++ w1 ++ w2)
          else if blockTagCode = 3 then
            let (b, w2) := parseVendorDataBlock r (index + 1) blockLength
            dbcGo r endAddress fuel (index + blockLength + 1) context
              (acc ++ [some (.vendor b)]) primary (w ++ w1 ++ w2)
          else if blockTagCode = 4 then
            let (b, w2) := parseSpeakerDataBlock r (index + 1) blockLength
            dbcGo r endAddress fuel (index + blockLength + 1) context
              (acc ++ [some (.speaker b)]) primary (w ++ w1 ++ w2)
          else if blockTagCode = 7 then
            let (b, w2) := parseExtendedTagDataBlock r (index + 1) blockLength context
            dbcGo r endAddress fuel (index + blockLength + 1) context
              (acc ++ [some (.extended b)]) primary (w ++ w1 ++ w2)
          else
            let wU := [mkWarning .unknown_data_block
              ("Encountered an unknown CTA data block tag.")
              (some r.blockIndex) (some index)]
            dbcGo r endAddress fuel (index + blockLength + 1) context
              (acc ++ [none]) primary (w ++ w1 ++ wU)
    else (acc, context, w)

/-- Detection of an HDMI-Forum-SCDB extended-tag block inside a decoded
collection (the `.some` predicate of the recovery check). -/
def isScdbEntry (b : Option AnyDataBlock) : Bool :=
  match b with
  | some (.extended etb) =>
      match etb.extendedTag with
      | some t => t.value = 0x79
      | none => false
  | _ => false

/-- The SCDB recovery scan: re-walks the byte range one byte at a time
looking for an extended-tag header whose inner extended-tag byte is the
HDMI-Forum-SCDB code, with a non-zero length that fits in the range. -/
def scdbRecoveryGo (r : BlockReader) (endAddress : Nat) : Nat → Nat →
    ExtensionParseContext → List Warning →
    Option ExtendedTagDataBlock × List Warning
  | 0, _, _, w => (none, w)
  | fuel + 1, scanIndex, context, w =>
    if scanIndex < endAddress then
      match r.u8 scanIndex with
      | (none, w1) => (none, w ++ w1)
      | (some headerByte, w1) =>
          let w := w ++ w1
          let blockTagCode := (headerByte >>> 5) &&& 0x07
          if blockTagCode ≠ 7 then scdbRecoveryGo r endAddress fuel (scanIndex + 1) context w
          else
            let blockLength := headerByte &&& 0x1f
            if blockLength = 0 then scdbRecoveryGo r endAddress fuel (scanIndex + 1) context w
            else
              let dataStart := scanIndex + 1
              if dataStart + blockLength > endAddress then
                scdbRecoveryGo r endAddress fuel (scanIndex + 1) context w
              else
                let (extendedTagValue, w2) := r.u8OrZero dataStart
                let w := w ++ w2
                if extendedTagValue ≠ 0x79 then
                  scdbRecoveryGo r endAddress fuel (scanIndex + 1) context w
                else
                  let (blk, w3) := parseExtendedTagDataBlock r dataStart blockLength context
                  (some blk, w ++ w3)
    else (none, w)

/-- Embedding of `parseDataBlockCollection`: a negative collection length
yields an empty collection plus a parse_error warning; otherwise the
primary scan runs over [4, dtdStart) and, when it produced no
HDMI-Forum-SCDB block, the recovery scan may append one. -/
def parseDataBlockCollection (r : BlockReader) (dtdStart : Nat)
    (context : ExtensionParseContext) :
    List (Option AnyDataBlock) × ExtensionParseContext × List Warning :=
  if dtdStart < 4 then
    ([], context,
      [mkWarning .parse_error ("CTA data block collection length is negative.")
        (some r.blockIndex) (some 4)])
  else
    let endAddress := dtdStart
    let (collection, context, w) := dbcGo r endAddress endAddress 4 context [] none []
    if collection.any isScdbEntry then (collection, context, w)
    else
      match scdbRecoveryGo r endAddress endAddress 4 context [] with
      | (some blk, w2) => (collection ++ [some (.extended blk)], context, w ++ w2)
      | (none, w2) => (collection, context, w ++ w2)

/-- Extension block type tag. -/
inductive ExtensionType where
  | cta861
  | displayid
  | unknownExt
  deriving DecidableEq, Repr

/-- One decoded extension block (`ParsedExtensionBlock`). -/
structure ParsedExtensionBlock where
  blockNumber : Nat
  extTagByte : Nat
  revisionNumber : Nat
  dtdStart : Nat
  numDtds : Nat
  supportsUnderscan : Bool
  supportsBasicAudio : Bool
  supportsYCbCr444 : Bool
  supportsYCbCr422 : Bool
  dtds : List Dtd
  checksum : Nat
  isChecksumValid : Option Bool := none
  rawBytes : List Nat
  extensionType : ExtensionType
  dataBlockCollection : Option (List (Option AnyDataBlock)) := none
  deriving DecidableEq, Repr

/-- Embedding of `parseCtaExtension` (extension tag 0x02). -/
def parseCtaExtension (r : BlockReader) (extIndex : Nat)
    (context : ExtensionParseContext) :
    ParsedExtensionBlock × ExtensionParseContext × List Warning :=
  let (extTag, w0) := r.u8OrZero 0
  let (revision, w1) := r.u8OrZero 1
  let (dtdStart, w2) := r.u8OrZero 2
  let (f1, w3) := r.u8OrZero 3
  let (f2, w4) := r.u8OrZero 3
  let (f3, w5) := r.u8OrZero 3
  let (f4, w6) := r.u8OrZero 3
  let (f5, w7) := r.u8OrZero 3
  let (dataBlockCollection, context, wC) :=
    if dtdStart ≠ 4 then
      let (c, context, wC) := parseDataBlockCollection r dtdStart context
      (some c, context, wC)
    else (none, context, [])
  let (dtds, wD) := getDtds r dtdStart 126
  let (extChecksum, wE) := r.u8 127
  let (valid, wF) := validChecksum r.ctx (extIndex + 1) (extIndex + 1)
  ({ blockNumber := extIndex + 1
     extTagByte := extTag
     revisionNumber := revision
     dtdStart := dtdStart
     numDtds := f1 &&& 0x0f
     supportsUnderscan := f2 &&& 0x80 ≠ 0
     supportsBasicAudio := f3 &&& 0x40 ≠ 0
     supportsYCbCr444 := f4 &&& 0x20 ≠ 0
     supportsYCbCr422 := f5 &&& 0x10 ≠ 0
     dtds := dtds
     checksum := extChecksum.getD 0
     isChecksumValid := valid
     rawBytes := (r.ctx.bytes.drop r.blockOffset).take EDID_BLOCK_LENGTH
     extensionType := .cta861
     dataBlockCollection := dataBlockCollection },
    context,
    w0 ++ w1 ++ w2 ++ w3 ++ w4 ++ w5 ++ w6 ++ w7 ++ wC ++ wD ++ wE ++ wF)

/-- Embedding of `parseDisplayIdExtension` (extension tag 0x70). -/
def parseDisplayIdExtension (r : BlockReader) (extIndex : Nat) :
    ParsedExtensionBlock × List Warning :=
  let (extTag, w0) := r.u8OrZero 0
  let (revision, w1) := r.u8OrZero 1
  let (payloadLength, w2) := r.u8OrZero 2
  let dtdStart := min 127 (5 + payloadLength)
  let (extChecksum, w3) := r.u8 127
  let (valid, w4) := validChecksum r.ctx (extIndex + 1) (extIndex + 1)
  ({ blockNumber := extIndex + 1
     extTagByte := extTag
     revisionNumber := revision
     dtdStart := dtdStart
     numDtds := 0
     supportsUnderscan := false
     supportsBasicAudio := false
     supportsYCbCr444 := false
     supportsYCbCr422 := false
     dtds := []
     checksum := extChecksum.getD 0
     isChecksumValid := valid
     rawBytes := (r.ctx.bytes.drop r.blockOffset).take EDID_BLOCK_LENGTH
     extensionType := .displayid },
    w0 ++ w1 ++ w2 ++ w3 ++ w4)

/-- Embedding of `parseUnknownExtension` (any other extension tag); also
emits the unknown_extension_tag warning. -/
def parseUnknownExtension (r : BlockReader) (extIndex : Nat) :
    ParsedExtensionBlock × List Warning :=
  let (extTag, w0) := r.u8OrZero 0
  let (revision, w1) := r.u8OrZero 1
  let (dtdStart, w2) := r.u8OrZero 2
  let (f1, w3) := r.u8OrZero 3
  let (f2, w4) := r.u8OrZero 3
  let (f3, w5) := r.u8OrZero 3
  let (f4, w6) := r.u8OrZero 3
  let (f5, w7) := r.u8OrZero 3
  let (extChecksum, w8) := r.u8 127
  let (valid, w9) := validChecksum r.ctx (extIndex + 1) (extIndex + 1)
  let wU := [mkWarning .unknown_extension_tag
    ("Encountered an unsupported extension tag.") (some r.blockIndex) (some 0)]
  ({ blockNumber := extIndex + 1
     extTagByte := extTag
     revisionNumber := revision
     dtdStart := dtdStart
     numDtds := f1 &&& 0x0f
     supportsUnderscan := f2 &&& 0x80 ≠ 0
     supportsBasicAudio := f3 &&& 0x40 ≠ 0
     supportsYCbCr444 := f4 &&& 0x20 ≠ 0
     supportsYCbCr422 := f5 &&& 0x10 ≠ 0
     dtds := []
     checksum := extChecksum.getD 0
     isChecksumValid := valid
     rawBytes := (r.ctx.bytes.drop r.blockOffset).take EDID_BLOCK_LENGTH
     extensionType := .unknownExt },
    w0 ++ w1 ++ w2 ++ w3 ++ w4 ++ w5 ++ w6 ++ w7 ++ w8 ++ w9 ++ wU)

/-- The CTA extension tag byte. -/
def CTA_EXTENSION_TAG : Nat := 0x02

/-- The DisplayID extension tag byte. -/
def DISPLAYID_EXTENSION_TAG : Nat := 0x70

/-- Type of one per-extension-block parse attempt: the dispatch body inside
the try of `parseExtensions`.  A faulting parser yields `Except.error`; the
warnings it pushed and its context mutations up to the fault persist, as
they do for a thrown JS exception. -/
abbrev ExtensionBlockParser :=
  BlockReader → Nat → ExtensionParseContext → Nat →
    Except String ParsedExtensionBlock × ExtensionParseContext × List Warning

/-- The real dispatch body of `parseExtensions`: CTA-861 for tag 0x02,
DisplayID for 0x70, otherwise the unknown-extension fallback.  None of the
embedded parsers can fault, so the result is always `Except.ok`. -/
def realExtensionDispatch : ExtensionBlockParser := fun r extIndex context extTag =>
  if extTag = CTA_EXTENSION_TAG then
    let (b, context, w) := parseCtaExtension r extIndex context
    (.ok b, context, w)
  else if extTag = DISPLAYID_EXTENSION_TAG then
    let (b, w) := parseDisplayIdExtension r extIndex
    (.ok b, context, w)
  else
    let (b, w) := parseUnknownExtension r extIndex
    (.ok b, context, w)

/-- Loop body of `parseExtensions`, generic in the per-block parser: reads
the tag byte of each 128-byte extension block (stopping at the end of the
buffer), runs the parser, and converts a per-block fault into a parse_error
warning plus the unknown-extension fallback, then continues with the next
block. -/
def parseExtensionsGo (f : ExtensionBlockParser) (ctx : ReadCtx) (count : Nat) :
    Nat → Nat → ExtensionParseContext → List ParsedExtensionBlock →
    List Warning →
    List ParsedExtensionBlock × ExtensionParseContext × List Warning
  | 0, _, context, acc, w => (acc, context, w)
  | fuel + 1, extIndex, context, acc, w =>
    if extIndex < count then
      let blockOffset := EDID_BLOCK_LENGTH * (extIndex + 1)
      let r : BlockReader := { ctx := ctx, blockIndex := extIndex + 1, blockOffset := blockOffset }
      match r.u8 0 with
      | (none, w1) => (acc, context, w ++ w1)
      | (some extTag, w1) =>
          match f r extIndex context extTag with
          | (.ok block, context, w2) =>
              parseExtensionsGo f ctx count fuel (extIndex + 1) context
                (acc ++ [block]) (w ++ w1 ++ w2)
          | (.error _e, context, w2) =>
              let wErr := [mkWarning .parse_error
                ("Failed to parse extension block.") (some r.blockIndex) (some 0)]
              let (fallback, w3) := parseUnknownExtension r extIndex
              parseExtensionsGo f ctx count fuel (extIndex + 1) context
                (acc ++ [fallback]) (w ++ w1 ++ w2 ++ wErr ++ w3)
    else (acc, context, w)

/-- Embedding of `parseExtensions`, generic in the per-block parser. -/
def parseExtensionsWith (f : ExtensionBlockParser) (ctx : ReadCtx) (count : Nat)
    (context : ExtensionParseContext) :
    List ParsedExtensionBlock × ExtensionParseContext × List Warning :=
  parseExtensionsGo f ctx count count 0 context [] []

/-- Embedding of `parseExtensions` with the real dispatch. -/
def parseExtensions (ctx : ReadCtx) (count : Nat)
    (context : ExtensionParseContext) :
    List ParsedExtensionBlock × ExtensionParseContext × List Warning :=
  parseExtensionsWith realExtensionDispatch ctx count context

/-- Header validity display value. -/
inductive HeaderValidity where
  | okHeader
  | errorHeader
  deriving DecidableEq, Repr

/-- The decoded base block (`ParsedBaseEdidBlock`). -/
structure ParsedBaseEdidBlock where
  vendorId : String
  rawBytes : List Nat
  spwg : Option SpwgData := none
  isHeaderValid : Bool
  headerValidity : HeaderValidity
  edidVersion : Nat
  edidRevision : Nat
  edidVersionString : String
  chromaticity : ChromaticityCoordinates
  timingBitmap : Nat
  standardDisplayModes : List StandardDisplayMode
  dtds : List Dtd
  numberOfExtensions : Nat
  checksum : Nat
  isChecksumValid : Option Bool := none
  deriving DecidableEq, Repr

/-- Result bundle of `parseBaseBlock` (the external vendor lookup is out of
scope and not modelled). -/
structure ParsedBaseBlockResult where
  baseBlock : ParsedBaseEdidBlock
  productInfo : ProductInfo
  basicDisplayParams : BasicDisplayParams
  nativeResolution : Option NativeResolution
  deriving DecidableEq, Repr

/-- Embedding of `parseBaseBlock` with the source's call order (which fixes
the order of the warnings the reads append). -/
def parseBaseBlock (r : BlockReader) : ParsedBaseBlockResult × List Warning :=
  let (vid, wVid) := getVendorId r
  let (monitorDescriptors, wMon) := getMonitorDescriptors r 54 126
  let (productCode, wPc) := getProductCode r
  let (serialNumberInt, wSn) := getSerialNumberInt r
  let (manufactureWeek, wWk) := getManufactureWeek r
  let (manufactureYear, wYr) := getManufactureYear r
  let productInfo : ProductInfo :=
    { productCode := productCode
      serialNumberInt := serialNumberInt
      manufactureWeek := manufactureWeek
      manufactureYear := manufactureYear }
  let (basicDisplayParams, wBdp) := getBasicDisplayParams r
  let (isHeaderValid, wHdr) := validateHeader r
  let (edidVersion, wV) := getEdidVersion r
  let (edidRevision, wR) := getEdidRevision r
  let wMinor :=
    if edidVersion = 1 ∧ ¬ (edidRevision = 0 ∨ edidRevision = 1 ∨
        edidRevision = 2 ∨ edidRevision = 3 ∨ edidRevision = 4) then
      [mkWarning .unknown_edid_minor_version
        ("Unknown EDID minor version, assuming 1.4 conformance.")
        (some r.blockIndex) (some 19)]
    else []
  let (chromaticity, wCh) := getChromaticityCoordinates r
  let (timingBitmap, wTb) := getTimingBitmap r
  let (standardDisplayModes, wSm) := getStandardDisplayModes r
  let (dtds, wDt) := getDtds r 54 126
  let nativeResolution := getNativeResolution dtds (some basicDisplayParams)
  let (numberOfExtensions, wNe) := getNumberExtensions r
  let (checksum, wCk) := getChecksum r
  let (isChecksumValid, wVc) := validChecksum r.ctx 0 0
  let baseBlock : ParsedBaseEdidBlock :=
    { vendorId := vid
      rawBytes := r.ctx.bytes.take EDID_BLOCK_LENGTH
      spwg := monitorDescriptors.spwg
      isHeaderValid := isHeaderValid
      headerValidity := if isHeaderValid then .okHeader else .errorHeader
      edidVersion := edidVersion
      edidRevision := edidRevision
      edidVersionString := Nat.repr edidVersion ++ "." ++ Nat.repr edidRevision
      chromaticity := chromaticity
      timingBitmap := timingBitmap
      standardDisplayModes := standardDisplayModes
      dtds := dtds
      numberOfExtensions := numberOfExtensions
      checksum := checksum
      isChecksumValid := isChecksumValid }
  ({ baseBlock := baseBlock
     productInfo := productInfo
     basicDisplayParams := basicDisplayParams
     nativeResolution := nativeResolution },
    wVid ++ wMon ++ wPc ++ wSn ++ wWk ++ wYr ++ wBdp ++ wHdr ++ wV ++ wR ++
      wMinor ++ wCh ++ wTb ++ wSm ++ wDt ++ wNe ++ wCk ++ wVc)

/-- Color gamut labels. -/
inductive ColorGamut where
  | srgb
  | displayP3
  | adobeRgb
  | rec2020
  deriving DecidableEq, Repr

/-- The four canonical primary sets (`CANONICAL_GAMUTS`); the float literal
coordinates of the source are modelled as the equal decimal rationals. -/
def CANONICAL_GAMUTS : List (ColorGamut × ℚ × ℚ × ℚ × ℚ × ℚ × ℚ) :=
  [(.srgb, 64/100, 33/100, 30/100, 60/100, 15/100, 6/100),
   (.displayP3, 68/100, 32/100, 265/1000, 69/100, 15/100, 6/100),
   (.adobeRgb, 64/100, 33/100, 21/100, 71/100, 15/100, 6/100),
   (.rec2020, 708/1000, 292/1000, 17/100, 797/1000, 131/1000, 46/1000)]

/-- Embedding of `inferColorGamut`: nearest canonical gamut by the sum of
squared distances over the six primary coordinates (strictly closer wins,
so ties keep the earlier table entry).  In this embedding the chromaticity
record always carries every coordinate, so only the absent-record case of
the TS undefined checks remains. -/
def inferColorGamut (chromaticity : Option ChromaticityCoordinates) :
    Option ColorGamut :=
  match chromaticity with
  | none => none
  | some c =>
      (CANONICAL_GAMUTS.foldl
        (fun (best : Option ColorGamut × Option ℚ) entry =>
          match entry with
          | (gamut, rX, rY, gX, gY, bX, bY) =>
              let distance :=
                (c.redXCoords - rX) ^ 2 + (c.redYCoords - rY) ^ 2 +
                (c.greenXCoords - gX) ^ 2 + (c.greenYCoords - gY) ^ 2 +
                (c.blueXCoords - bX) ^ 2 + (c.blueYCoords - bY) ^ 2
              match best.2 with
              | none => (some gamut, some distance)
              | some closest =>
                  if distance < closest then (some gamut, some distance) else best)
        (none, none)).1

/-- Embedding of `getDtdRefreshRateHz`. -/
def getDtdRefreshRateHz (dtd : Dtd) : Option ℚ :=
  if dtd.horizontalActivePixels = 0 ∨ dtd.verticalActivePixels = 0 then none
  else
    let horizontalTotal := dtd.horizontalActivePixels + dtd.horizontalBlankLineCount
    let verticalTotal := dtd.verticalActivePixels + dtd.verticalBlankLineCount
    if horizontalTotal = 0 ∨ verticalTotal = 0 then none
    else
      let refreshRateHz :=
        dtd.pixelClockMhz * 1000000 / ((horizontalTotal : ℚ) * (verticalTotal : ℚ))
      if refreshRateHz > 0 then some refreshRateHz else none

/-- Embedding of `parseDisplayIdVersionFromRevision`. -/
def parseDisplayIdVersionFromRevision (revision : Nat) : Option ℚ :=
  if revision = 0 ∨ revision > 0xff then none
  else if revision = 0x01 then some (13/10)
  else if revision = 0x02 then some 2
  else if revision = 0x03 then some (21/10)
  else
    let major := (revision >>> 4) &&& 0x0f
    let minor := revision &&& 0x0f
    if major = 0 ∨ minor > 9 then none
    else some ((major : ℚ) + (minor : ℚ) / 10)

/-- The mutable running state of `buildFeatureSupport` before finalization:
the gamut set as four membership booleans, the monotone maxima, the VRR
bounds, and the static refresh-rate range with `none` standing for the
`POSITIVE_INFINITY` starting value of the minimum. -/
structure FsAccum where
  gamutSrgb : Bool := false
  gamutP3 : Bool := false
  gamutAdobe : Bool := false
  gamutRec2020 : Bool := false
  maxInputSignalBitDepth : Nat := 8
  supportsHDR10 : Bool := false
  supportsHDR10Plus : Bool := false
  supportsDolbyVision : Bool := false
  supportsVRR : Bool := false
  supportsGameMode : Bool := false
  supportsALLM : Bool := false
  minVrrHz : Option Int := none
  maxVrrHz : Option Int := none
  hdmiVersion : Option ℚ := none
  displayIdVersion : Option ℚ := none
  minSrrHz : Option Int := none
  maxSrrHz : Int := 0
  deriving DecidableEq, Repr

/-- Truthiness of an optional boolean field (JS `if (x.f)`). -/
def tb (x : Option Bool) : Bool := x = some true

/-- Embedding of the `addSrrRate` closure: rejects absent, non-positive and
non-positive-rounded rates, then lowers the running minimum and raises the
running maximum. -/
def addSrrRate (st : FsAccum) (rateHz : Option ℚ) : FsAccum :=
  match rateHz with
  | none => st
  | some rate =>
      if rate ≤ 0 then st
      else
        let rounded := jsRound rate
        if rounded ≤ 0 then st
        else
          { st with
              minSrrHz :=
                match st.minSrrHz with
                | none => some rounded
                | some m => if rounded < m then some rounded else some m
              maxSrrHz := if rounded > st.maxSrrHz then rounded else st.maxSrrHz }

/-- Embedding of the `addVrrMin` closure. -/
def addVrrMin (st : FsAccum) (rateHz : Option ℚ) : FsAccum :=
  match rateHz with
  | none => st
  | some rate =>
      if rate ≤ 0 then st
      else
        let rounded := jsRound rate
        if rounded ≤ 0 then st
        else
          { st with
              minVrrHz :=
                match st.minVrrHz with
                | none => some rounded
                | some m => some (min m rounded) }

/-- Embedding of the `addVrrMax` closure. -/
def addVrrMax (st : FsAccum) (rateHz : Option ℚ) : FsAccum :=
  match rateHz with
  | none => st
  | some rate =>
      if rate ≤ 0 then st
      else
        let rounded := jsRound rate
        if rounded ≤ 0 then st
        else
          { st with
              maxVrrHz :=
                match st.maxVrrHz with
                | none => some rounded
                | some m => some (max m rounded) }

/-- Embedding of the `addHdmiVersion` closure (monotone max). -/
def addHdmiVersion (st : FsAccum) (version : ℚ) : FsAccum :=
  { st with
      hdmiVersion :=
        match st.hdmiVersion with
        | none => some version
        | some current => if version > current then some version else some current }

/-- Embedding of the `addDisplayIdVersion` closure (monotone max). -/
def addDisplayIdVersion (st : FsAccum) (version : ℚ) : FsAccum :=
  { st with
      displayIdVersion :=
        match st.displayIdVersion with
        | none => some version
        | some current => if version > current then some version else some current }

/-- One vendor data block's contribution to the feature summary (the vendor
branch of the data-block loop of `buildFeatureSupport`). -/
def processVendorBlock (st : FsAccum) (b : VendorDataBlock) : FsAccum :=
  let st :=
    if b.ieeeOui = OUI_HDMI14 then addHdmiVersion st (14/10)
    else if b.ieeeOui = OUI_HDMI_FORUM then
      let isHdmi21Signaled :=
        b.hfPayloadVersion ≠ none ∨ b.hdmiForumFeatures ≠ none ∨
          (b.maxFixedRateLink ≠ none ∧ b.maxFixedRateLink ≠ some .notSupported)
      addHdmiVersion st (if isHdmi21Signaled then 21/10 else 2)
    else st
  let st := if tb b.supportsDolbyVision then { st with supportsDolbyVision := true } else st
  let st := if tb b.supportsGameContentType then { st with supportsGameMode := true } else st
  let st :=
    if tb b.supportsDeepColor30 ∨ tb b.supportsDeepColorY420_30 then
      { st with maxInputSignalBitDepth := max st.maxInputSignalBitDepth 10 }
    else st
  let st :=
    if tb b.supportsDeepColor36 ∨ tb b.supportsDeepColorY420_36 then
      { st with maxInputSignalBitDepth := max st.maxInputSignalBitDepth 12 }
    else st
  let st :=
    if tb b.supportsDeepColor48 ∨ tb b.supportsDeepColorY420_48 then
      { st with maxInputSignalBitDepth := max st.maxInputSignalBitDepth 16 }
    else st
  let features := b.hdmiForumFeatures
  let st :=
    if tb (features.bind (·.supports10bpcCompressedVideo)) then
      { st with maxInputSignalBitDepth := max st.maxInputSignalBitDepth 10 }
    else st
  let st :=
    if tb (features.bind (·.supports12bpcCompressedVideo)) then
      { st with maxInputSignalBitDepth := max st.maxInputSignalBitDepth 12 }
    else st
  let st :=
    if tb (features.bind (·.supports16bpcCompressedVideo)) then
      { st with maxInputSignalBitDepth := max st.maxInputSignalBitDepth 16 }
    else st
  let st :=
    if tb (features.bind (·.supportsCinemaVRR)) ∨
        tb (features.bind (·.supportsNegativeMVRR)) then
      { st with supportsVRR := true }
    else st
  let st :=
    if tb (features.bind (·.supportsALLM)) then { st with supportsALLM := true }
    else st
  let st :=
    if b.vrrMinHz ≠ none ∨ b.vrrMaxHz ≠ none then { st with supportsVRR := true }
    else st
  let st := addVrrMin st (b.vrrMinHz.map (fun n => (n : ℚ)))
  addVrrMax st (b.vrrMaxHz.map (fun n => (n : ℚ)))

/-- One extended-tag data block's contribution to the feature summary. -/
def processExtendedBlock (st : FsAccum) (b : ExtendedTagDataBlock) : FsAccum :=
  let st :=
    if b.extendedTag = some (.namedTag 0x79) then
      let isHdmi21Signaled :=
        b.hdmiForumFeatures ≠ none ∨
          (b.maxFixedRateLink ≠ none ∧ b.maxFixedRateLink ≠ some .notSupported)
      addHdmiVersion st (if isHdmi21Signaled then 21/10 else 2)
    else if tb b.supportsQMS ∨ tb b.supportsCinemaVRR ∨ tb b.supportsNegativeMRR ∨
        tb b.supportsFVA ∨ tb b.supportsALLM then
      addHdmiVersion st (21/10)
    else st
  let st := if tb b.supportsHDR10 then { st with supportsHDR10 := true } else st
  let st := if tb b.supportsHDR10Plus then { st with supportsHDR10Plus := true } else st
  let st := if tb b.supportsDolbyVision then { st with supportsDolbyVision := true } else st
  let st := if tb b.supportsAdobeRGB then { st with gamutAdobe := true } else st
  let st :=
    if tb b.supportsBT2020RGB ∨ tb b.supportsBT2020YCC ∨ tb b.supportsBT2020cYCC then
      { st with gamutRec2020 := true }
    else st
  let st :=
    if tb b.supportsVRR ∨ tb b.supportsCinemaVRR ∨ tb b.supportsNegativeMRR then
      { st with supportsVRR := true }
    else st
  let st :=
    if tb b.supportsALLM ∨ tb (b.hdmiForumFeatures.bind (·.supportsALLM)) then
      { st with supportsALLM := true }
    else st
  let st :=
    if b.vrrMinHz ≠ none ∨ b.vrrMaxHz ≠ none then { st with supportsVRR := true }
    else st
  let st := addVrrMin st (b.vrrMinHz.map (fun n => (n : ℚ)))
  addVrrMax st (b.vrrMaxHz.map (fun n => (n : ℚ)))

/-- Contribution of one entry of a data block collection: vendor blocks and
extended-tag blocks contribute; absent, audio, video and speaker entries do
not. -/
def processDataBlock (st : FsAccum) (dataBlock : Option AnyDataBlock) : FsAccum :=
  match dataBlock with
  | some (.vendor b) => processVendorBlock st b
  | some (.extended b) => processExtendedBlock st b
  | _ => st

/-- Contribution of one extension block: the DisplayID version for
DisplayID-tagged blocks, the DTD refresh rates, and the data block
collection entries. -/
def processExtension (st : FsAccum) (ext : ParsedExtensionBlock) : FsAccum :=
  let st :=
    if ext.extTagByte = DISPLAYID_EXTENSION_TAG then
      match parseDisplayIdVersionFromRevision ext.revisionNumber with
      | some version => addDisplayIdVersion st version
      | none => st
    else st
  let st := ext.dtds.foldl (fun st dtd => addSrrRate st (getDtdRefreshRateHz dtd)) st
  match ext.dataBlockCollection with
  | none => st
  | some dataBlocks => dataBlocks.foldl processDataBlock st

/-- The accumulation pass of `buildFeatureSupport` (everything before the
range/versions finalization). -/
def accumFeatureSupport (baseBlock : ParsedBaseEdidBlock)
    (extensions : List ParsedExtensionBlock)
    (basicDisplayParams : Option BasicDisplayParams)
    (nativeResolution : Option NativeResolution) : FsAccum :=
  let st : FsAccum := {}
  let st :=
    if (basicDisplayParams.map (·.isStandardSRgb)).getD false then
      { st with gamutSrgb := true }
    else st
  let st :=
    match inferColorGamut (some baseBlock.chromaticity) with
    | some gamut =>
        let st :=
          match gamut with
          | .srgb => { st with gamutSrgb := true }
          | .displayP3 => { st with gamutP3 := true }
          | .adobeRgb => { st with gamutAdobe := true }
          | .rec2020 => { st with gamutRec2020 := true }
        { st with gamutSrgb := true }
    | none => st
  let st := addSrrRate st (nativeResolution.map (fun nr => ((nr.refreshRateHz : ℚ))))
  let st := baseBlock.standardDisplayModes.foldl
    (fun st mode => addSrrRate st (some ((mode.vertFreqHz : ℚ)))) st
  let st := baseBlock.dtds.foldl
    (fun st dtd => addSrrRate st (getDtdRefreshRateHz dtd)) st
  extensions.foldl processExtension st

/-- The derived feature summary (`FeatureSupport`). -/
structure FeatureSupport where
  colorGamuts : List ColorGamut
  maxInputSignalBitDepth : Nat
  hdmiVersion : Option ℚ
  supportsHDR10 : Bool
  supportsHDR10Plus : Bool
  supportsDolbyVision : Bool
  minSrrHz : Int
  maxSrrHz : Int
  supportsVRR : Bool
  minVrrHz : Option Int
  maxVrrHz : Option Int
  supportsGameMode : Bool
  supportsALLM : Bool
  edidVersion : Option ℚ
  displayIdVersion : Option ℚ
  deriving DecidableEq, Repr

/-- Decimal digit count loop, structurally recursive on a fuel that
dominates the digit count. -/
def digits10Go : Nat → Nat → Nat
  | 0, _ => 1
  | fuel + 1, n => if n < 10 then 1 else 1 + digits10Go fuel (n / 10)

/-- Decimal digit count used to model `parseFloat` on a major.minor string. -/
def digits10 (n : Nat) : Nat := digits10Go n n

/-- The value of `Number.parseFloat` on the string major.minor. -/
def parseFloatMajorMinor (major minor : Nat) : ℚ :=
  (major : ℚ) + (minor : ℚ) / ((10 : ℚ) ^ digits10 minor)

/-- The finalization tail of `buildFeatureSupport` applied to the
accumulated state: folds the VRR bounds into the static range, eliminates
the infinity/zero sentinels, forces max at least min, derives the
supportsVRR and ordered color gamut outputs, and the lossy float EDID
version. -/
def finalizeFeatureSupport (baseBlock : ParsedBaseEdidBlock) (st : FsAccum) :
    FeatureSupport :=
  let minSrrOpt : Option Int :=
    match st.minVrrHz with
    | some v =>
        (match st.minSrrHz with
          | none => some v
          | some m => if m > v then some v else some m)
    | none => st.minSrrHz
  let maxSrr0 : Int :=
    match st.maxVrrHz with
    | some v => if st.maxSrrHz < v then v else st.maxSrrHz
    | none => st.maxSrrHz
  let minSrr : Int :=
    match minSrrOpt with
    | none => ((st.minVrrHz.orElse (fun _ => st.maxVrrHz)).getD 0)
    | some m => m
  let maxSrr1 : Int := if maxSrr0 = 0 then st.maxVrrHz.getD minSrr else maxSrr0
  let maxSrr : Int := if maxSrr1 < minSrr then minSrr else maxSrr1
  let supportsVRR :=
    if ¬ st.supportsVRR ∧ (st.minVrrHz ≠ none ∨ st.maxVrrHz ≠ none) then true
    else st.supportsVRR
  let orderedColorGamuts : List ColorGamut :=
    (if st.gamutSrgb then [ColorGamut.srgb] else []) ++
    (if st.gamutP3 then [ColorGamut.displayP3] else []) ++
    (if st.gamutAdobe then [ColorGamut.adobeRgb] else []) ++
    (if st.gamutRec2020 then [ColorGamut.rec2020] else [])
  { colorGamuts := orderedColorGamuts
    maxInputSignalBitDepth := st.maxInputSignalBitDepth
    hdmiVersion := st.hdmiVersion
    supportsHDR10 := st.supportsHDR10
    supportsHDR10Plus := st.supportsHDR10Plus
    supportsDolbyVision := st.supportsDolbyVision
    minSrrHz := minSrr
    maxSrrHz := maxSrr
    supportsVRR := supportsVRR
    minVrrHz := st.minVrrHz
    maxVrrHz := st.maxVrrHz
    supportsGameMode := st.supportsGameMode
    supportsALLM := st.supportsALLM
    edidVersion :=
      some (parseFloatMajorMinor baseBlock.edidVersion baseBlock.edidRevision)
    displayIdVersion := st.displayIdVersion }

/-- Embedding of `buildFeatureSupport`. -/
def buildFeatureSupport (baseBlock : ParsedBaseEdidBlock)
    (extensions : List ParsedExtensionBlock)
    (basicDisplayParams : Option BasicDisplayParams)
    (nativeResolution : Option NativeResolution) : FeatureSupport :=
  finalizeFeatureSupport baseBlock
    (accumFeatureSupport baseBlock extensions basicDisplayParams nativeResolution)

/-- The root result (`ParsedEdid`); the external vendor lookup result is
out of scope and not modelled. -/
structure ParsedEdid where
  bytes : List Nat
  warnings : List Warning
  isHeaderValid : Bool
  isChecksumValid : Option Bool
  expectedExtensionCount : Nat
  baseBlock : ParsedBaseEdidBlock
  extensions : List ParsedExtensionBlock
  featureSupport : FeatureSupport
  productInfo : ProductInfo
  basicDisplayParams : Option BasicDisplayParams
  nativeResolution : Option NativeResolution
  deriving DecidableEq, Repr

/-- The two length warnings emitted at the top of `parseEdid` before any
other processing. -/
def lengthWarnings (bytes : List Nat) : List Warning :=
  (if bytes.length < EDID_BLOCK_LENGTH then
    [mkWarning .too_short
      ("EDID data is shorter than a single 128-byte block.")]
  else []) ++
  (if bytes.length % EDID_BLOCK_LENGTH ≠ 0 then
    [mkWarning .length_not_multiple_of_128
      ("EDID length is not a multiple of 128 bytes.")]
  else [])

/-- Embedding of `parseEdid` on an already clamped byte buffer, generic in
the per-extension-block parser wrapped by the catch (instantiated with the
real dispatch by `parseEdidBytes`). -/
def parseEdidBytesWith (f : ExtensionBlockParser) (bytes : List Nat) : ParsedEdid :=
  let ctx : ReadCtx := { bytes := bytes }
  let baseReader : BlockReader := { ctx := ctx, blockIndex := 0, blockOffset := 0 }
  let (baseResult, wBase) := parseBaseBlock baseReader
  let baseBlock := baseResult.baseBlock
  let wHdr :=
    if ¬ baseBlock.isHeaderValid then
      [mkWarning .invalid_header ("EDID header is invalid.") (some 0) (some 0)]
    else []
  let wCk :=
    if baseBlock.isChecksumValid = some false then
      [mkWarning .checksum_failed ("Base block checksum failed.") (some 0) (some 127)]
    else []
  let expectedExtensionCount := baseBlock.numberOfExtensions
  let actualExtensionCount := bytes.length / EDID_BLOCK_LENGTH - 1
  let wMis :=
    if expectedExtensionCount ≠ actualExtensionCount then
      [mkWarning .extension_count_mismatch
        ("Extension count does not match available blocks.")]
    else []
  let (extensions, _extContext, wExt) :=
    parseExtensionsWith f ctx actualExtensionCount {}
  let wExtCk := extensions.flatMap (fun ext =>
    if ext.isChecksumValid = some false then
      [mkWarning .checksum_failed ("Extension block checksum failed.")
        (some ext.blockNumber) (some 127)]
    else [])
  let featureSupport := buildFeatureSupport baseBlock extensions
    (some baseResult.basicDisplayParams) baseResult.nativeResolution
  { bytes := bytes
    warnings := lengthWarnings bytes ++ wBase ++ wHdr ++ wCk ++ wMis ++ wExt ++ wExtCk
    isHeaderValid := baseBlock.isHeaderValid
    isChecksumValid := baseBlock.isChecksumValid
    expectedExtensionCount := expectedExtensionCount
    baseBlock := baseBlock
    extensions := extensions
    featureSupport := featureSupport
    productInfo := baseResult.productInfo
    basicDisplayParams := some baseResult.basicDisplayParams
    nativeResolution := baseResult.nativeResolution }

/-- Embedding of `parseEdid` on an already clamped byte buffer. -/
def parseEdidBytes (bytes : List Nat) : ParsedEdid :=
  parseEdidBytesWith realExtensionDispatch bytes

/-- Embedding of the public `parseEdid` entry point: clamps the caller's
data into a byte buffer and decodes it. -/
def parseEdid (data : List Int) : ParsedEdid :=
  parseEdidBytes (toBytes data)

/-
  Helper lemmas used by the claim proofs.
-/

theorem peek_eq_getD {bytes : List Nat} {i : Nat} (h : i < bytes.length) :
    ReadCtx.peek { bytes := bytes } i = some (bytes.getD i 0) := by
  simp [ReadCtx.peek, List.getD_eq_getElem?_getD, List.getElem?_eq_getElem h]

theorem u8_eq_some {r : BlockReader} {o v : Nat}
    (h : r.ctx.peek (r.blockOffset + o) = some v) : r.u8 o = (some v, []) := by
  simp [BlockReader.u8, readU8, h]

theorem u8_eq_none {r : BlockReader} {o : Nat}
    (h : r.ctx.peek (r.blockOffset + o) = none) :
    r.u8 o =
      (none,
        [mkWarning .out_of_range_read
          ("Attempted to read beyond available EDID bytes.")
          (some r.blockIndex) (some o)]) := by
  simp [BlockReader.u8, readU8, h, Option.orElse]

theorem u8OrZero_eq (r : BlockReader) (o : Nat) :
    r.u8OrZero o = ((r.ctx.peek (r.blockOffset + o)).getD 0, (r.u8 o).2) := by
  unfold BlockReader.u8OrZero BlockReader.u8 readU8
  cases h : r.ctx.peek (r.blockOffset + o) <;> simp [h]

theorem append_ite_singleton {α : Type} (c : Prop) [Decidable c]
    (a : List α) (m : α) :
    (if c then a ++ [m] else a) = a ++ (if c then [m] else []) := by
  split <;> simp

/-
  Claim C2 (checksum rule).

  The source computes `256 - (sum % 256)` without reducing modulo 256: on a
  block whose bytes 0..126 sum to a multiple of 256 it yields 256, which no
  stored checksum byte can equal, so such a block is always reported
  invalid even though the EDID rule (and the specification) make checksum
  byte 0 valid there.
-/

/-- The failing input of claim C2: a block of 128 zero bytes.  Its bytes
0..126 sum to 0 and its checksum byte is 0, which the claimed rule accepts. -/
def c2ZeroBlock : List Nat := List.replicate 128 0

/-- Claim C2: on the all-zero block the claimed checksum rule makes byte
127 (which is 0) the correct checksum, yet the decoder computes 256 and
reports the checksum invalid. -/
theorem c2_checksum_zero_sum_code_bug :
    (parseEdidBytes c2ZeroBlock).baseBlock.isChecksumValid = some false ∧
    c2ZeroBlock.getD 127 0 =
      (256 - (((c2ZeroBlock.take 127).sum) % 256)) % 256 ∧
    calcChecksum c2ZeroBlock 0 = some 256 := by
  refine ⟨?_, by decide, by decide⟩
  decide

/-
  Claim C9 (determinism).

  The embedded decoder is one pure function of the clamped byte buffer:
  there is no module-level mutable state in the source (every constant is
  read-only and the warnings list and parse context are allocated afresh
  inside each `parseEdid` call), so two calls on the same bytes return
  structurally identical results.
-/

/-- Claim C9: `parseEdid` depends only on the clamped bytes; in particular
any two calls on the same data yield structurally identical results. -/
theorem c9_parse_edid_deterministic (d1 d2 : List Int)
    (h : toBytes d1 = toBytes d2) : parseEdid d1 = parseEdid d2 := by
  unfold parseEdid
  exact congrArg parseEdidBytes h

/-- Witness for claim C9 at a concrete input. -/
theorem c9_parse_edid_deterministic_witness :
    parseEdid [10, 999, -5] = parseEdid [10, 999, -5] :=
  c9_parse_edid_deterministic [10, 999, -5] [10, 999, -5] rfl

/-
  Claim C3 (standard display mode slots).

  The source decodes a slot only when byte1 is not 0x01 AND byte2 is not
  0x01 (`if (byte1 !== 0x01 && byte2 !== 0x01)`), so a slot in which only
  one of the two bytes equals 0x01 is also treated as unused, contradicting
  the claim that only the pair (0x01, 0x01) is unused.
-/

/-- Counterexample input for claim C3: a 128-byte base block whose first
standard-mode slot holds the pair (0x01, 0xAA) (not both 0x01), with the
remaining seven slots holding the (0x01, 0x01) padding. -/
def c3Bytes : List Nat :=
  List.replicate 38 0 ++ [0x01, 0xaa] ++ List.replicate 14 0x01 ++
    List.replicate 74 0

/-- The base-block reader over the C3 counterexample bytes. -/
def c3Reader : BlockReader :=
  { ctx := { bytes := c3Bytes }, blockIndex := 0, blockOffset := 0 }

/-- Counterexample to claim C3: the slot pair (0x01, 0xAA) is not
(0x01, 0x01), so the claim requires a decoded StandardDisplayMode entry
for it, yet the decoder emits no entry at all. -/
theorem c3_standard_mode_counterexample :
    ¬ (c3Bytes.getD 38 0 = 0x01 ∧ c3Bytes.getD 39 0 = 0x01) ∧
    (getStandardDisplayModes c3Reader).1 = [] ∧
    (parseEdidBytes c3Bytes).baseBlock.standardDisplayModes = [] := by
  refine ⟨by decide, by decide, ?_⟩
  decide

/-- Specification-side decode of one standard-display-mode slot under the
amended claim: the slot starting at byte `i` is unused when either byte
equals 0x01, and otherwise contributes the decoded entry. -/
def specStandardModeSlot (bytes : List Nat) (i : Nat) : List StandardDisplayMode :=
  let byte1 := bytes.getD i 0
  let byte2 := bytes.getD (i + 1) 0
  if byte1 ≠ 0x01 ∧ byte2 ≠ 0x01 then
    [{ xResolutionPx := (byte1 + 31) * 8
       xyPixelRatio := (byte2 >>> 6) &&& 0x03
       vertFreqHz := (byte2 &&& 0x3f) + 60 }]
  else []

theorem sdmGo_acc (r : BlockReader) : ∀ (fuel index : Nat)
    (acc : List StandardDisplayMode) (w w' : List Warning),
    (getStandardDisplayModesGo r fuel index acc w).1 =
      acc ++ (getStandardDisplayModesGo r fuel index [] w').1 := by
  intro fuel
  induction fuel with
  | zero => intro index acc w w'; simp [getStandardDisplayModesGo]
  | succ n ih =>
      intro index acc w w'
      simp only [getStandardDisplayModesGo]
      by_cases hlt : index < 53
      · simp only [if_pos hlt]
        rcases h1 : r.u8 index with ⟨b1, w1⟩
        rcases h2 : r.u8 (index + 1) with ⟨b2, w2⟩
        cases b1 with
        | none => cases b2 <;> simp
        | some byte1 =>
            cases b2 with
            | none => simp
            | some byte2 =>
                simp only []
                rw [ih (index + 2) _ _ []]
                rw [append_ite_singleton, List.append_assoc]
                exact congrArg (fun t => acc ++ t) (ih (index + 2) _ _ []).symm
      · simp [if_neg hlt]

theorem sdmGo_step (r : BlockReader) (fuel index : Nat) (byte1 byte2 : Nat)
    (w : List Warning) (hlt : index < 53)
    (h1 : r.u8 index = (some byte1, []))
    (h2 : r.u8 (index + 1) = (some byte2, [])) :
    (getStandardDisplayModesGo r (fuel + 1) index [] w).1 =
      (if byte1 ≠ 0x01 ∧ byte2 ≠ 0x01 then
        [{ xResolutionPx := (byte1 + 31) * 8
           xyPixelRatio := (byte2 >>> 6) &&& 0x03
           vertFreqHz := (byte2 &&& 0x3f) + 60 }]
      else []) ++ (getStandardDisplayModesGo r fuel (index + 2) [] []).1 := by
  simp only [getStandardDisplayModesGo, if_pos hlt, h1, h2]
  rw [sdmGo_acc r fuel (index + 2) _ _ []]
  rw [append_ite_singleton]
  simp

/-- Claim C3 as amended: over a full base block, each of the 8 two-byte
slots at bytes 38-53 is treated as unused whenever either of its bytes
equals 0x01, and every slot in which both bytes differ from 0x01
contributes exactly the decoded entry, in slot order. -/
theorem c3_standard_modes_amended (bytes : List Nat) (h : 128 ≤ bytes.length) :
    (getStandardDisplayModes
        { ctx := { bytes := bytes }, blockIndex := 0, blockOffset := 0 }).1 =
      specStandardModeSlot bytes 38 ++ specStandardModeSlot bytes 40 ++
      specStandardModeSlot bytes 42 ++ specStandardModeSlot bytes 44 ++
      specStandardModeSlot bytes 46 ++ specStandardModeSlot bytes 48 ++
      specStandardModeSlot bytes 50 ++ specStandardModeSlot bytes 52 := by
  have hu : ∀ i : Nat, i < 128 →
      BlockReader.u8
        { ctx := { bytes := bytes }, blockIndex := 0, blockOffset := 0 } i =
        (some (bytes.getD i 0), []) := by
    intro i hi
    exact u8_eq_some (by simpa using peek_eq_getD (lt_of_lt_of_le hi h))
  unfold getStandardDisplayModes
  rw [sdmGo_step _ 52 38 _ _ _ (by omega) (hu 38 (by omega)) (hu 39 (by omega))]
  rw [sdmGo_step _ 51 40 _ _ _ (by omega) (hu 40 (by omega)) (hu 41 (by omega))]
  rw [sdmGo_step _ 50 42 _ _ _ (by omega) (hu 42 (by omega)) (hu 43 (by omega))]
  rw [sdmGo_step _ 49 44 _ _ _ (by omega) (hu 44 (by omega)) (hu 45 (by omega))]
  rw [sdmGo_step _ 48 46 _ _ _ (by omega) (hu 46 (by omega)) (hu 47 (by omega))]
  rw [sdmGo_step _ 47 48 _ _ _ (by omega) (hu 48 (by omega)) (hu 49 (by omega))]
  rw [sdmGo_step _ 46 50 _ _ _ (by omega) (hu 50 (by omega)) (hu 51 (by omega))]
  rw [sdmGo_step _ 45 52 _ _ _ (by omega) (hu 52 (by omega)) (hu 53 (by omega))]
  rw [getStandardDisplayModesGo.eq_def]
  norm_num
  simp [specStandardModeSlot, List.append_assoc]

/-- Witness input for the amended claim C3: a full base block with one
decodable slot. -/
def c3WitnessBytes : List Nat :=
  List.replicate 38 0 ++ [0xd1, 0xc0] ++ List.replicate 14 0x01 ++
    List.replicate 74 0

/-- Witness for the amended claim C3 at a concrete full base block. -/
theorem c3_standard_modes_amended_witness :
    128 ≤ c3WitnessBytes.length ∧
    (getStandardDisplayModes
        { ctx := { bytes := c3WitnessBytes }, blockIndex := 0, blockOffset := 0 }).1 =
      specStandardModeSlot c3WitnessBytes 38 ++ specStandardModeSlot c3WitnessBytes 40 ++
      specStandardModeSlot c3WitnessBytes 42 ++ specStandardModeSlot c3WitnessBytes 44 ++
      specStandardModeSlot c3WitnessBytes 46 ++ specStandardModeSlot c3WitnessBytes 48 ++
      specStandardModeSlot c3WitnessBytes 50 ++ specStandardModeSlot c3WitnessBytes 52 :=
  ⟨by decide, c3_standard_modes_amended c3WitnessBytes (by decide)⟩

/-
  Claim C4 (HDR10 derivation).
-/

/-- Reader over the first concrete C4 payload (PQ + HLG EOTFs and the
Type-1 descriptor). -/
def c4Reader1 : BlockReader :=
  { ctx := { bytes := [0x06, 0x0c, 0x01, 0x78, 0x5a, 0x1e] }, blockIndex := 1,
    blockOffset := 0 }

/-- Reader over the second concrete C4 payload (HLG only, no PQ). -/
def c4Reader2 : BlockReader :=
  { ctx := { bytes := [0x06, 0x08, 0x01] }, blockIndex := 1, blockOffset := 0 }

/-- The decoded EOTF list contains the PQ label exactly when bit 2 of the
EOTF bitmap byte is set. -/
theorem eotf_contains_pq (b : Nat) :
    ((List.range EOTF_LABELS.length).filterMap (fun i =>
      if b &&& (1 <<< i) ≠ 0 then EOTF_LABELS.get? i else none)).contains
      EotfLabel.smpteSt2084Pq = true ↔ b &&& 0x04 ≠ 0 := by
  have hrange : List.range EOTF_LABELS.length = [0, 1, 2, 3] := by decide
  rw [hrange]
  simp only [List.filterMap]
  split_ifs <;> simp_all [EOTF_LABELS]

/-- The decoded static-metadata descriptor list contains the Type 1 label
exactly when bit 0 of the descriptor bitmap byte is set. -/
theorem desc_contains_t1 (b : Nat) :
    ((List.range STATIC_METADATA_DESCRIPTORS.length).filterMap (fun i =>
      if b &&& (1 <<< i) ≠ 0 then STATIC_METADATA_DESCRIPTORS.get? i else
        none)).contains
      StaticMetaDescLabel.staticMetadataType1 = true ↔ b &&& 0x01 ≠ 0 := by
  have hrange : List.range STATIC_METADATA_DESCRIPTORS.length = [0] := by decide
  rw [hrange]
  simp only [List.filterMap]
  split_ifs <;> simp_all [STATIC_METADATA_DESCRIPTORS]

/-- Claim C4: a decoded HDR Static Metadata block reports `supportsHDR10`
exactly when the EOTF bitmap (payload byte 1) has the SMPTE ST2084 (PQ) bit
(bit 2) set and the declared block extends to the static-metadata
descriptor bitmap (payload byte 2) with the Static Metadata Type 1 bit
(bit 0) set; in particular the payload 06 0c 01 78 5a 1e decodes with the
flag set and 06 08 01 leaves it absent (falsy). -/
theorem c4_hdr10_derivation :
    (∀ (bytes : List Nat) (blockIndex blockOffset startAddress blockLength : Nat),
      ((parseHDRStaticMetadataDataBlock
          { ctx := { bytes := bytes }, blockIndex := blockIndex,
            blockOffset := blockOffset }
          startAddress blockLength { dataLength := blockLength }).1.supportsHDR10 =
        some true ↔
        (2 ≤ blockLength ∧
          ((ReadCtx.peek { bytes := bytes }
              (blockOffset + (startAddress + 1))).getD 0) &&& 0x04 ≠ 0 ∧
          2 < blockLength ∧
          ((ReadCtx.peek { bytes := bytes }
              (blockOffset + (startAddress + 2))).getD 0) &&& 0x01 ≠ 0))) ∧
    (parseExtendedTagDataBlock c4Reader1 0 6 {}).1.supportsHDR10 = some true ∧
    (parseExtendedTagDataBlock c4Reader2 0 3 {}).1.supportsHDR10 = none := by
  refine ⟨?_, by decide, by decide⟩
  intro bytes blockIndex blockOffset startAddress blockLength
  set r : BlockReader :=
    { ctx := { bytes := bytes }, blockIndex := blockIndex,
      blockOffset := blockOffset } with hr
  by_cases hlen : blockLength < 2
  · simp only [parseHDRStaticMetadataDataBlock, if_pos hlen]
    constructor
    · intro hfalse
      simp at hfalse
    · intro hcond
      omega
  · simp only [parseHDRStaticMetadataDataBlock, if_neg hlen]
    rw [u8OrZero_eq r (startAddress + 1)]
    by_cases hgt : blockLength > 2
    · simp only [if_pos hgt]
      rw [u8OrZero_eq r (startAddress + 2)]
      simp only [apply_ite ExtendedTagDataBlock.supportsHDR10, ite_self,
        eotf_contains_pq, desc_contains_t1]
      split_ifs with hP
      · exact ⟨fun _ => ⟨by omega, hP.1, by omega, hP.2⟩, fun _ => rfl⟩
      · exact ⟨fun h => absurd h (by simp),
          fun hc => absurd ⟨hc.2.1, hc.2.2.2⟩ hP⟩
    · simp only [if_neg hgt]
      simp only [apply_ite ExtendedTagDataBlock.supportsHDR10, ite_self]
      constructor
      · intro h
        rw [if_neg] at h
        · exact absurd h (by simp)
        · rintro ⟨-, h2⟩
          simp [List.contains] at h2
      · intro hcond
        omega

/-
  Claim C1 (totality: a result object for every input, anomalies reported
  only through the warnings list).
-/

/-- Every clamped byte is in the range 0..255. -/
theorem clampU8_le (x : Int) : clampU8 x ≤ 255 := by
  simp only [clampU8]
  omega

/-- Shape of the decoder result for an arbitrary per-extension parser: the
input buffer is returned unchanged and the warnings list starts with the two
length warnings, everything else being appended after them. -/
theorem parseEdidBytesWith_shape (f : ExtensionBlockParser) (bytes : List Nat) :
    (parseEdidBytesWith f bytes).bytes = bytes ∧
    ∃ rest, (parseEdidBytesWith f bytes).warnings = lengthWarnings bytes ++ rest := by
  simp only [parseEdidBytesWith]
  rcases hb : parseBaseBlock
      { ctx := { bytes := bytes }, blockIndex := 0, blockOffset := 0 } with
    ⟨baseResult, wBase⟩
  rcases he : parseExtensionsWith f { bytes := bytes }
      (bytes.length / EDID_BLOCK_LENGTH - 1) {} with ⟨exts, extCtx, wExt⟩
  refine ⟨by trivial, ?_⟩
  simp only [List.append_assoc]
  exact ⟨_, rfl⟩

/-- Claim C1: `parseEdid` is a total function: for every caller byte list
(of any length, with out-of-range entries clamped to 0..255) it returns a
`ParsedEdid` record holding the clamped buffer, and anomalies surface only
as warnings: the warnings list is the two length warnings followed by
whatever later stages appended, with a `too_short` warning present whenever
the input is shorter than 128 bytes and a `length_not_multiple_of_128`
warning whenever the length is not a multiple of 128. -/
theorem c1_never_throws (data : List Int) :
    (parseEdid data).bytes = toBytes data ∧
    (∀ b ∈ (parseEdid data).bytes, b ≤ 255) ∧
    (∃ rest, (parseEdid data).warnings = lengthWarnings (toBytes data) ++ rest) ∧
    (data.length < 128 →
      mkWarning .too_short
        ("EDID data is shorter than a single 128-byte block.") ∈
        (parseEdid data).warnings) ∧
    (data.length % 128 ≠ 0 →
      mkWarning .length_not_multiple_of_128
        ("EDID length is not a multiple of 128 bytes.") ∈
        (parseEdid data).warnings) := by
  simp only [parseEdid, parseEdidBytes]
  obtain ⟨hbytes, rest, hw⟩ :=
    parseEdidBytesWith_shape realExtensionDispatch (toBytes data)
  refine ⟨hbytes, ?_, ⟨rest, hw⟩, ?_, ?_⟩
  · intro b hb
    rw [hbytes] at hb
    simp only [toBytes, List.mem_map] at hb
    obtain ⟨x, -, rfl⟩ := hb
    exact clampU8_le x
  · intro hshort
    rw [hw]
    have hc : (toBytes data).length < EDID_BLOCK_LENGTH := by
      simpa [toBytes, EDID_BLOCK_LENGTH] using hshort
    simp [lengthWarnings, hc]
  · intro hmul
    rw [hw]
    have hc : (toBytes data).length % EDID_BLOCK_LENGTH ≠ 0 := by
      simpa [toBytes, EDID_BLOCK_LENGTH] using hmul
    simp [lengthWarnings, hc]

/-- Witness for C1 at the concrete input `[0, -1, 300]` (a 3-byte fragment
with out-of-range entries): both length hypotheses hold and the theorem
applies. -/
theorem c1_never_throws_witness :
    (parseEdid [0, -1, 300]).bytes = toBytes [0, -1, 300] ∧
    mkWarning .too_short
      ("EDID data is shorter than a single 128-byte block.") ∈
      (parseEdid [0, -1, 300]).warnings ∧
    mkWarning .length_not_multiple_of_128
      ("EDID length is not a multiple of 128 bytes.") ∈
      (parseEdid [0, -1, 300]).warnings :=
  ⟨(c1_never_throws [0, -1, 300]).1,
    (c1_never_throws [0, -1, 300]).2.2.2.1 (by decide),
    (c1_never_throws [0, -1, 300]).2.2.2.2 (by decide)⟩

/-
  Claims C5 and C10: lemmas about the feature-support accumulator.
-/

/-- The pure update `addVrrMin` performs on the running VRR minimum. -/
def vrrMinStep (cur : Option Int) (rateHz : Option ℚ) : Option Int :=
  match rateHz with
  | none => cur
  | some rate =>
      if rate ≤ 0 then cur
      else if jsRound rate ≤ 0 then cur
      else
        match cur with
        | none => some (jsRound rate)
        | some m => some (min m (jsRound rate))

/-- The pure update `addVrrMax` performs on the running VRR maximum. -/
def vrrMaxStep (cur : Option Int) (rateHz : Option ℚ) : Option Int :=
  match rateHz with
  | none => cur
  | some rate =>
      if rate ≤ 0 then cur
      else if jsRound rate ≤ 0 then cur
      else
        match cur with
        | none => some (jsRound rate)
        | some m => some (max m (jsRound rate))

/-- `addVrrMin` updates the VRR minimum by the pure step function. -/
theorem addVrrMin_minVrrHz (st : FsAccum) (r : Option ℚ) :
    (addVrrMin st r).minVrrHz = vrrMinStep st.minVrrHz r := by
  cases r <;> simp [addVrrMin, vrrMinStep, apply_ite FsAccum.minVrrHz]

/-- `addVrrMax` updates the VRR maximum by the pure step function. -/
theorem addVrrMax_maxVrrHz (st : FsAccum) (r : Option ℚ) :
    (addVrrMax st r).maxVrrHz = vrrMaxStep st.maxVrrHz r := by
  cases r <;> simp [addVrrMax, vrrMaxStep, apply_ite FsAccum.maxVrrHz]

/-- `addVrrMin` leaves the static minimum alone. -/
theorem addVrrMin_minSrrHz (st : FsAccum) (r : Option ℚ) :
    (addVrrMin st r).minSrrHz = st.minSrrHz := by
  cases r <;> simp [addVrrMin, apply_ite FsAccum.minSrrHz, ite_self]

/-- `addVrrMin` leaves the static maximum alone. -/
theorem addVrrMin_maxSrrHz (st : FsAccum) (r : Option ℚ) :
    (addVrrMin st r).maxSrrHz = st.maxSrrHz := by
  cases r <;> simp [addVrrMin, apply_ite FsAccum.maxSrrHz, ite_self]

/-- `addVrrMin` leaves the VRR maximum alone. -/
theorem addVrrMin_maxVrrHz (st : FsAccum) (r : Option ℚ) :
    (addVrrMin st r).maxVrrHz = st.maxVrrHz := by
  cases r <;> simp [addVrrMin, apply_ite FsAccum.maxVrrHz, ite_self]

/-- `addVrrMax` leaves the static minimum alone. -/
theorem addVrrMax_minSrrHz (st : FsAccum) (r : Option ℚ) :
    (addVrrMax st r).minSrrHz = st.minSrrHz := by
  cases r <;> simp [addVrrMax, apply_ite FsAccum.minSrrHz, ite_self]

/-- `addVrrMax` leaves the static maximum alone. -/
theorem addVrrMax_maxSrrHz (st : FsAccum) (r : Option ℚ) :
    (addVrrMax st r).maxSrrHz = st.maxSrrHz := by
  cases r <;> simp [addVrrMax, apply_ite FsAccum.maxSrrHz, ite_self]

/-- `addVrrMax` leaves the VRR minimum alone. -/
theorem addVrrMax_minVrrHz (st : FsAccum) (r : Option ℚ) :
    (addVrrMax st r).minVrrHz = st.minVrrHz := by
  cases r <;> simp [addVrrMax, apply_ite FsAccum.minVrrHz, ite_self]

/-- `addHdmiVersion` leaves the static minimum alone. -/
theorem addHdmiVersion_minSrrHz (st : FsAccum) (v : ℚ) :
    (addHdmiVersion st v).minSrrHz = st.minSrrHz := rfl

/-- `addHdmiVersion` leaves the static maximum alone. -/
theorem addHdmiVersion_maxSrrHz (st : FsAccum) (v : ℚ) :
    (addHdmiVersion st v).maxSrrHz = st.maxSrrHz := rfl

/-- `addHdmiVersion` leaves the VRR minimum alone. -/
theorem addHdmiVersion_minVrrHz (st : FsAccum) (v : ℚ) :
    (addHdmiVersion st v).minVrrHz = st.minVrrHz := rfl

/-- `addHdmiVersion` leaves the VRR maximum alone. -/
theorem addHdmiVersion_maxVrrHz (st : FsAccum) (v : ℚ) :
    (addHdmiVersion st v).maxVrrHz = st.maxVrrHz := rfl

/-- Positivity invariant of the accumulated rate fields: every recorded
static-minimum, VRR-minimum and VRR-maximum entry is positive and the
static maximum is non-negative. -/
def FsAccum.ratesPos (st : FsAccum) : Prop :=
  (∀ m, st.minSrrHz = some m → 0 < m) ∧
  (∀ v, st.minVrrHz = some v → 0 < v) ∧
  (∀ v, st.maxVrrHz = some v → 0 < v) ∧
  0 ≤ st.maxSrrHz

/-- The invariant holds at the initial accumulator state. -/
theorem ratesPos_init : ({} : FsAccum).ratesPos :=
  ⟨fun _ h => Option.noConfusion h, fun _ h => Option.noConfusion h,
    fun _ h => Option.noConfusion h, le_refl 0⟩

/-- `addSrrRate` preserves the positivity invariant (it only stores a
rounded rate after checking it is positive). -/
theorem addSrrRate_ratesPos (st : FsAccum) (r : Option ℚ) (h : st.ratesPos) :
    (addSrrRate st r).ratesPos := by
  obtain ⟨h1, h2, h3, h4⟩ := h
  cases r with
  | none => exact ⟨h1, h2, h3, h4⟩
  | some rate =>
      simp only [addSrrRate]
      by_cases hr : rate ≤ 0
      · rw [if_pos hr]
        exact ⟨h1, h2, h3, h4⟩
      · rw [if_neg hr]
        by_cases hr2 : jsRound rate ≤ 0
        · rw [if_pos hr2]
          exact ⟨h1, h2, h3, h4⟩
        · rw [if_neg hr2]
          refine ⟨fun m hm => ?_, h2, h3, ?_⟩
          · have hm' : (match st.minSrrHz with
                | none => some (jsRound rate)
                | some m0 => if jsRound rate < m0 then some (jsRound rate)
                    else some m0) = some m := hm
            rcases hms : st.minSrrHz with _ | m0
            · rw [hms] at hm'
              simp only [Option.some.injEq] at hm'
              omega
            · rw [hms] at hm'
              have := h1 m0 hms
              dsimp only at hm'
              split_ifs at hm' <;> simp only [Option.some.injEq] at hm' <;> omega
          · show 0 ≤
              if jsRound rate > st.maxSrrHz then jsRound rate else st.maxSrrHz
            split_ifs <;> omega

/-- `addVrrMin` preserves the positivity invariant. -/
theorem addVrrMin_ratesPos (st : FsAccum) (r : Option ℚ) (h : st.ratesPos) :
    (addVrrMin st r).ratesPos := by
  obtain ⟨h1, h2, h3, h4⟩ := h
  cases r with
  | none => exact ⟨h1, h2, h3, h4⟩
  | some rate =>
      simp only [addVrrMin]
      by_cases hr : rate ≤ 0
      · rw [if_pos hr]
        exact ⟨h1, h2, h3, h4⟩
      · rw [if_neg hr]
        by_cases hr2 : jsRound rate ≤ 0
        · rw [if_pos hr2]
          exact ⟨h1, h2, h3, h4⟩
        · rw [if_neg hr2]
          refine ⟨h1, fun v hv => ?_, h3, h4⟩
          have hv' : (match st.minVrrHz with
              | none => some (jsRound rate)
              | some m => some (min m (jsRound rate))) = some v := hv
          rcases hmv : st.minVrrHz with _ | m
          · rw [hmv] at hv'
            simp only [Option.some.injEq] at hv'
            omega
          · rw [hmv] at hv'
            have := h2 m hmv
            dsimp only at hv'
            simp only [Option.some.injEq] at hv'
            omega

/-- `addVrrMax` preserves the positivity invariant. -/
theorem addVrrMax_ratesPos (st : FsAccum) (r : Option ℚ) (h : st.ratesPos) :
    (addVrrMax st r).ratesPos := by
  obtain ⟨h1, h2, h3, h4⟩ := h
  cases r with
  | none => exact ⟨h1, h2, h3, h4⟩
  | some rate =>
      simp only [addVrrMax]
      by_cases hr : rate ≤ 0
      · rw [if_pos hr]
        exact ⟨h1, h2, h3, h4⟩
      · rw [if_neg hr]
        by_cases hr2 : jsRound rate ≤ 0
        · rw [if_pos hr2]
          exact ⟨h1, h2, h3, h4⟩
        · rw [if_neg hr2]
          refine ⟨h1, h2, fun v hv => ?_, h4⟩
          have hv' : (match st.maxVrrHz with
              | none => some (jsRound rate)
              | some m => some (max m (jsRound rate))) = some v := hv
          rcases hmv : st.maxVrrHz with _ | m
          · rw [hmv] at hv'
            simp only [Option.some.injEq] at hv'
            omega
          · rw [hmv] at hv'
            have := h3 m hmv
            dsimp only at hv'
            simp only [Option.some.injEq] at hv'
            omega

/-- `addHdmiVersion` preserves the positivity invariant. -/
theorem addHdmiVersion_ratesPos (st : FsAccum) (v : ℚ) (h : st.ratesPos) :
    (addHdmiVersion st v).ratesPos := h

/-- `addDisplayIdVersion` preserves the positivity invariant. -/
theorem addDisplayIdVersion_ratesPos (st : FsAccum) (v : ℚ) (h : st.ratesPos) :
    (addDisplayIdVersion st v).ratesPos := h

/-- Positivity of the entries of the pure VRR-minimum step. -/
theorem vrrMinStep_pos (cur : Option Int) (r : Option ℚ)
    (h : ∀ m, cur = some m → 0 < m) :
    ∀ v, vrrMinStep cur r = some v → 0 < v := by
  intro v hv
  cases r with
  | none => exact h v hv
  | some rate =>
      simp only [vrrMinStep] at hv
      split_ifs at hv with hr hr2
      · exact h v hv
      · exact h v hv
      · rcases hc : cur with _ | m
        · rw [hc] at hv
          dsimp only at hv
          simp only [Option.some.injEq] at hv
          omega
        · rw [hc] at hv
          have := h m hc
          dsimp only at hv
          simp only [Option.some.injEq] at hv
          omega

/-- Positivity of the entries of the pure VRR-maximum step. -/
theorem vrrMaxStep_pos (cur : Option Int) (r : Option ℚ)
    (h : ∀ m, cur = some m → 0 < m) :
    ∀ v, vrrMaxStep cur r = some v → 0 < v := by
  intro v hv
  cases r with
  | none => exact h v hv
  | some rate =>
      simp only [vrrMaxStep] at hv
      split_ifs at hv with hr hr2
      · exact h v hv
      · exact h v hv
      · rcases hc : cur with _ | m
        · rw [hc] at hv
          dsimp only at hv
          simp only [Option.some.injEq] at hv
          omega
        · rw [hc] at hv
          have := h m hc
          dsimp only at hv
          simp only [Option.some.injEq] at hv
          omega

/-- A vendor block never touches the static minimum. -/
theorem processVendorBlock_minSrrHz (st : FsAccum) (b : VendorDataBlock) :
    (processVendorBlock st b).minSrrHz = st.minSrrHz := by
  simp only [processVendorBlock, addVrrMax_minSrrHz, addVrrMin_minSrrHz,
    addHdmiVersion_minSrrHz, apply_ite FsAccum.minSrrHz, ite_self]

/-- A vendor block never touches the static maximum. -/
theorem processVendorBlock_maxSrrHz (st : FsAccum) (b : VendorDataBlock) :
    (processVendorBlock st b).maxSrrHz = st.maxSrrHz := by
  simp only [processVendorBlock, addVrrMax_maxSrrHz, addVrrMin_maxSrrHz,
    addHdmiVersion_maxSrrHz, apply_ite FsAccum.maxSrrHz, ite_self]

/-- A vendor block updates the VRR minimum by the pure step on its
`vrrMinHz` field. -/
theorem processVendorBlock_minVrrHz (st : FsAccum) (b : VendorDataBlock) :
    (processVendorBlock st b).minVrrHz =
      vrrMinStep st.minVrrHz (b.vrrMinHz.map (fun n => (n : ℚ))) := by
  simp only [processVendorBlock, addVrrMax_minVrrHz, addVrrMin_minVrrHz,
    addHdmiVersion_minVrrHz, apply_ite FsAccum.minVrrHz, ite_self]

/-- A vendor block updates the VRR maximum by the pure step on its
`vrrMaxHz` field. -/
theorem processVendorBlock_maxVrrHz (st : FsAccum) (b : VendorDataBlock) :
    (processVendorBlock st b).maxVrrHz =
      vrrMaxStep st.maxVrrHz (b.vrrMaxHz.map (fun n => (n : ℚ))) := by
  simp only [processVendorBlock, addVrrMax_maxVrrHz, addVrrMin_maxVrrHz,
    addHdmiVersion_maxVrrHz, apply_ite FsAccum.maxVrrHz, ite_self]

/-- An extended-tag block never touches the static minimum. -/
theorem processExtendedBlock_minSrrHz (st : FsAccum) (b : ExtendedTagDataBlock) :
    (processExtendedBlock st b).minSrrHz = st.minSrrHz := by
  simp only [processExtendedBlock, addVrrMax_minSrrHz, addVrrMin_minSrrHz,
    addHdmiVersion_minSrrHz, apply_ite FsAccum.minSrrHz, ite_self]

/-- An extended-tag block never touches the static maximum. -/
theorem processExtendedBlock_maxSrrHz (st : FsAccum) (b : ExtendedTagDataBlock) :
    (processExtendedBlock st b).maxSrrHz = st.maxSrrHz := by
  simp only [processExtendedBlock, addVrrMax_maxSrrHz, addVrrMin_maxSrrHz,
    addHdmiVersion_maxSrrHz, apply_ite FsAccum.maxSrrHz, ite_self]

/-- An extended-tag block updates the VRR minimum by the pure step on its
`vrrMinHz` field. -/
theorem processExtendedBlock_minVrrHz (st : FsAccum) (b : ExtendedTagDataBlock) :
    (processExtendedBlock st b).minVrrHz =
      vrrMinStep st.minVrrHz (b.vrrMinHz.map (fun n => (n : ℚ))) := by
  simp only [processExtendedBlock, addVrrMax_minVrrHz, addVrrMin_minVrrHz,
    addHdmiVersion_minVrrHz, apply_ite FsAccum.minVrrHz, ite_self]

/-- An extended-tag block updates the VRR maximum by the pure step on its
`vrrMaxHz` field. -/
theorem processExtendedBlock_maxVrrHz (st : FsAccum) (b : ExtendedTagDataBlock) :
    (processExtendedBlock st b).maxVrrHz =
      vrrMaxStep st.maxVrrHz (b.vrrMaxHz.map (fun n => (n : ℚ))) := by
  simp only [processExtendedBlock, addVrrMax_maxVrrHz, addVrrMin_maxVrrHz,
    addHdmiVersion_maxVrrHz, apply_ite FsAccum.maxVrrHz, ite_self]

/-- A vendor block preserves the positivity invariant. -/
theorem processVendorBlock_ratesPos (st : FsAccum) (b : VendorDataBlock)
    (h : st.ratesPos) : (processVendorBlock st b).ratesPos := by
  obtain ⟨h1, h2, h3, h4⟩ := h
  refine ⟨?_, ?_, ?_, ?_⟩
  · simp only [processVendorBlock_minSrrHz]
    exact h1
  · simp only [processVendorBlock_minVrrHz]
    exact vrrMinStep_pos _ _ h2
  · simp only [processVendorBlock_maxVrrHz]
    exact vrrMaxStep_pos _ _ h3
  · rw [processVendorBlock_maxSrrHz]
    exact h4

/-- An extended-tag block preserves the positivity invariant. -/
theorem processExtendedBlock_ratesPos (st : FsAccum) (b : ExtendedTagDataBlock)
    (h : st.ratesPos) : (processExtendedBlock st b).ratesPos := by
  obtain ⟨h1, h2, h3, h4⟩ := h
  refine ⟨?_, ?_, ?_, ?_⟩
  · simp only [processExtendedBlock_minSrrHz]
    exact h1
  · simp only [processExtendedBlock_minVrrHz]
    exact vrrMinStep_pos _ _ h2
  · simp only [processExtendedBlock_maxVrrHz]
    exact vrrMaxStep_pos _ _ h3
  · rw [processExtendedBlock_maxSrrHz]
    exact h4

/-- A data-block-collection entry preserves the positivity invariant. -/
theorem processDataBlock_ratesPos (st : FsAccum) (db : Option AnyDataBlock)
    (h : st.ratesPos) : (processDataBlock st db).ratesPos := by
  rcases db with _ | b
  · exact h
  · rcases b with b | b | b | b | b
    · exact h
    · exact h
    · exact processVendorBlock_ratesPos st b h
    · exact h
    · exact processExtendedBlock_ratesPos st b h

/-- A left fold by an invariant-preserving step preserves the invariant. -/
theorem foldl_ratesPos {α : Type} (f : FsAccum → α → FsAccum)
    (hf : ∀ st a, st.ratesPos → (f st a).ratesPos) :
    ∀ (l : List α) (st : FsAccum), st.ratesPos → (l.foldl f st).ratesPos := by
  intro l
  induction l with
  | nil => exact fun st h => h
  | cons a l ih => exact fun st h => ih _ (hf st a h)

/-- One extension block's contribution preserves the positivity invariant. -/
theorem processExtension_ratesPos (st : FsAccum) (ext : ParsedExtensionBlock)
    (h : st.ratesPos) : (processExtension st ext).ratesPos := by
  have hstep : (if ext.extTagByte = DISPLAYID_EXTENSION_TAG then
      match parseDisplayIdVersionFromRevision ext.revisionNumber with
      | some version => addDisplayIdVersion st version
      | none => st
    else st).ratesPos := by
    split
    · split
      · exact addDisplayIdVersion_ratesPos _ _ h
      · exact h
    · exact h
  simp only [processExtension]
  rcases hdbc : ext.dataBlockCollection with _ | dbs
  · simp only [hdbc]
    exact foldl_ratesPos _ (fun s d hs => addSrrRate_ratesPos s _ hs) _ _ hstep
  · simp only [hdbc]
    exact foldl_ratesPos _ (fun s d hs => processDataBlock_ratesPos s d hs) _ _
      (foldl_ratesPos _ (fun s d hs => addSrrRate_ratesPos s _ hs) _ _ hstep)

/-- The accumulation pass always produces a state satisfying the positivity
invariant, for every base block, extension list and display parameters. -/
theorem accumFeatureSupport_ratesPos (bb : ParsedBaseEdidBlock)
    (exts : List ParsedExtensionBlock) (bdp : Option BasicDisplayParams)
    (nr : Option NativeResolution) :
    (accumFeatureSupport bb exts bdp nr).ratesPos := by
  simp only [accumFeatureSupport]
  refine foldl_ratesPos _ (fun s e hs => processExtension_ratesPos s e hs) _ _ ?_
  refine foldl_ratesPos _ (fun s d hs => addSrrRate_ratesPos s _ hs) _ _ ?_
  refine foldl_ratesPos _ (fun s m hs => addSrrRate_ratesPos s _ hs) _ _ ?_
  refine addSrrRate_ratesPos _ _ ?_
  split
  · split <;> split <;> exact ratesPos_init
  · split <;> exact ratesPos_init

/-- Under the positivity invariant the finalized static range is a
non-negative, well-ordered interval. -/
theorem finalizeFeatureSupport_srr_bounds (bb : ParsedBaseEdidBlock)
    (st : FsAccum) (h : st.ratesPos) :
    0 ≤ (finalizeFeatureSupport bb st).minSrrHz ∧
    (finalizeFeatureSupport bb st).minSrrHz ≤
      (finalizeFeatureSupport bb st).maxSrrHz := by
  obtain ⟨h1, h2, h3, h4⟩ := h
  rcases hmv : st.minVrrHz with _ | v <;> rcases hms : st.minSrrHz with _ | m <;>
    rcases hxv : st.maxVrrHz with _ | x <;>
      simp only [finalizeFeatureSupport, hmv, hms, hxv, Option.orElse,
        Option.getD_some, Option.getD_none]
  all_goals try have Hv := h2 _ hmv
  all_goals try have Hm := h1 _ hms
  all_goals try have Hx := h3 _ hxv
  all_goals split_ifs <;> (try simp_all) <;> omega

/-- The feature summary of a decode is always a finalized accumulation (for
any per-extension parser and any buffer). -/
theorem parseEdidBytesWith_featureSupport (f : ExtensionBlockParser)
    (bytes : List Nat) :
    ∃ bb exts bdp nr,
      (parseEdidBytesWith f bytes).featureSupport =
        buildFeatureSupport bb exts bdp nr := by
  simp only [parseEdidBytesWith]
  rcases hb : parseBaseBlock
      { ctx := { bytes := bytes }, blockIndex := 0, blockOffset := 0 } with
    ⟨baseResult, wBase⟩
  rcases he : parseExtensionsWith f { bytes := bytes }
      (bytes.length / EDID_BLOCK_LENGTH - 1) {} with ⟨exts, extCtx, wExt⟩
  exact ⟨_, _, _, _, rfl⟩

/-- Claim C10: for every input the decoded feature summary carries defined,
finite static refresh-rate bounds (they live in `Int`, never absent and
never an infinity sentinel), with `0 ≤ minSrrHz` and `minSrrHz ≤ maxSrrHz`;
and when no refresh-rate signal was accumulated (no static rate — the
minimum still the infinity sentinel and the maximum still 0 — and no VRR
bound from any block), both finalize to exactly 0. -/
theorem c10_srr_range_invariants :
    (∀ data : List Int,
      0 ≤ (parseEdid data).featureSupport.minSrrHz ∧
      (parseEdid data).featureSupport.minSrrHz ≤
        (parseEdid data).featureSupport.maxSrrHz) ∧
    (∀ (bb : ParsedBaseEdidBlock) (st : FsAccum),
      st.minSrrHz = none → st.minVrrHz = none → st.maxVrrHz = none →
      st.maxSrrHz = 0 →
      (finalizeFeatureSupport bb st).minSrrHz = 0 ∧
      (finalizeFeatureSupport bb st).maxSrrHz = 0) := by
  constructor
  · intro data
    simp only [parseEdid, parseEdidBytes]
    obtain ⟨bb, exts, bdp, nr, hfs⟩ :=
      parseEdidBytesWith_featureSupport realExtensionDispatch (toBytes data)
    rw [hfs, buildFeatureSupport]
    exact finalizeFeatureSupport_srr_bounds bb _
      (accumFeatureSupport_ratesPos _ _ _ _)
  · intro bb st hms hmv hxv hmax
    simp only [finalizeFeatureSupport, hms, hmv, hxv, hmax, Option.orElse,
      Option.getD_none]
    norm_num

/-- A concrete decoded base block used to instantiate finalization lemmas. -/
def sampleBaseBlock : ParsedBaseEdidBlock :=
  { vendorId := "AAA"
    rawBytes := []
    isHeaderValid := false
    headerValidity := .errorHeader
    edidVersion := 1
    edidRevision := 4
    edidVersionString := "1.4"
    chromaticity :=
      { redX := 0
        redXCoords := 0
        redY := 0
        redYCoords := 0
        greenX := 0
        greenXCoords := 0
        greenY := 0
        greenYCoords := 0
        blueX := 0
        blueXCoords := 0
        blueY := 0
        blueYCoords := 0
        whiteX := 0
        whiteXCoords := 0
        whiteY := 0
        whiteYCoords := 0 }
    timingBitmap := 0
    standardDisplayModes := []
    dtds := []
    numberOfExtensions := 0
    checksum := 0 }

/-- Witness for C10: the bounds hold at the empty input, and finalizing the
fresh accumulator (no refresh-rate signal at all) yields 0 and 0. -/
theorem c10_srr_range_invariants_witness :
    (0 ≤ (parseEdid []).featureSupport.minSrrHz ∧
      (parseEdid []).featureSupport.minSrrHz ≤
        (parseEdid []).featureSupport.maxSrrHz) ∧
    ((finalizeFeatureSupport sampleBaseBlock {}).minSrrHz = 0 ∧
      (finalizeFeatureSupport sampleBaseBlock {}).maxSrrHz = 0) :=
  ⟨c10_srr_range_invariants.1 [],
    c10_srr_range_invariants.2 sampleBaseBlock {} rfl rfl rfl rfl⟩

/-
  Claim C5 (VRR widening of the static range).
-/

/-- Reader over a raw HDMI-Forum SCDB payload whose VRRmin bits (byte 6 low
six bits) give 63 and whose VRRmax (byte 6 top bits shifted with byte 7)
gives 1: an inverted VRR range as it appears in a malformed EDID. -/
def c5ScdbReader : BlockReader :=
  { ctx := { bytes := [0x79, 0x01, 0x00, 0x00, 0x00, 0x00, 0x3F, 0x01] },
    blockIndex := 1, blockOffset := 0 }

/-- The decoded SCDB block of the inverted-VRR payload. -/
def c5ScdbBlock : ExtendedTagDataBlock :=
  (parseExtendedTagDataBlock c5ScdbReader 0 8 {}).1

/-- A CTA extension whose data block collection holds exactly the decoded
inverted-VRR SCDB block and nothing else that contributes a refresh rate. -/
def c5Ext : ParsedExtensionBlock :=
  { blockNumber := 1
    extTagByte := 0x02
    revisionNumber := 3
    dtdStart := 13
    numDtds := 0
    supportsUnderscan := false
    supportsBasicAudio := false
    supportsYCbCr444 := false
    supportsYCbCr422 := false
    dtds := []
    checksum := 0
    isChecksumValid := some false
    rawBytes := []
    extensionType := .cta861
    dataBlockCollection := some [some (.extended c5ScdbBlock)] }

/-- Claim C5 counterexample: the SCDB above decodes to vrrMinHz 63 and
vrrMaxHz 1; summarizing a display whose only rate signal is that block, the
accumulator ends with no static rate at all (minimum still unset, maximum
still 0) and the VRR bounds 63 and 1, so the VRR maximum (1) exceeds every
statically derived rate (there are none) — yet the final `maxSrrHz` is 63,
not the VRR maximum 1: the reported static range [63, 63] does not include
the VRR range, because the max-at-least-min clamp overrides the widened
maximum whenever vrrMinHz > vrrMaxHz. -/
theorem c5_vrr_widening_counterexample :
    c5ScdbBlock.vrrMinHz = some 63 ∧
    c5ScdbBlock.vrrMaxHz = some 1 ∧
    (accumFeatureSupport sampleBaseBlock [c5Ext] none none).minSrrHz = none ∧
    (accumFeatureSupport sampleBaseBlock [c5Ext] none none).maxSrrHz = 0 ∧
    (accumFeatureSupport sampleBaseBlock [c5Ext] none none).minVrrHz = some 63 ∧
    (accumFeatureSupport sampleBaseBlock [c5Ext] none none).maxVrrHz = some 1 ∧
    (buildFeatureSupport sampleBaseBlock [c5Ext] none none).minVrrHz = some 63 ∧
    (buildFeatureSupport sampleBaseBlock [c5Ext] none none).maxVrrHz = some 1 ∧
    (buildFeatureSupport sampleBaseBlock [c5Ext] none none).minSrrHz = 63 ∧
    (buildFeatureSupport sampleBaseBlock [c5Ext] none none).maxSrrHz = 63 := by
  have hb1 : c5ScdbBlock.vrrMinHz = some 63 := by decide
  have hb2 : c5ScdbBlock.vrrMaxHz = some 1 := by decide
  have hj63 : jsRound (63 : ℚ) = 63 := by
    norm_num [jsRound]
  have hj1 : jsRound (1 : ℚ) = 1 := by
    norm_num [jsRound]
  have hacc : (accumFeatureSupport sampleBaseBlock [c5Ext] none none).minSrrHz =
        none ∧
      (accumFeatureSupport sampleBaseBlock [c5Ext] none none).maxSrrHz = 0 ∧
      (accumFeatureSupport sampleBaseBlock [c5Ext] none none).minVrrHz =
        some 63 ∧
      (accumFeatureSupport sampleBaseBlock [c5Ext] none none).maxVrrHz =
        some 1 := by
    simp only [accumFeatureSupport, sampleBaseBlock, c5Ext, List.foldl_cons,
      List.foldl_nil, processExtension, processDataBlock, Option.map_none,
      Option.getD_none]
    rcases hg : inferColorGamut (some
        { redX := 0, redXCoords := 0, redY := 0, redYCoords := 0,
          greenX := 0, greenXCoords := 0, greenY := 0, greenYCoords := 0,
          blueX := 0, blueXCoords := 0, blueY := 0, blueYCoords := 0,
          whiteX := 0, whiteXCoords := 0, whiteY := 0, whiteYCoords := 0 }) with
      _ | g <;>
      [skip; rcases g] <;>
      simp only [processExtendedBlock_minSrrHz, processExtendedBlock_maxSrrHz,
        processExtendedBlock_minVrrHz, processExtendedBlock_maxVrrHz, hb1, hb2,
        Option.map_some, addSrrRate, vrrMinStep, vrrMaxStep, hj63, hj1,
        DISPLAYID_EXTENSION_TAG] <;>
      norm_num [hj63, hj1]
  obtain ⟨ha1, ha2, ha3, ha4⟩ := hacc
  refine ⟨hb1, hb2, ha1, ha2, ha3, ha4, ?_, ?_, ?_, ?_⟩
  · show (finalizeFeatureSupport sampleBaseBlock
      (accumFeatureSupport sampleBaseBlock [c5Ext] none none)).minVrrHz = some 63
    exact ha3
  · show (finalizeFeatureSupport sampleBaseBlock
      (accumFeatureSupport sampleBaseBlock [c5Ext] none none)).maxVrrHz = some 1
    exact ha4
  · show (finalizeFeatureSupport sampleBaseBlock
      (accumFeatureSupport sampleBaseBlock [c5Ext] none none)).minSrrHz = 63
    simp only [finalizeFeatureSupport, ha1, ha2, ha3, ha4]
  · show (finalizeFeatureSupport sampleBaseBlock
      (accumFeatureSupport sampleBaseBlock [c5Ext] none none)).maxSrrHz = 63
    simp only [finalizeFeatureSupport, ha1, ha2, ha3, ha4]
    norm_num

/-- Claim C5 (amended): finalization still reports the VRR bounds as their
own fields and tracks `supportsVRR` separately, forcing it on whenever any
VRR bound was found; when a VRR minimum was found the final `minSrrHz` is
the minimum of it and the accumulated static minimum (it is lowered to
`minVrrHz` when that is smaller than every statically derived rate); when a
positive VRR maximum was found the final `maxSrrHz` is the accumulated
static maximum raised to `maxVrrHz` if larger — but then clamped up to the
final `minSrrHz`, so with an inverted VRR range (min > max) and no larger
static rate the reported maximum is the final minimum, not `maxVrrHz`. -/
theorem c5_vrr_widening_amended (bb : ParsedBaseEdidBlock) (st : FsAccum) :
    (finalizeFeatureSupport bb st).minVrrHz = st.minVrrHz ∧
    (finalizeFeatureSupport bb st).maxVrrHz = st.maxVrrHz ∧
    ((finalizeFeatureSupport bb st).supportsVRR = true ↔
      (st.supportsVRR = true ∨ st.minVrrHz ≠ none ∨ st.maxVrrHz ≠ none)) ∧
    (∀ v, st.minVrrHz = some v →
      (finalizeFeatureSupport bb st).minSrrHz =
        (match st.minSrrHz with
          | none => v
          | some m => min m v)) ∧
    (∀ v, st.maxVrrHz = some v → 0 < v →
      (finalizeFeatureSupport bb st).maxSrrHz =
        max (finalizeFeatureSupport bb st).minSrrHz
          (max st.maxSrrHz v)) := by
  refine ⟨rfl, rfl, ?_, ?_, ?_⟩
  · rcases hsv : st.supportsVRR <;>
      rcases hmv : st.minVrrHz with _ | v <;>
        rcases hxv : st.maxVrrHz with _ | x <;>
          simp [finalizeFeatureSupport, hsv, hmv, hxv]
  · intro v hv
    rcases hms : st.minSrrHz with _ | m <;>
      simp only [finalizeFeatureSupport, hv, hms, Option.orElse,
        Option.getD_some, Option.getD_none] <;>
      (try split_ifs with h) <;> (try simp_all) <;> omega
  · intro v hv hvpos
    rcases hms : st.minSrrHz with _ | m <;>
      rcases hmv : st.minVrrHz with _ | w <;>
        simp only [finalizeFeatureSupport, hv, hms, hmv, Option.orElse,
          Option.getD_some, Option.getD_none] <;>
        split_ifs <;> (try simp_all) <;> omega

/-- The accumulated state used as the C5 witness instance: a static range
[50, 60] together with a VRR range [40, 75]. -/
def c5WitnessAccum : FsAccum :=
  { minSrrHz := some 50
    maxSrrHz := 60
    minVrrHz := some 40
    maxVrrHz := some 75 }

/-- Witness for C5: on the concrete accumulated state with static range
[50, 60] and VRR range [40, 75], the finalized minimum is lowered to 40 and
the finalized maximum raised to 75. -/
theorem c5_vrr_widening_amended_witness :
    (finalizeFeatureSupport sampleBaseBlock c5WitnessAccum).minSrrHz =
      min 50 40 ∧
    (finalizeFeatureSupport sampleBaseBlock c5WitnessAccum).maxSrrHz =
      max (finalizeFeatureSupport sampleBaseBlock c5WitnessAccum).minSrrHz
        (max 60 75) :=
  ⟨(c5_vrr_widening_amended sampleBaseBlock c5WitnessAccum).2.2.2.1 40 rfl,
    (c5_vrr_widening_amended sampleBaseBlock c5WitnessAccum).2.2.2.2 75 rfl
      (by decide)⟩

/-
  Claim C7 (SCDB recovery scan).
-/

/-- The condition under which the recovery scan stops at `scanIndex`: a
readable header byte with tag 7 (extended), a non-zero declared length that
fits inside the scanned range, and the following byte equal to the
HDMI-Forum-SCDB code. Mirrors the tests of `scdbRecoveryGo` exactly. -/
def isScdbCandidate (r : BlockReader) (endAddress scanIndex : Nat) : Bool :=
  match (r.u8 scanIndex).1 with
  | none => false
  | some headerByte =>
      if (headerByte >>> 5) &&& 0x07 ≠ 7 then false
      else if headerByte &&& 0x1f = 0 then false
      else if scanIndex + 1 + (headerByte &&& 0x1f) > endAddress then false
      else if (r.u8OrZero (scanIndex + 1)).1 ≠ 0x79 then false
      else true

/-- If no offset in the remaining range is a candidate, the recovery scan
finds nothing. -/
theorem scdbRecoveryGo_none (r : BlockReader) (endAddress : Nat) :
    ∀ (fuel scanIndex : Nat) (context : ExtensionParseContext)
      (w : List Warning),
    endAddress ≤ scanIndex + fuel →
    (∀ j, scanIndex ≤ j → j < endAddress →
      isScdbCandidate r endAddress j = false) →
    (scdbRecoveryGo r endAddress fuel scanIndex context w).1 = none := by
  intro fuel
  induction fuel with
  | zero =>
      intro scanIndex context w hfuel hnone
      rfl
  | succ fuel ih =>
      intro scanIndex context w hfuel hnone
      simp only [scdbRecoveryGo]
      by_cases hlt : scanIndex < endAddress
      · rw [if_pos hlt]
        rcases hu : r.u8 scanIndex with ⟨u, w1⟩
        rcases u with _ | headerByte
        · rfl
        · dsimp only
          by_cases h1 : (headerByte >>> 5) &&& 0x07 ≠ 7
          · rw [if_pos h1]
            exact ih (scanIndex + 1) context _ (by omega)
              (fun j hj1 hj2 => hnone j (by omega) hj2)
          · rw [if_neg h1]
            by_cases h2 : headerByte &&& 0x1f = 0
            · rw [if_pos h2]
              exact ih (scanIndex + 1) context _ (by omega)
                (fun j hj1 hj2 => hnone j (by omega) hj2)
            · rw [if_neg h2]
              by_cases h3 : scanIndex + 1 + (headerByte &&& 0x1f) > endAddress
              · rw [if_pos h3]
                exact ih (scanIndex + 1) context _ (by omega)
                  (fun j hj1 hj2 => hnone j (by omega) hj2)
              · rw [if_neg h3]
                by_cases h4 : (r.u8OrZero (scanIndex + 1)).1 ≠ 0x79
                · rw [if_pos h4]
                  exact ih (scanIndex + 1) context _ (by omega)
                    (fun j hj1 hj2 => hnone j (by omega) hj2)
                · rw [if_neg h4]
                  exfalso
                  have hcand := hnone scanIndex (le_refl _) hlt
                  simp [isScdbCandidate, hu, h1, h2, h3, h4] at hcand
      · rw [if_neg hlt]

/-- The recovery scan yields the block decoded at the first candidate
offset, provided every byte before it was readable. -/
theorem scdbRecoveryGo_first (r : BlockReader) (endAddress : Nat) :
    ∀ (fuel scanIndex : Nat) (context : ExtensionParseContext)
      (w : List Warning) (i : Nat),
    endAddress ≤ scanIndex + fuel →
    scanIndex ≤ i → i < endAddress →
    isScdbCandidate r endAddress i = true →
    (∀ j, scanIndex ≤ j → j < i → isScdbCandidate r endAddress j = false) →
    (∀ j, scanIndex ≤ j → j < i → (r.u8 j).1 ≠ none) →
    (scdbRecoveryGo r endAddress fuel scanIndex context w).1 =
      some (parseExtendedTagDataBlock r (i + 1)
        ((r.u8 i).1.getD 0 &&& 0x1f) context).1 := by
  intro fuel
  induction fuel with
  | zero =>
      intro scanIndex context w i hfuel hsi hie hcand hnone hread
      omega
  | succ fuel ih =>
      intro scanIndex context w i hfuel hsi hie hcand hnone hread
      have hlt : scanIndex < endAddress := by omega
      simp only [scdbRecoveryGo]
      rw [if_pos hlt]
      by_cases heq : scanIndex = i
      · subst heq
        rcases hu : r.u8 scanIndex with ⟨u, w1⟩
        rcases u with _ | headerByte
        · simp [isScdbCandidate, hu] at hcand
        · simp only [isScdbCandidate, hu] at hcand
          have h1 : ¬((headerByte >>> 5) &&& 0x07 ≠ 7) := by
            intro hcon
            simp [hcon] at hcand
          have h2 : ¬(headerByte &&& 0x1f = 0) := by
            intro hcon
            simp [h1, hcon] at hcand
          have h3 : ¬(scanIndex + 1 + (headerByte &&& 0x1f) > endAddress) := by
            intro hcon
            simp [h1, h2, hcon] at hcand
          have h4 : ¬((r.u8OrZero (scanIndex + 1)).1 ≠ 0x79) := by
            intro hcon
            simp [h1, h2, h3, hcon] at hcand
          dsimp only
          rw [if_neg h1, if_neg h2, if_neg h3, if_neg h4]
          simp [hu]
      · have hslt : scanIndex < i := by omega
        have hrd := hread scanIndex (le_refl _) hslt
        rcases hu : r.u8 scanIndex with ⟨u, w1⟩
        rcases u with _ | headerByte
        · exact absurd (by rw [hu]) hrd
        · have hcf := hnone scanIndex (le_refl _) hslt
          dsimp only
          by_cases h1 : (headerByte >>> 5) &&& 0x07 ≠ 7
          · rw [if_pos h1]
            exact ih (scanIndex + 1) context _ i (by omega) (by omega) hie hcand
              (fun j hj1 hj2 => hnone j (by omega) hj2)
              (fun j hj1 hj2 => hread j (by omega) hj2)
          · rw [if_neg h1]
            by_cases h2 : headerByte &&& 0x1f = 0
            · rw [if_pos h2]
              exact ih (scanIndex + 1) context _ i (by omega) (by omega) hie
                hcand (fun j hj1 hj2 => hnone j (by omega) hj2)
                (fun j hj1 hj2 => hread j (by omega) hj2)
            · rw [if_neg h2]
              by_cases h3 : scanIndex + 1 + (headerByte &&& 0x1f) > endAddress
              · rw [if_pos h3]
                exact ih (scanIndex + 1) context _ i (by omega) (by omega) hie
                  hcand (fun j hj1 hj2 => hnone j (by omega) hj2)
                  (fun j hj1 hj2 => hread j (by omega) hj2)
              · rw [if_neg h3]
                by_cases h4 : (r.u8OrZero (scanIndex + 1)).1 ≠ 0x79
                · rw [if_pos h4]
                  exact ih (scanIndex + 1) context _ i (by omega) (by omega) hie
                    hcand (fun j hj1 hj2 => hnone j (by omega) hj2)
                    (fun j hj1 hj2 => hread j (by omega) hj2)
                · exfalso
                  simp [isScdbCandidate, hu, h1, h2, h3, h4] at hcf

/-- `parseHDMIForumSCDB` always labels its output with the SCDB extended
tag. -/
theorem parseHDMIForumSCDB_extendedTag (r : BlockReader)
    (sa bl : Nat) (etb : ExtendedTagDataBlock) :
    (parseHDMIForumSCDB r sa bl etb).1.extendedTag =
      some (.namedTag 0x79) := by
  simp only [parseHDMIForumSCDB]
  split_ifs <;> rfl

/-- When the byte at the start address is the SCDB code, the extended-tag
dispatcher decodes an HDMI-Forum-SCDB block. -/
theorem parseExtendedTagDataBlock_scdbTag (r : BlockReader) (sa bl : Nat)
    (context : ExtensionParseContext)
    (hcode : (r.u8OrZero (sa + 0)).1 = 0x79) :
    (parseExtendedTagDataBlock r sa bl context).1.extendedTag =
      some (.namedTag 0x79) := by
  simp only [parseExtendedTagDataBlock]
  rcases hc : r.u8OrZero (sa + 0) with ⟨code, w0⟩
  rw [hc] at hcode
  dsimp only at hcode
  subst hcode
  dsimp only
  norm_num
  rcases hps : parseHDMIForumSCDB r sa bl { dataLength := bl } with ⟨etb1, w1⟩
  have := parseHDMIForumSCDB_extendedTag r sa bl { dataLength := bl }
  rw [hps] at this
  exact this

/-- A candidate offset always carries the SCDB code in the byte after the
header. -/
theorem isScdbCandidate_code (r : BlockReader) (e i : Nat)
    (h : isScdbCandidate r e i = true) : (r.u8OrZero (i + 1)).1 = 0x79 := by
  rcases hu1 : (r.u8 i).1 with _ | hb
  · simp [isScdbCandidate, hu1] at h
  · simp only [isScdbCandidate, hu1] at h
    by_contra hcon
    split_ifs at h <;> simp_all

/-- Claim C7: after the primary data-block scan over [4, dtdStart), (a) if
an HDMI-Forum-SCDB block was found the collection is returned as is, with
no recovery result appended; (b) if none was found and no offset in the
range is a recovery candidate, the collection is likewise unchanged; (c) if
none was found and `i` is the first offset holding an extended-tag header
(tag 7) with a non-zero length that fits inside the range and the following
byte equal to the HDMI-Forum-SCDB code 0x79 (all bytes before `i` being
readable), then the block decoded from position `i + 1` with the declared
length is appended to the collection, and that block is an HDMI-Forum-SCDB
block. -/
theorem c7_scdb_recovery_scan :
    (∀ (r : BlockReader) (dtdStart : Nat) (context : ExtensionParseContext),
      4 ≤ dtdStart →
      (dbcGo r dtdStart dtdStart 4 context [] none []).1.any isScdbEntry =
        true →
      (parseDataBlockCollection r dtdStart context).1 =
        (dbcGo r dtdStart dtdStart 4 context [] none []).1) ∧
    (∀ (r : BlockReader) (dtdStart : Nat) (context : ExtensionParseContext),
      4 ≤ dtdStart →
      (dbcGo r dtdStart dtdStart 4 context [] none []).1.any isScdbEntry =
        false →
      (∀ j, 4 ≤ j → j < dtdStart → isScdbCandidate r dtdStart j = false) →
      (parseDataBlockCollection r dtdStart context).1 =
        (dbcGo r dtdStart dtdStart 4 context [] none []).1) ∧
    (∀ (r : BlockReader) (dtdStart : Nat) (context : ExtensionParseContext)
      (i : Nat),
      4 ≤ dtdStart →
      (dbcGo r dtdStart dtdStart 4 context [] none []).1.any isScdbEntry =
        false →
      4 ≤ i → i < dtdStart →
      isScdbCandidate r dtdStart i = true →
      (∀ j, 4 ≤ j → j < i → isScdbCandidate r dtdStart j = false) →
      (∀ j, 4 ≤ j → j < i → (r.u8 j).1 ≠ none) →
      (parseDataBlockCollection r dtdStart context).1 =
        (dbcGo r dtdStart dtdStart 4 context [] none []).1 ++
          [some (.extended (parseExtendedTagDataBlock r (i + 1)
            ((r.u8 i).1.getD 0 &&& 0x1f)
            (dbcGo r dtdStart dtdStart 4 context [] none []).2.1).1)] ∧
        (parseExtendedTagDataBlock r (i + 1) ((r.u8 i).1.getD 0 &&& 0x1f)
            (dbcGo r dtdStart dtdStart 4 context [] none []).2.1).1.extendedTag =
          some (.namedTag 0x79)) := by
  refine ⟨?_, ?_, ?_⟩
  · intro r dtdStart context h4 hfound
    simp only [parseDataBlockCollection]
    rw [if_neg (by omega : ¬ dtdStart < 4)]
    rcases hdb : dbcGo r dtdStart dtdStart 4 context [] none [] with
      ⟨collection, ctx2, w⟩
    rw [hdb] at hfound
    dsimp only at hfound ⊢
    rw [if_pos hfound]
  · intro r dtdStart context h4 hfound hcands
    simp only [parseDataBlockCollection]
    rw [if_neg (by omega : ¬ dtdStart < 4)]
    rcases hdb : dbcGo r dtdStart dtdStart 4 context [] none [] with
      ⟨collection, ctx2, w⟩
    rw [hdb] at hfound
    dsimp only at hfound ⊢
    rw [if_neg (by simp [hfound])]
    have hres := scdbRecoveryGo_none r dtdStart dtdStart 4 ctx2 []
      (by omega) hcands
    rcases hrec : scdbRecoveryGo r dtdStart dtdStart 4 ctx2 [] with ⟨res, w2⟩
    rw [hrec] at hres
    dsimp only at hres
    subst hres
    rfl
  · intro r dtdStart context i h4 hfound h4i hilt hcand hbefore hread
    simp only [parseDataBlockCollection]
    rw [if_neg (by omega : ¬ dtdStart < 4)]
    rcases hdb : dbcGo r dtdStart dtdStart 4 context [] none [] with
      ⟨collection, ctx2, w⟩
    rw [hdb] at hfound
    dsimp only at hfound ⊢
    rw [if_neg (by simp [hfound])]
    have hres := scdbRecoveryGo_first r dtdStart dtdStart 4 ctx2 [] i
      (by omega) h4i hilt hcand hbefore hread
    rcases hrec : scdbRecoveryGo r dtdStart dtdStart 4 ctx2 [] with ⟨res, w2⟩
    rw [hrec] at hres
    dsimp only at hres
    subst hres
    refine ⟨rfl, ?_⟩
    exact parseExtendedTagDataBlock_scdbTag r (i + 1) _ ctx2
      (by simpa using isScdbCandidate_code r dtdStart i hcand)

/-- Reader over a CTA data-block range [4, 10) whose primary walk sees only
a reserved block at offset 4 (header 0x05, so it advances past everything)
while a misaligned SCDB header sits at offset 5 (tag 7, length 4, code
0x79). -/
def c7Reader : BlockReader :=
  { ctx := { bytes := [0, 0, 0, 0, 0x05, 0xE4, 0x79, 0x01, 0, 0] },
    blockIndex := 1, blockOffset := 0 }

/-- Witness for C7 at the concrete misaligned-SCDB buffer: the primary walk
finds no SCDB, offset 5 is the first candidate, and the decoded collection
is the primary collection plus the SCDB block decoded from offset 6. -/
theorem c7_scdb_recovery_scan_witness :
    (parseDataBlockCollection c7Reader 10 {}).1 =
      (dbcGo c7Reader 10 10 4 {} [] none []).1 ++
        [some (.extended (parseExtendedTagDataBlock c7Reader (5 + 1)
          ((c7Reader.u8 5).1.getD 0 &&& 0x1f)
          (dbcGo c7Reader 10 10 4 {} [] none []).2.1).1)] ∧
    (parseExtendedTagDataBlock c7Reader (5 + 1)
        ((c7Reader.u8 5).1.getD 0 &&& 0x1f)
        (dbcGo c7Reader 10 10 4 {} [] none []).2.1).1.extendedTag =
      some (.namedTag 0x79) :=
  c7_scdb_recovery_scan.2.2 c7Reader 10 {} 5 (by decide) (by decide)
    (by decide) (by decide) (by decide)
    (fun j h1 h2 => by interval_cases j <;> decide)
    (fun j h1 h2 => by interval_cases j <;> decide)

/-
  Claim C6 (merging of multiple VIDEO data blocks).
-/

/-- The header walk of the data block collection: the list of
(offset, header byte) pairs the primary scan visits, each step advancing by
the declared length plus one. -/
def dbcSteps (r : BlockReader) (endAddress : Nat) : Nat → Nat → List (Nat × Nat)
  | 0, _ => []
  | fuel + 1, index =>
      if index < endAddress then
        match (r.u8 index).1 with
        | none => []
        | some headerByte =>
            (index, headerByte) ::
              dbcSteps r endAddress fuel (index + (headerByte &&& 0x1f) + 1)
      else []

/-- A walk step whose header carries the VIDEO tag (3-bit code 2). -/
def isVideoStep (p : Nat × Nat) : Bool := decide ((p.2 >>> 5) &&& 0x07 = 2)

/-- The short video descriptors decoded at one walk step. -/
def stepSvds (r : BlockReader) (p : Nat × Nat) : List ShortVideoDescriptor :=
  (parseVideoGo r (p.1 + 1) (p.2 &&& 0x1f) (p.2 &&& 0x1f) 0 [] []).1

/-- The video blocks present in a decoded collection, in order. -/
def videoEntriesOf (c : List (Option AnyDataBlock)) : List VideoDataBlock :=
  c.filterMap (fun e =>
    match e with
    | some (.video vb) => some vb
    | _ => none)

/-- Folding the video steps of a walk into an existing primary video block:
each video step appends its descriptors and adds its declared length. -/
def mergeVideoSteps (r : BlockReader) :
    VideoDataBlock → List (Nat × Nat) → VideoDataBlock
  | cur, [] => cur
  | cur, p :: rest =>
      if isVideoStep p then
        mergeVideoSteps r
          { dataLength := cur.dataLength + (p.2 &&& 0x1f)
            shortVideoDescriptors := cur.shortVideoDescriptors ++ stepSvds r p }
          rest
      else mergeVideoSteps r cur rest

/-- The single merged video block a walk produces, if it has any video
step. -/
def videoResult (r : BlockReader) : List (Nat × Nat) → Option VideoDataBlock
  | [] => none
  | p :: rest =>
      if isVideoStep p then
        some (mergeVideoSteps r
          { dataLength := p.2 &&& 0x1f
            shortVideoDescriptors := stepSvds r p } rest)
      else videoResult r rest

/-- `videoEntriesOf` distributes over append. -/
theorem videoEntriesOf_append (a b : List (Option AnyDataBlock)) :
    videoEntriesOf (a ++ b) = videoEntriesOf a ++ videoEntriesOf b := by
  simp [videoEntriesOf]

/-- Setting the element right after a prefix replaces it. -/
theorem set_append_length {α : Type} (A : List α) (x y : α) (B : List α) :
    (A ++ x :: B).set A.length y = A ++ y :: B := by
  induction A with
  | nil => rfl
  | cons a A ih => simp [List.set, ih]

/-- The video block of `parseVideoDataBlock` is determined by the
descriptor loop: the declared length plus the decoded descriptors,
independent of the cross-block context. -/
theorem parseVideoDataBlock_fst (r : BlockReader) (sa bl : Nat)
    (ctx : ExtensionParseContext) :
    (parseVideoDataBlock r sa bl ctx).1 =
      { dataLength := bl
        shortVideoDescriptors := (parseVideoGo r sa bl bl 0 [] []).1 } := by
  simp only [parseVideoDataBlock]

/-- The merged block's descriptor list is the current list followed by the
concatenation of the video steps' descriptor lists. -/
theorem mergeVideoSteps_svds (r : BlockReader) :
    ∀ (l : List (Nat × Nat)) (cur : VideoDataBlock),
    (mergeVideoSteps r cur l).shortVideoDescriptors =
      cur.shortVideoDescriptors ++ (l.filter isVideoStep).flatMap (stepSvds r) := by
  intro l
  induction l with
  | nil =>
      intro cur
      simp [mergeVideoSteps]
  | cons p rest ih =>
      intro cur
      by_cases hp : isVideoStep p
      · simp [mergeVideoSteps, hp, ih]
      · simp [mergeVideoSteps, hp, ih]

/-- The walk's merged video block concatenates the descriptor lists of all
its video steps, in encounter order. -/
theorem videoResult_svds (r : BlockReader) :
    ∀ (l : List (Nat × Nat)) (v : VideoDataBlock),
    videoResult r l = some v →
    v.shortVideoDescriptors = (l.filter isVideoStep).flatMap (stepSvds r) := by
  intro l
  induction l with
  | nil =>
      intro v h
      simp [videoResult] at h
  | cons p rest ih =>
      intro v h
      by_cases hp : isVideoStep p
      · simp only [videoResult, if_pos hp] at h
        obtain rfl := Option.some.inj h
        simp [mergeVideoSteps_svds, hp, stepSvds]
      · simp only [videoResult, if_neg hp] at h
        simp [hp, ih v h]

/-- A walk with a video step has a merged video block. -/
theorem videoResult_isSome (r : BlockReader) :
    ∀ (l : List (Nat × Nat)), l.filter isVideoStep ≠ [] →
    ∃ v, videoResult r l = some v := by
  intro l
  induction l with
  | nil =>
      intro h
      simp at h
  | cons p rest ih =>
      intro h
      by_cases hp : isVideoStep p
      · exact ⟨mergeVideoSteps r
            { dataLength := p.2 &&& 0x1f, shortVideoDescriptors := stepSvds r p }
            rest, by simp [videoResult, hp]⟩
      · simp only [videoResult, if_neg hp]
        exact ih (by simpa [hp] using h)

/-- A nonempty walk starts at its starting offset. -/
theorem dbcSteps_head1 (r : BlockReader) (e : Nat) :
    ∀ (fuel idx : Nat) (p : Nat × Nat),
    (dbcSteps r e fuel idx).head? = some p → p.1 = idx := by
  intro fuel idx p h
  cases fuel with
  | zero => simp [dbcSteps] at h
  | succ fuel =>
      simp only [dbcSteps] at h
      split_ifs at h with hlt
      · rcases hu : (r.u8 idx).1 with _ | hb
        · rw [hu] at h
          simp at h
        · rw [hu] at h
          simp at h
          subst h
          rfl
      · simp at h

/-- The walk advances by each step's declared length plus one. -/
theorem dbcSteps_chain (r : BlockReader) (e : Nat) :
    ∀ (fuel idx : Nat),
    List.Chain' (fun p q => q.1 = p.1 + (p.2 &&& 0x1f) + 1)
      (dbcSteps r e fuel idx) := by
  intro fuel
  induction fuel with
  | zero =>
      intro idx
      simp [dbcSteps]
  | succ fuel ih =>
      intro idx
      simp only [dbcSteps]
      split_ifs with hlt
      · rcases hu : (r.u8 idx).1 with _ | hb
        · simp
        · refine List.chain'_cons'.2 ⟨?_, ih _⟩
          intro q hq
          have := dbcSteps_head1 r e fuel (idx + (hb &&& 0x1f) + 1) q hq
          simp [this]
      · simp

/-- The walk invariant on the accumulated collection: before any video
block was seen the collection has no video entries; afterwards it has
exactly one, the current primary block, at the recorded position. -/
def VideoInv (acc : List (Option AnyDataBlock))
    (primary : Option (Nat × VideoDataBlock)) : Prop :=
  match primary with
  | none => videoEntriesOf acc = []
  | some pr =>
      ∃ A B, acc = A ++ some (.video pr.2) :: B ∧ pr.1 = A.length ∧
        videoEntriesOf A = [] ∧ videoEntriesOf B = []

/-- The video entries the rest of the walk will leave in the collection,
given the current primary block. -/
def videoOutcome (r : BlockReader) (primary : Option (Nat × VideoDataBlock))
    (steps : List (Nat × Nat)) : List VideoDataBlock :=
  match primary with
  | none =>
      match videoResult r steps with
      | none => []
      | some v => [v]
  | some pr => [mergeVideoSteps r pr.2 steps]

/-- Appending a non-video entry preserves the walk invariant. -/
theorem videoInv_snoc (acc : List (Option AnyDataBlock))
    (primary : Option (Nat × VideoDataBlock)) (x : Option AnyDataBlock)
    (hprim : VideoInv acc primary) (hx : videoEntriesOf [x] = []) :
    VideoInv (acc ++ [x]) primary := by
  rcases primary with _ | pr
  · simp only [VideoInv] at hprim ⊢
    simp [videoEntriesOf_append, hprim, hx]
  · simp only [VideoInv] at hprim ⊢
    obtain ⟨A, B, hacc, hpi, hA, hB⟩ := hprim
    exact ⟨A, B ++ [x], by simp [hacc], hpi, hA,
      by simp [videoEntriesOf_append, hB, hx]⟩

/-- A non-video step does not change the walk's video outcome. -/
theorem videoOutcome_cons_nonvideo (r : BlockReader)
    (primary : Option (Nat × VideoDataBlock)) (p : Nat × Nat)
    (rest : List (Nat × Nat)) (hnv : isVideoStep p = false) :
    videoOutcome r primary (p :: rest) = videoOutcome r primary rest := by
  rcases primary with _ | pr <;>
    simp [videoOutcome, videoResult, mergeVideoSteps, hnv]

/-- The video outcome of an empty walk is the current primary block (or
nothing). -/
theorem videoOutcome_nil (r : BlockReader)
    (primary : Option (Nat × VideoDataBlock)) (acc : List (Option AnyDataBlock))
    (hprim : VideoInv acc primary) :
    videoEntriesOf acc = videoOutcome r primary [] := by
  rcases primary with _ | pr
  · simp only [VideoInv] at hprim
    simp [videoOutcome, videoResult, hprim]
  · simp only [VideoInv] at hprim
    obtain ⟨A, B, hacc, hpi, hA, hB⟩ := hprim
    subst hacc
    rw [show A ++ some (AnyDataBlock.video pr.2) :: B =
        A ++ [some (AnyDataBlock.video pr.2)] ++ B from by simp,
      videoEntriesOf_append, videoEntriesOf_append, hA, hB]
    simp [videoEntriesOf, videoOutcome, mergeVideoSteps]

/-- Walk invariant of the data-block loop: one collection entry is stored
per walk step, and the video entries of the final collection are exactly
the video outcome of the walk: the current merged video block (when a
primary was already found) or the merged block of the walk's video steps
(when none was). -/
theorem dbcGo_video_inv (r : BlockReader) (endAddress : Nat) :
    ∀ (fuel index : Nat) (context : ExtensionParseContext)
      (acc : List (Option AnyDataBlock))
      (primary : Option (Nat × VideoDataBlock)) (w : List Warning),
    VideoInv acc primary →
    (dbcGo r endAddress fuel index context acc primary w).1.length =
      acc.length + (dbcSteps r endAddress fuel index).length ∧
    videoEntriesOf (dbcGo r endAddress fuel index context acc primary w).1 =
      videoOutcome r primary (dbcSteps r endAddress fuel index) := by
  intro fuel
  induction fuel with
  | zero =>
      intro index context acc primary w hprim
      exact ⟨by simp [dbcGo, dbcSteps],
        by simpa [dbcGo, dbcSteps] using videoOutcome_nil r primary acc hprim⟩
  | succ fuel ih =>
      intro index context acc primary w hprim
      by_cases hlt : index < endAddress
      case neg =>
        refine ⟨by simp [dbcGo, dbcSteps, hlt], ?_⟩
        simp only [dbcGo, dbcSteps, if_neg hlt]
        exact videoOutcome_nil r primary acc hprim
      case pos =>
      simp only [dbcGo, dbcSteps, if_pos hlt]
      rcases hu : r.u8 index with ⟨u, w1⟩
      rcases u with _ | hb
      · dsimp only
        exact ⟨by simp, videoOutcome_nil r primary acc hprim⟩
      · dsimp only
        by_cases ht1 : (hb >>> 5) &&& 0x07 = 1
        · rw [if_pos ht1]
          have hnv : isVideoStep (index, hb) = false := by
            simp [isVideoStep, ht1]
          obtain ⟨hl, hv⟩ := ih (index + (hb &&& 0x1f) + 1) context
            (acc ++ [some (.audio (parseAudioDataBlock r (index + 1)
              (hb &&& 0x1f)).1)]) primary
            (w ++ w1 ++ (parseAudioDataBlock r (index + 1) (hb &&& 0x1f)).2)
            (videoInv_snoc acc primary _ hprim (by simp [videoEntriesOf]))
          exact ⟨hl.trans (by simp only [List.length_append,
              List.length_cons, List.length_nil]; omega),
            hv.trans (videoOutcome_cons_nonvideo r primary _ _ hnv).symm⟩
        · rw [if_neg ht1]
          by_cases ht2 : (hb >>> 5) &&& 0x07 = 2
          · rw [if_pos ht2]
            have hvs : isVideoStep (index, hb) = true := by
              simp [isVideoStep, ht2]
            have hveq : (parseVideoDataBlock r (index + 1) (hb &&& 0x1f)
                context).1 =
                { dataLength := hb &&& 0x1f
                  shortVideoDescriptors := stepSvds r (index, hb) } := by
              simp [parseVideoDataBlock_fst, stepSvds]
            rcases primary with _ | ⟨pi, pvb⟩
            · dsimp only
              simp only [VideoInv] at hprim
              obtain ⟨hl, hv⟩ := ih (index + (hb &&& 0x1f) + 1)
                (parseVideoDataBlock r (index + 1) (hb &&& 0x1f) context).2.1
                (acc ++ [some (.video (parseVideoDataBlock r (index + 1)
                  (hb &&& 0x1f) context).1)])
                (some (acc.length, (parseVideoDataBlock r (index + 1)
                  (hb &&& 0x1f) context).1))
                (w ++ w1 ++ (parseVideoDataBlock r (index + 1) (hb &&& 0x1f)
                  context).2.2)
                ⟨acc, [], by simp, rfl, hprim, rfl⟩
              refine ⟨hl.trans (by simp only [List.length_append,
                List.length_cons, List.length_nil]; omega), ?_⟩
              rw [hv, hveq]
              simp [videoOutcome, videoResult, hvs]
            · dsimp only
              simp only [VideoInv] at hprim
              obtain ⟨A, B, hacc, hpi, hA, hB⟩ := hprim
              subst hacc
              subst hpi
              rw [set_append_length]
              rw [show (A ++ some (AnyDataBlock.video { pvb with
                  shortVideoDescriptors := pvb.shortVideoDescriptors ++
                    (parseVideoDataBlock r (index + 1) (hb &&& 0x1f)
                      context).1.shortVideoDescriptors
                  dataLength := pvb.dataLength +
                    (parseVideoDataBlock r (index + 1) (hb &&& 0x1f)
                      context).1.dataLength }) :: B) ++ [none] =
                A ++ some (AnyDataBlock.video { pvb with
                  shortVideoDescriptors := pvb.shortVideoDescriptors ++
                    (parseVideoDataBlock r (index + 1) (hb &&& 0x1f)
                      context).1.shortVideoDescriptors
                  dataLength := pvb.dataLength +
                    (parseVideoDataBlock r (index + 1) (hb &&& 0x1f)
                      context).1.dataLength }) :: (B ++ [none]) from by simp]
              obtain ⟨hl, hv⟩ := ih (index + (hb &&& 0x1f) + 1)
                { (parseVideoDataBlock r (index + 1) (hb &&& 0x1f)
                    context).2.1 with
                  lastVideoBlock := some { pvb with
                    shortVideoDescriptors := pvb.shortVideoDescriptors ++
                      (parseVideoDataBlock r (index + 1) (hb &&& 0x1f)
                        context).1.shortVideoDescriptors
                    dataLength := pvb.dataLength +
                      (parseVideoDataBlock r (index + 1) (hb &&& 0x1f)
                        context).1.dataLength } }
                (A ++ some (AnyDataBlock.video { pvb with
                  shortVideoDescriptors := pvb.shortVideoDescriptors ++
                    (parseVideoDataBlock r (index + 1) (hb &&& 0x1f)
                      context).1.shortVideoDescriptors
                  dataLength := pvb.dataLength +
                    (parseVideoDataBlock r (index + 1) (hb &&& 0x1f)
                      context).1.dataLength }) :: (B ++ [none]))
                (some (A.length, { pvb with
                  shortVideoDescriptors := pvb.shortVideoDescriptors ++
                    (parseVideoDataBlock r (index + 1) (hb &&& 0x1f)
                      context).1.shortVideoDescriptors
                  dataLength := pvb.dataLength +
                    (parseVideoDataBlock r (index + 1) (hb &&& 0x1f)
                      context).1.dataLength }))
                (w ++ w1 ++ (parseVideoDataBlock r (index + 1) (hb &&& 0x1f)
                  context).2.2)
                ⟨A, B ++ [none], rfl, rfl, hA,
                  by rw [videoEntriesOf_append, hB]; rfl⟩
              refine ⟨hl.trans (by simp only [List.length_append,
                List.length_cons, List.length_nil, List.length_set]; omega), ?_⟩
              rw [hv, hveq]
              simp [videoOutcome, mergeVideoSteps, hvs]
          · rw [if_neg ht2]
            by_cases ht3 : (hb >>> 5) &&& 0x07 = 3
            · rw [if_pos ht3]
              have hnv : isVideoStep (index, hb) = false := by
                simp [isVideoStep, ht3]
              obtain ⟨hl, hv⟩ := ih (index + (hb &&& 0x1f) + 1) context
                (acc ++ [some (.vendor (parseVendorDataBlock r (index + 1)
                  (hb &&& 0x1f)).1)]) primary
                (w ++ w1 ++ (parseVendorDataBlock r (index + 1)
                  (hb &&& 0x1f)).2)
                (videoInv_snoc acc primary _ hprim (by simp [videoEntriesOf]))
              exact ⟨hl.trans (by simp only [List.length_append,
                  List.length_cons, List.length_nil]; omega),
                hv.trans (videoOutcome_cons_nonvideo r primary _ _ hnv).symm⟩
            · rw [if_neg ht3]
              by_cases ht4 : (hb >>> 5) &&& 0x07 = 4
              · rw [if_pos ht4]
                have hnv : isVideoStep (index, hb) = false := by
                  simp [isVideoStep, ht4]
                obtain ⟨hl, hv⟩ := ih (index + (hb &&& 0x1f) + 1) context
                  (acc ++ [some (.speaker (parseSpeakerDataBlock r (index + 1)
                    (hb &&& 0x1f)).1)]) primary
                  (w ++ w1 ++ (parseSpeakerDataBlock r (index + 1)
                    (hb &&& 0x1f)).2)
                  (videoInv_snoc acc primary _ hprim
                    (by simp [videoEntriesOf]))
                exact ⟨hl.trans (by simp only [List.length_append,
                    List.length_cons, List.length_nil]; omega),
                  hv.trans (videoOutcome_cons_nonvideo r primary _ _ hnv).symm⟩
              · rw [if_neg ht4]
                by_cases ht7 : (hb >>> 5) &&& 0x07 = 7
                · rw [if_pos ht7]
                  have hnv : isVideoStep (index, hb) = false := by
                    simp [isVideoStep, ht7]
                  obtain ⟨hl, hv⟩ := ih (index + (hb &&& 0x1f) + 1) context
                    (acc ++ [some (.extended (parseExtendedTagDataBlock r
                      (index + 1) (hb &&& 0x1f) context).1)]) primary
                    (w ++ w1 ++ (parseExtendedTagDataBlock r (index + 1)
                      (hb &&& 0x1f) context).2)
                    (videoInv_snoc acc primary _ hprim
                      (by simp [videoEntriesOf]))
                  exact ⟨hl.trans (by simp only [List.length_append,
                      List.length_cons, List.length_nil]; omega),
                    hv.trans (videoOutcome_cons_nonvideo r primary _ _
                      hnv).symm⟩
                · rw [if_neg ht7]
                  have hnv : isVideoStep (index, hb) = false := by
                    simp [isVideoStep]
                    omega
                  obtain ⟨hl, hv⟩ := ih (index + (hb &&& 0x1f) + 1) context
                    (acc ++ [none]) primary
                    (w ++ w1 ++ [mkWarning .unknown_data_block
                      ("Encountered an unknown CTA data block tag.")
                      (some r.blockIndex) (some index)])
                    (videoInv_snoc acc primary _ hprim
                      (by simp [videoEntriesOf]))
                  exact ⟨hl.trans (by simp only [List.length_append,
                      List.length_cons, List.length_nil]; omega),
                    hv.trans (videoOutcome_cons_nonvideo r primary _ _
                      hnv).symm⟩

/-- Claim C6: over the primary data-block walk of a CTA extension, the
decoded collection stores exactly one entry per walk step (so the walk
advances by each block's declared length plus one, per the chain property,
and later VIDEO blocks add no separate video entry), every video entry of
the collection carries the concatenation, in encounter order, of the short
video descriptor lists of all the walk's VIDEO blocks, and as soon as the
walk holds at least one VIDEO block (in particular two or more) the
collection holds exactly one video entry. -/
theorem c6_video_blocks_merged (r : BlockReader) (dtdStart : Nat)
    (context : ExtensionParseContext) :
    (dbcGo r dtdStart dtdStart 4 context [] none []).1.length =
      (dbcSteps r dtdStart dtdStart 4).length ∧
    List.Chain' (fun p q => q.1 = p.1 + (p.2 &&& 0x1f) + 1)
      (dbcSteps r dtdStart dtdStart 4) ∧
    (∀ v ∈ videoEntriesOf (dbcGo r dtdStart dtdStart 4 context [] none []).1,
      v.shortVideoDescriptors =
        ((dbcSteps r dtdStart dtdStart 4).filter isVideoStep).flatMap
          (stepSvds r)) ∧
    (1 ≤ ((dbcSteps r dtdStart dtdStart 4).filter isVideoStep).length →
      (videoEntriesOf
        (dbcGo r dtdStart dtdStart 4 context [] none []).1).length = 1) := by
  obtain ⟨hl, hv⟩ := dbcGo_video_inv r dtdStart dtdStart 4 context [] none []
    (by simp [VideoInv, videoEntriesOf])
  refine ⟨by simpa using hl, dbcSteps_chain r dtdStart dtdStart 4, ?_, ?_⟩
  · intro v hvmem
    rw [hv] at hvmem
    rcases hres : videoResult r (dbcSteps r dtdStart dtdStart 4) with _ | v0
    · rw [videoOutcome, hres] at hvmem
      simp at hvmem
    · rw [videoOutcome, hres] at hvmem
      simp at hvmem
      subst hvmem
      exact videoResult_svds r _ _ hres
  · intro hnum
    have hne : (dbcSteps r dtdStart dtdStart 4).filter isVideoStep ≠ [] := by
      intro hc
      rw [hc] at hnum
      simp at hnum
    obtain ⟨v0, hres⟩ := videoResult_isSome r _ hne
    rw [hv, videoOutcome, hres]
    rfl

/-- Reader over a CTA data-block range [4, 9) holding two VIDEO blocks:
one of length 2 (descriptor bytes 0x10 and 0x90) and one of length 1
(descriptor byte 0x05). -/
def c6Reader : BlockReader :=
  { ctx := { bytes := [0, 0, 0, 0, 0x42, 0x10, 0x90, 0x41, 0x05] },
    blockIndex := 1, blockOffset := 0 }

/-- Witness for C6 at the concrete two-VIDEO-block buffer: the walk has
video steps, the decoded collection has exactly one video entry, and the
merged descriptor list [VIC 16, VIC 16 native, VIC 5] is the concatenation
of the two blocks' descriptor lists. -/
theorem c6_video_blocks_merged_witness :
    1 ≤ ((dbcSteps c6Reader 9 9 4).filter isVideoStep).length ∧
    (videoEntriesOf (dbcGo c6Reader 9 9 4 {} [] none []).1).length = 1 ∧
    ({ dataLength := 3
       shortVideoDescriptors :=
         [{ vic := 16, isNativeResolution := false },
          { vic := 16, isNativeResolution := true },
          { vic := 5, isNativeResolution := false }] } :
        VideoDataBlock).shortVideoDescriptors =
      ((dbcSteps c6Reader 9 9 4).filter isVideoStep).flatMap
        (stepSvds c6Reader) :=
  ⟨by decide,
    (c6_video_blocks_merged c6Reader 9 {}).2.2.2 (by decide),
    (c6_video_blocks_merged c6Reader 9 {}).2.2.1 _ (by decide)⟩

/-
  Claim C8 (per-extension-block fault isolation).
-/

/-- Setting at or past the end of a list changes nothing. -/
theorem set_of_length_le {α : Type} :
    ∀ (l : List α) (n : Nat) (x : α), l.length ≤ n → l.set n x = l := by
  intro l
  induction l with
  | nil =>
      intro n x h
      rfl
  | cons a l ih =>
      intro n x h
      cases n with
      | zero => simp at h
      | succ n => simp [List.set, ih n x (by simpa using h)]

/-- The unknown-extension fallback is typed `unknown`. -/
theorem parseUnknownExtension_type (r : BlockReader) (extIndex : Nat) :
    (parseUnknownExtension r extIndex).1.extensionType = .unknownExt := by
  simp only [parseUnknownExtension]

/-- The extension loop's result list is the accumulator followed by the
blocks of the remaining iterations. -/
theorem parseExtensionsGo_acc (f : ExtensionBlockParser) (ctx : ReadCtx)
    (count : Nat) :
    ∀ (fuel k : Nat) (context : ExtensionParseContext)
      (acc : List ParsedExtensionBlock) (w : List Warning),
    (parseExtensionsGo f ctx count fuel k context acc w).1 =
      acc ++ (parseExtensionsGo f ctx count fuel k context [] []).1 := by
  intro fuel
  induction fuel with
  | zero =>
      intro k context acc w
      simp [parseExtensionsGo]
  | succ fuel ih =>
      intro k context acc w
      simp only [parseExtensionsGo]
      by_cases hkc : k < count
      · rw [if_pos hkc, if_pos hkc]
        rcases hu : ({ ctx := ctx, blockIndex := k + 1, blockOffset := EDID_BLOCK_LENGTH * (k + 1) } : BlockReader).u8 0 with ⟨u, w1⟩
        rcases u with _ | extTag
        · simp
        · dsimp only
          rcases hF : f { ctx := ctx, blockIndex := k + 1, blockOffset := EDID_BLOCK_LENGTH * (k + 1) } k context extTag with ⟨res, c2, w2⟩
          rcases res with e | b
          · dsimp only
            rw [ih (k + 1) c2 (acc ++ [(parseUnknownExtension { ctx := ctx, blockIndex := k + 1, blockOffset := EDID_BLOCK_LENGTH * (k + 1) } k).1]), ih (k + 1) c2 ([] ++ [(parseUnknownExtension { ctx := ctx, blockIndex := k + 1, blockOffset := EDID_BLOCK_LENGTH * (k + 1) } k).1])]
            simp
          · dsimp only
            rw [ih (k + 1) c2 (acc ++ [b]), ih (k + 1) c2 ([] ++ [b])]
            simp
      · rw [if_neg hkc, if_neg hkc]
        simp

/-- Two dispatchers that agree on every block index beyond `i` drive the
loop identically once past `i`. -/
theorem parseExtensionsGo_agree_after (f g : ExtensionBlockParser)
    (ctx : ReadCtx) (count i : Nat)
    (hagree : ∀ r k c t, k ≠ i → g r k c t = f r k c t) :
    ∀ (fuel k : Nat) (context : ExtensionParseContext)
      (acc : List ParsedExtensionBlock) (w w' : List Warning),
    i < k →
    (parseExtensionsGo g ctx count fuel k context acc w).1 =
      (parseExtensionsGo f ctx count fuel k context acc w').1 := by
  intro fuel
  induction fuel with
  | zero =>
      intro k context acc w w' hik
      rfl
  | succ fuel ih =>
      intro k context acc w w' hik
      simp only [parseExtensionsGo]
      by_cases hkc : k < count
      · rw [if_pos hkc, if_pos hkc]
        rcases hu : ({ ctx := ctx, blockIndex := k + 1, blockOffset := EDID_BLOCK_LENGTH * (k + 1) } : BlockReader).u8 0 with ⟨u, w1⟩
        rcases u with _ | extTag
        · rfl
        · dsimp only
          rw [hagree _ k context extTag (by omega)]
          rcases hF : f { ctx := ctx, blockIndex := k + 1, blockOffset := EDID_BLOCK_LENGTH * (k + 1) } k context extTag with ⟨res, c2, w2⟩
          rcases res with e | b
          · exact ih (k + 1) c2 (acc ++ [(parseUnknownExtension { ctx := ctx, blockIndex := k + 1, blockOffset := EDID_BLOCK_LENGTH * (k + 1) } k).1]) _ _ (by omega)
          · exact ih (k + 1) c2 (acc ++ [b]) _ _ (by omega)
      · rw [if_neg hkc, if_neg hkc]

/-- A dispatcher faulting (context-neutrally) at block `i`, agreeing with a
fault-free one everywhere else, produces the fault-free run's list with
entry `i` replaced by the unknown-extension fallback. -/
theorem parseExtensionsGo_fault_set (f g : ExtensionBlockParser)
    (ctx : ReadCtx) (count i : Nat)
    (hagree : ∀ r k c t, k ≠ i → g r k c t = f r k c t)
    (hf : ∀ r c t, (f r i c t).2.1 = c ∧ ∃ b, (f r i c t).1 = .ok b)
    (hg : ∀ r c t, (g r i c t).2.1 = c ∧ ∃ e, (g r i c t).1 = .error e) :
    ∀ (fuel k : Nat) (context : ExtensionParseContext)
      (acc : List ParsedExtensionBlock) (w w' : List Warning),
    k ≤ i →
    (parseExtensionsGo g ctx count fuel k context acc w).1 =
      ((parseExtensionsGo f ctx count fuel k context acc w').1).set
        (acc.length + (i - k))
        (parseUnknownExtension { ctx := ctx, blockIndex := i + 1, blockOffset := EDID_BLOCK_LENGTH * (i + 1) } i).1 := by
  intro fuel
  induction fuel with
  | zero =>
      intro k context acc w w' hki
      exact (set_of_length_le acc _ _ (by omega)).symm
  | succ fuel ih =>
      intro k context acc w w' hki
      simp only [parseExtensionsGo]
      by_cases hkc : k < count
      · rw [if_pos hkc, if_pos hkc]
        rcases hu : ({ ctx := ctx, blockIndex := k + 1, blockOffset := EDID_BLOCK_LENGTH * (k + 1) } : BlockReader).u8 0 with ⟨u, w1⟩
        rcases u with _ | extTag
        · exact (set_of_length_le acc _ _ (by omega)).symm
        · dsimp only
          by_cases hk : k = i
          · subst hk
            obtain ⟨hgc, e, hge⟩ := hg { ctx := ctx, blockIndex := k + 1, blockOffset := EDID_BLOCK_LENGTH * (k + 1) } context extTag
            obtain ⟨hfc, b, hfe⟩ := hf { ctx := ctx, blockIndex := k + 1, blockOffset := EDID_BLOCK_LENGTH * (k + 1) } context extTag
            rcases hG : g { ctx := ctx, blockIndex := k + 1, blockOffset := EDID_BLOCK_LENGTH * (k + 1) } k context extTag with ⟨resG, cG, wG⟩
            rcases hF : f { ctx := ctx, blockIndex := k + 1, blockOffset := EDID_BLOCK_LENGTH * (k + 1) } k context extTag with ⟨resF, cF, wF⟩
            rw [hG] at hge hgc
            rw [hF] at hfe hfc
            dsimp only at hge hgc hfe hfc
            subst hge
            subst hfe
            dsimp only
            rw [hgc, hfc]
            rw [parseExtensionsGo_acc g ctx count fuel (k + 1) context
              (acc ++ [(parseUnknownExtension { ctx := ctx, blockIndex := k + 1, blockOffset := EDID_BLOCK_LENGTH * (k + 1) } k).1]),
              parseExtensionsGo_acc f ctx count fuel (k + 1) context
              (acc ++ [b])]
            rw [parseExtensionsGo_agree_after f g ctx count k hagree fuel
              (k + 1) context [] [] [] (by omega)]
            rw [show (acc ++ [b]) ++
                (parseExtensionsGo f ctx count fuel (k + 1) context [] []).1 =
              acc ++ b ::
                (parseExtensionsGo f ctx count fuel (k + 1) context [] []).1
              from by simp]
            rw [show acc.length + (k - k) = acc.length from by omega]
            rw [set_append_length]
            simp
          · have hklt : k < i := by omega
            rw [hagree _ k context extTag hk]
            rcases hF : f { ctx := ctx, blockIndex := k + 1, blockOffset := EDID_BLOCK_LENGTH * (k + 1) } k context extTag with ⟨res, c2, w2⟩
            rcases res with e | b
            · dsimp only
              rw [show acc.length + (i - k) =
                  (acc ++ [(parseUnknownExtension { ctx := ctx, blockIndex := k + 1, blockOffset := EDID_BLOCK_LENGTH * (k + 1) } k).1]).length +
                    (i - (k + 1)) from by
                simp only [List.length_append, List.length_cons,
                  List.length_nil]
                omega]
              exact ih (k + 1) c2 (acc ++ [(parseUnknownExtension { ctx := ctx, blockIndex := k + 1, blockOffset := EDID_BLOCK_LENGTH * (k + 1) } k).1]) _ _ (by omega)
            · dsimp only
              rw [show acc.length + (i - k) =
                  (acc ++ [b]).length + (i - (k + 1)) from by
                simp only [List.length_append, List.length_cons,
                  List.length_nil]
                omega]
              exact ih (k + 1) c2 (acc ++ [b]) _ _ (by omega)
      · rw [if_neg hkc, if_neg hkc]
        exact (set_of_length_le acc _ _ (by omega)).symm

/-- The base block does not depend on the extension-block dispatcher. -/
theorem parseEdidBytesWith_baseBlock (f g : ExtensionBlockParser)
    (bytes : List Nat) :
    (parseEdidBytesWith f bytes).baseBlock =
      (parseEdidBytesWith g bytes).baseBlock := by
  simp only [parseEdidBytesWith]

/-- A concrete fault-free dispatcher used to witness the fault-isolation
theorem: every block decodes to the unknown-extension fallback. -/
def c8OkParser : ExtensionBlockParser := fun r k c _t =>
  (.ok (parseUnknownExtension r k).1, c, (parseUnknownExtension r k).2)

/-- The same dispatcher, except that decoding extension block 0 faults. -/
def c8FaultParser : ExtensionBlockParser := fun r k c t =>
  if k = 0 then (.error "fault", c, []) else c8OkParser r k c t

/-- Claim C8: a fault while decoding one extension block is caught at
per-block granularity.  (1) When the dispatcher returns an error for block
`extIndex`, the loop appends a `parse_error` warning located at that block,
represents the block by the unknown-extension fallback, and continues with
the next block.  (2) The fallback block's extensionType is `unknown`.
(3) The base block never depends on the extension dispatcher, so a faulting
block leaves it unchanged.  (4) If a dispatcher faults (context-neutrally)
at block `i` but agrees with a fault-free dispatcher on every other block,
the resulting extension list is the fault-free list with entry `i` alone
replaced by the unknown-extension fallback: all other blocks' decoded
contents are unchanged. -/
theorem c8_extension_fault_isolation :
    (∀ (f : ExtensionBlockParser) (ctx : ReadCtx) (count fuel extIndex : Nat)
       (context context2 : ExtensionParseContext)
       (acc : List ParsedExtensionBlock) (w w1 w2 : List Warning)
       (extTag : Nat) (e : String),
       extIndex < count →
       ({ ctx := ctx, blockIndex := extIndex + 1, blockOffset := EDID_BLOCK_LENGTH * (extIndex + 1) } : BlockReader).u8 0 = (some extTag, w1) →
       f { ctx := ctx, blockIndex := extIndex + 1, blockOffset := EDID_BLOCK_LENGTH * (extIndex + 1) } extIndex context extTag = (.error e, context2, w2) →
       parseExtensionsGo f ctx count (fuel + 1) extIndex context acc w =
         parseExtensionsGo f ctx count fuel (extIndex + 1) context2
           (acc ++ [(parseUnknownExtension { ctx := ctx, blockIndex := extIndex + 1, blockOffset := EDID_BLOCK_LENGTH * (extIndex + 1) } extIndex).1])
           (w ++ w1 ++ w2 ++
             [mkWarning .parse_error ("Failed to parse extension block.")
               (some (extIndex + 1)) (some 0)] ++
             (parseUnknownExtension { ctx := ctx, blockIndex := extIndex + 1, blockOffset := EDID_BLOCK_LENGTH * (extIndex + 1) } extIndex).2)) ∧
    (∀ (r : BlockReader) (j : Nat),
       (parseUnknownExtension r j).1.extensionType = .unknownExt) ∧
    (∀ (f g : ExtensionBlockParser) (bytes : List Nat),
       (parseEdidBytesWith f bytes).baseBlock =
         (parseEdidBytesWith g bytes).baseBlock) ∧
    (∀ (f g : ExtensionBlockParser) (ctx : ReadCtx) (count i : Nat)
       (c0 : ExtensionParseContext),
       (∀ r k c t, k ≠ i → g r k c t = f r k c t) →
       (∀ r c t, (f r i c t).2.1 = c ∧ ∃ b, (f r i c t).1 = .ok b) →
       (∀ r c t, (g r i c t).2.1 = c ∧ ∃ e, (g r i c t).1 = .error e) →
       (parseExtensionsWith g ctx count c0).1 =
         ((parseExtensionsWith f ctx count c0).1).set i
           (parseUnknownExtension { ctx := ctx, blockIndex := i + 1, blockOffset := EDID_BLOCK_LENGTH * (i + 1) } i).1) := by
  refine ⟨?_, ?_, ?_, ?_⟩
  · intro f ctx count fuel extIndex context context2 acc w w1 w2 extTag e
      hlt hu8 hf
    simp only [parseExtensionsGo]
    rw [if_pos hlt, hu8]
    dsimp only
    rw [hf]
  · intro r j
    exact parseUnknownExtension_type r j
  · intro f g bytes
    exact parseEdidBytesWith_baseBlock f g bytes
  · intro f g ctx count i c0 hagree hf hg
    have h := parseExtensionsGo_fault_set f g ctx count i hagree hf hg
      count 0 c0 [] [] [] (Nat.zero_le i)
    simpa using h

/-- Witness for C8: with 256 zero bytes (one extension block), the
dispatcher faulting at block 0 yields the fault-free run's list with entry
0 replaced by the unknown fallback, the same base block, and the one-step
catch equation holds at block 0. -/
theorem c8_extension_fault_isolation_witness :
    ((parseExtensionsWith c8FaultParser { bytes := List.replicate 256 0 } 1 {}).1 =
      ((parseExtensionsWith c8OkParser { bytes := List.replicate 256 0 } 1 {}).1).set 0
        (parseUnknownExtension { ctx := { bytes := List.replicate 256 0 }, blockIndex := 0 + 1, blockOffset := EDID_BLOCK_LENGTH * (0 + 1) } 0).1) ∧
    ((parseEdidBytesWith c8FaultParser (List.replicate 256 0)).baseBlock =
      (parseEdidBytesWith c8OkParser (List.replicate 256 0)).baseBlock) ∧
    (parseExtensionsGo c8FaultParser { bytes := List.replicate 256 0 } 1 1 0 {} [] [] =
      parseExtensionsGo c8FaultParser { bytes := List.replicate 256 0 } 1 0 (0 + 1) {}
        ([] ++ [(parseUnknownExtension { ctx := { bytes := List.replicate 256 0 }, blockIndex := 0 + 1, blockOffset := EDID_BLOCK_LENGTH * (0 + 1) } 0).1])
        ([] ++ [] ++ [] ++
          [mkWarning .parse_error ("Failed to parse extension block.")
            (some (0 + 1)) (some 0)] ++
          (parseUnknownExtension { ctx := { bytes := List.replicate 256 0 }, blockIndex := 0 + 1, blockOffset := EDID_BLOCK_LENGTH * (0 + 1) } 0).2)) := by
  refine ⟨?_, ?_, ?_⟩
  · exact c8_extension_fault_isolation.2.2.2 c8OkParser c8FaultParser
      { bytes := List.replicate 256 0 } 1 0 {}
      (fun r k c t hk => by simp [c8FaultParser, hk])
      (fun r c t => ⟨rfl, ⟨(parseUnknownExtension r 0).1, rfl⟩⟩)
      (fun r c t => ⟨rfl, ⟨"fault", rfl⟩⟩)
  · exact c8_extension_fault_isolation.2.2.1 c8FaultParser c8OkParser
      (List.replicate 256 0)
  · exact c8_extension_fault_isolation.1 c8FaultParser
      { bytes := List.replicate 256 0 } 1 0 0 {} {} [] [] [] [] 0 "fault"
      (by decide) (by decide) rfl

end EdidParser

